import Mathlib

/-!
# Dockyard: rolling replacement of the worker nodes of an auto-scaling group

A shallow embedding of the rollout orchestrator of `pkg/aws` and of the cluster
adapter of `pkg/kube`, followed by theorems about them.

Conventions of the embedding.

* A Go pointer that the code tests against `nil`, or that the AWS SDK does not
  document as a required field, is an `Option`; dereferencing `none` is the
  run-time panic of Go and is the `Go.panic` outcome.  Fields the SDK documents
  as required (`AutoScalingGroupName`, `InstanceId`, `HealthStatus`, `MinSize`,
  `MaxSize`, `DesiredCapacity`) are plain values.
* `int` and `int64` are `Int`; the platform is 64-bit, so `int(x)` and
  `int64(x)` are the identity.  Additions on capacities go through `wrap64`.
* Log lines and sends on the event and progress channels have no effect on the
  cloud or on the cluster and are left out, except where evaluating their
  arguments can panic.
* A goroutine is represented by what it sends, in order.  What the code does not
  decide is an argument of the model: the outcome of the workflows of a batch
  (`Workflows`), the context, the poller and the evolution of the cluster around
  one workflow (`Surroundings`), the order of arrival on a shared channel (the
  schedule of `DrainNode`), and the answers of the pod calls (`PodApi`).
-/

namespace Dockyard

/-! ## Outcomes of Go calls -/

/-- Outcome of a Go call: it returns a value or it aborts with a run-time panic. -/
inductive Go (α : Type) where
  | ret (a : α)
  | panic (msg : String)
  deriving Repr, DecidableEq

/-- The message of the run-time panic raised by dereferencing a nil pointer. -/
def nilDeref : String := "invalid memory address or nil pointer dereference"

/-! ## `strconv.Atoi` (Go standard library) -/

/-- Value of a non-empty string of ASCII digits, `none` when a character is not a digit
or the string is empty. -/
def digitsToNat (cs : List Char) : Option Nat :=
  if cs.isEmpty then none
  else cs.foldl
    (fun acc c =>
      match acc with
      | none => none
      | some n => if c.isDigit then some (n * 10 + (c.toNat - 48)) else none)
    (some 0)

/-- Go's `strconv.Atoi` on a 64-bit platform: an optional sign followed by at least one
decimal digit.  The second component is the error (`none` is `nil`); on a syntax error the
value is `0`, on a range error it is the nearest bound of `int64`. -/
def Atoi (s : String) : Int × Option String :=
  let cs := s.data
  let signed : Bool × List Char :=
    match cs with
    | '-' :: r => (true, r)
    | '+' :: r => (false, r)
    | _ => (false, cs)
  match digitsToNat signed.2 with
  | none => (0, some "invalid syntax")
  | some n =>
    if signed.1 then
      (if n ≤ 2 ^ 63 then (-(n : Int), none) else (-(2 ^ 63 : Int), some "value out of range"))
    else
      (if n < 2 ^ 63 then ((n : Int), none) else ((2 ^ 63 : Int) - 1, some "value out of range"))

/-! ## Data model of the ASG adapter (`pkg/aws/asgdetails.go`) -/

/-- The SDK type `autoscaling.LaunchTemplateSpecification`: both fields are pointers. -/
structure LaunchTemplateSpecification where
  LaunchTemplateId : Option String
  Version : Option String
  deriving Repr, DecidableEq

/-- The SDK type `autoscaling.Instance`, restricted to the fields the code reads. -/
structure Instance where
  InstanceId : String
  LaunchConfigurationName : Option String
  LaunchTemplate : Option LaunchTemplateSpecification
  HealthStatus : String := "Healthy"
  deriving Repr, DecidableEq

/-- The SDK type `ec2.ResponseLaunchTemplateData`. -/
structure ResponseLaunchTemplateData where
  ImageId : Option String
  deriving Repr, DecidableEq

/-- The SDK type `ec2.LaunchTemplateVersion`. -/
structure LaunchTemplateVersion where
  LaunchTemplateId : Option String
  VersionNumber : Option Int
  LaunchTemplateData : Option ResponseLaunchTemplateData
  deriving Repr, DecidableEq

/-- The SDK type `autoscaling.LaunchConfiguration`. -/
structure LaunchConfiguration where
  ImageId : Option String
  deriving Repr, DecidableEq

/-- The SDK type `autoscaling.LaunchTemplate` (the template of a mixed-instances policy). -/
structure PolicyLaunchTemplate where
  LaunchTemplateSpecification : Option LaunchTemplateSpecification
  deriving Repr, DecidableEq

/-- The SDK type `autoscaling.MixedInstancesPolicy`. -/
structure MixedInstancesPolicy where
  LaunchTemplate : Option PolicyLaunchTemplate
  deriving Repr, DecidableEq

/-- The SDK type `autoscaling.Group`, restricted to the fields the code reads. -/
structure Group where
  AutoScalingGroupName : String
  LaunchConfigurationName : Option String
  LaunchTemplate : Option LaunchTemplateSpecification
  MixedInstancesPolicy : Option MixedInstancesPolicy
  Instances : List Instance
  MinSize : Int
  MaxSize : Int
  DesiredCapacity : Int
  NewInstancesProtectedFromScaleIn : Bool
  deriving Repr, DecidableEq

/-- Answers of the two read-only describe calls that classification makes.  The argument
is the identifier sent in the request; `Except.error` is a failed call. -/
structure LaunchApi where
  DescribeLaunchTemplateVersions : Option String → Except String (List LaunchTemplateVersion)
  DescribeLaunchConfigurations : String → Except String (List LaunchConfiguration)

/-- The four results of `getOldnNewInstancesOfAsg`; `err = none` is the nil error. -/
structure Classified where
  oldInstances : List String
  newInstances : List String
  defaultAmiId : Option String
  err : Option String
  deriving Repr, DecidableEq

/-! ## Classification of instances (`getOldnNewInstancesOfAsg`) -/

/-- The loop over `LaunchTemplateVersions` (asgdetails.go 287-293 and 310-317), started
from `latestVersionNumber` and `latestLaunchTemplateId`. -/
def latestVersionLoop : List LaunchTemplateVersion → Int → String → Go (Int × String)
  | [], latestVersionNumber, latestLaunchTemplateId =>
    .ret (latestVersionNumber, latestLaunchTemplateId)
  | launchTemplate :: rest, latestVersionNumber, latestLaunchTemplateId =>
    match launchTemplate.VersionNumber with
    | none => .panic nilDeref
    | some n =>
      if n > latestVersionNumber then
        match launchTemplate.LaunchTemplateId with
        | none => .panic nilDeref
        | some tid => latestVersionLoop rest n tid
      else latestVersionLoop rest latestVersionNumber latestLaunchTemplateId

/-- The values the first part of `getOldnNewInstancesOfAsg` leaves in its local variables. -/
structure Latest where
  latestVersionNumber : Int
  latestLaunchTemplateId : String
  launchConfigName : String
  isLaunchConfig : Bool
  defaultAmiId : Option String
  deriving Repr, DecidableEq

/-- The body shared by the launch-template and the mixed-instances branches
(asgdetails.go 281-297 and 304-321): describe the versions of the template, take the
greatest version number, and read the image id of the first version returned.
`Except.error` is the early return with the error of the describe call. -/
def templateBranch (api : LaunchApi) (templateId : Option String) :
    Go (Except String Latest) :=
  match api.DescribeLaunchTemplateVersions templateId with
  | .error e => .ret (.error e)
  | .ok versions =>
    match latestVersionLoop versions (-1) "" with
    | .panic m => .panic m
    | .ret (v, tid) =>
      match versions with
      | [] => .ret (.ok ⟨v, tid, "", false, none⟩)
      | first :: _ =>
        match first.LaunchTemplateData with
        | none => .panic nilDeref
        | some d => .ret (.ok ⟨v, tid, "", false, d.ImageId⟩)

/-- The variant dispatch of `getOldnNewInstancesOfAsg` (asgdetails.go 240-323), in the
priority launch configuration, launch template, mixed-instances policy. -/
def resolveLatest (api : LaunchApi) (group : Group) : Go (Except String Latest) :=
  match group.LaunchConfigurationName with
  | some lcName =>
    match api.DescribeLaunchConfigurations lcName with
    | .error e => .ret (.error e)
    | .ok lcs =>
      match lcs with
      | [] => .ret (.ok ⟨-1, "", lcName, true, none⟩)
      | lc :: _ => .ret (.ok ⟨-1, "", lcName, true, lc.ImageId⟩)
  | none =>
    match group.LaunchTemplate with
    | some lt => templateBranch api lt.LaunchTemplateId
    | none =>
      match group.MixedInstancesPolicy with
      | some policy =>
        match policy.LaunchTemplate with
        | none => .panic nilDeref
        | some plt =>
          match plt.LaunchTemplateSpecification with
          | none => .panic nilDeref
          | some spec => templateBranch api spec.LaunchTemplateId
      | none => .ret (.ok ⟨-1, "", "", false, none⟩)

/-- The loop over the instances when the group has no launch configuration
(asgdetails.go 335-355); the two accumulators are `oldInstances` and `newInstances`. -/
def classifyByTemplate (latestLaunchTemplateId : String) (latestVersionNumber : Int) :
    List Instance → List String → List String → Go (List String × List String)
  | [], oldInstances, newInstances => .ret (oldInstances, newInstances)
  | inst :: rest, oldInstances, newInstances =>
    match inst.LaunchTemplate with
    | none =>
      classifyByTemplate latestLaunchTemplateId latestVersionNumber rest
        (oldInstances ++ [inst.InstanceId]) newInstances
    | some lt =>
      match lt.Version with
      | none => .panic nilDeref
      | some version =>
        match Atoi version with
        | (currentVersion, none) =>
          match lt.LaunchTemplateId with
          | none => .panic nilDeref
          | some tid =>
            if latestLaunchTemplateId == tid && currentVersion == latestVersionNumber then
              classifyByTemplate latestLaunchTemplateId latestVersionNumber rest
                oldInstances (newInstances ++ [inst.InstanceId])
            else
              classifyByTemplate latestLaunchTemplateId latestVersionNumber rest
                (oldInstances ++ [inst.InstanceId]) newInstances
        | (_, some _) =>
          classifyByTemplate latestLaunchTemplateId latestVersionNumber rest
            (oldInstances ++ [inst.InstanceId]) newInstances

/-- The loop over the instances when the group has a launch configuration
(asgdetails.go 357-369). -/
def classifyByConfig (launchConfigName : String) :
    List Instance → List String → List String → List String × List String
  | [], oldInstances, newInstances => (oldInstances, newInstances)
  | inst :: rest, oldInstances, newInstances =>
    match inst.LaunchConfigurationName with
    | some name =>
      if name == launchConfigName then
        classifyByConfig launchConfigName rest oldInstances (newInstances ++ [inst.InstanceId])
      else
        classifyByConfig launchConfigName rest (oldInstances ++ [inst.InstanceId]) newInstances
    | none =>
      classifyByConfig launchConfigName rest (oldInstances ++ [inst.InstanceId]) newInstances

/-- The function `getOldnNewInstancesOfAsg` of asgdetails.go. -/
def getOldnNewInstancesOfAsg (api : LaunchApi) (group : Group) : Go Classified :=
  match resolveLatest api group with
  | .panic m => .panic m
  | .ret (.error e) => .ret ⟨[], [], none, some e⟩
  | .ret (.ok l) =>
    if !l.isLaunchConfig then
      match classifyByTemplate l.latestLaunchTemplateId l.latestVersionNumber
          group.Instances [] [] with
      | .panic m => .panic m
      | .ret (oldInstances, newInstances) =>
        .ret ⟨oldInstances, newInstances, l.defaultAmiId, none⟩
    else
      match classifyByConfig l.launchConfigName group.Instances [] [] with
      | (oldInstances, newInstances) =>
        .ret ⟨oldInstances, newInstances, l.defaultAmiId, none⟩

/-! ## Specification-side predicates and scenarios for classification -/

/-- The rule of the data model, in the words of the specification: the instance carries a
launch-template reference whose template id is the latest template id and whose version
parses as an integer equal to the latest version number. -/
def carriesLatest (latestId : String) (latestVer : Int) (i : Instance) : Bool :=
  match i.LaunchTemplate with
  | none => false
  | some lt =>
    match lt.LaunchTemplateId, lt.Version with
    | some tid, some version =>
      tid == latestId && ((Atoi version).2 == none && (Atoi version).1 == latestVer)
    | _, _ => false

/-- The launch-template versions 1, 2, 5, 3 of scenario 5, in that order. -/
def scenarioVersions : List LaunchTemplateVersion :=
  [⟨some "lt-1", some 1, some ⟨some "ami-1"⟩⟩, ⟨some "lt-1", some 2, some ⟨some "ami-2"⟩⟩,
   ⟨some "lt-1", some 5, some ⟨some "ami-5"⟩⟩, ⟨some "lt-1", some 3, some ⟨some "ami-3"⟩⟩]

/-- A cloud in which every template has the versions of scenario 5. -/
def scenarioApi : LaunchApi where
  DescribeLaunchTemplateVersions := fun _ => .ok scenarioVersions
  DescribeLaunchConfigurations := fun _ => .ok []

/-- The group of scenario 5: four instances carrying the versions 1, 5, 5 and $Latest. -/
def scenarioGroup : Group where
  AutoScalingGroupName := "A"
  LaunchConfigurationName := none
  LaunchTemplate := some ⟨some "lt-1", some "$Latest"⟩
  MixedInstancesPolicy := none
  Instances :=
    [⟨"i-1", none, some ⟨some "lt-1", some "1"⟩, "Healthy"⟩,
     ⟨"i-2", none, some ⟨some "lt-1", some "5"⟩, "Healthy"⟩,
     ⟨"i-3", none, some ⟨some "lt-1", some "5"⟩, "Healthy"⟩,
     ⟨"i-4", none, some ⟨some "lt-1", some "$Latest"⟩, "Healthy"⟩]
  MinSize := 4
  MaxSize := 6
  DesiredCapacity := 4
  NewInstancesProtectedFromScaleIn := false

/-- A cloud with one launch configuration and no launch template. -/
def configApi : LaunchApi where
  DescribeLaunchTemplateVersions := fun _ => .error "not a launch template"
  DescribeLaunchConfigurations := fun _ => .ok [⟨some "ami-7"⟩]

/-- A group on launch configuration lc-2 with an instance of lc-1, one of lc-2 and one
without a launch-configuration name. -/
def configGroup : Group where
  AutoScalingGroupName := "B"
  LaunchConfigurationName := some "lc-2"
  LaunchTemplate := none
  MixedInstancesPolicy := none
  Instances := [⟨"i-1", some "lc-1", none, "Healthy"⟩,
    ⟨"i-2", some "lc-2", none, "Healthy"⟩, ⟨"i-3", none, none, "Healthy"⟩]
  MinSize := 3
  MaxSize := 3
  DesiredCapacity := 3
  NewInstancesProtectedFromScaleIn := false

/-- The group of scenario 5 with a fifth instance, placed first, whose launch-template
reference has a template id and no version. -/
def missingVersionGroup : Group :=
  { scenarioGroup with
    Instances := ⟨"i-0", none, some ⟨some "lt-1", none⟩, "Healthy"⟩ :: scenarioGroup.Instances }

/-! ## The cloud and the cluster

The state both APIs act on.  The cloud stores what it is sent: the validation rules of
the provider (such as `min ≤ desired ≤ max`) are not modelled.  A call of the API `a`
fails exactly when `a` is listed in `World.failing`. -/

/-- An `error` of the cluster API; `isNotFound` is what `apierrors.IsNotFound` tests. -/
structure KubeError where
  msg : String
  isNotFound : Bool
  deriving Repr, DecidableEq

/-- The type `corev1.NodeCondition`; `CondType` is its field `Type`. -/
structure NodeCondition where
  CondType : String
  Status : String
  deriving Repr, DecidableEq

/-- The type `corev1.Node`, restricted to the fields the code reads.  `Labels` is a Go
map: `none` is the nil map, `some m` an association list read at its first match. -/
structure Node where
  Name : String
  Labels : Option (List (String × String))
  Unschedulable : Bool
  Conditions : List NodeCondition
  deriving Repr, DecidableEq

/-- The SDK type `ec2.Instance`, restricted to the fields the code reads. -/
structure Ec2Instance where
  InstanceId : String
  PrivateDnsName : Option String
  deriving Repr, DecidableEq

/-- The SDK type `ec2.Reservation`. -/
structure Reservation where
  Instances : List Ec2Instance
  deriving Repr, DecidableEq

/-- The SDK type `autoscaling.TagDescription`. -/
structure TagDescription where
  ResourceId : String
  Key : String
  Value : String
  deriving Repr, DecidableEq

/-- The remote calls that can fail. -/
inductive Api where
  | DescribeAutoScalingGroups
  | UpdateAutoScalingGroup
  | SetDesiredCapacity
  | DescribeInstances
  | DescribeTags
  | CreateOrUpdateTags
  | DeleteTags
  | SetInstanceProtection
  | NodesGet
  | NodesUpdate
  | NodesList
  | NodesDelete
  | TerminateInstances
  deriving Repr, DecidableEq

/-- The state of the cloud account and of the cluster. -/
structure World where
  groups : List Group
  tags : List TagDescription
  reservations : List Reservation
  launch : LaunchApi
  nodes : List Node
  failing : List Api

/-- The type `AsgRolloutConfig` of asgrollout.go; periods and timeouts are in the unit the
code gives them. -/
structure AsgRolloutConfig where
  IgnoreNotFound : Bool
  ForceDeletePods : Bool
  BeforePost : Int
  AfterBatch : Int
  WaitForReady : Int
  WaitForNewNode : Int
  NewNodeTimeout : Int
  deriving Repr, DecidableEq

/-- The variable `NodeStateLabelKey` of tags.go. -/
def NodeStateLabelKey : String := "dockyard.io/node-state"

/-- Replace the first element that satisfies `p` by its image under `f`. -/
def modifyFirst {α : Type} (p : α → Bool) (f : α → α) : List α → List α
  | [] => []
  | x :: rest => if p x then f x :: rest else x :: modifyFirst p f rest

/-- Replace the first element that satisfies `p` by `x`, or append `x` when there is none. -/
def upsertFirst {α : Type} (p : α → Bool) (x : α) : List α → List α
  | [] => [x]
  | y :: rest => if p y then x :: rest else y :: upsertFirst p x rest

/-! ### The cluster API (`clientSet.CoreV1().Nodes()`) -/

/-- The zero value of `corev1.Node`, which the typed client returns next to an error. -/
def zeroNode : Node := ⟨"", none, false, []⟩

/-- The call `Nodes().Get`: the request is rejected before it is sent when the name is
empty, and answered NotFound when the cluster has no node of that name. -/
def nodesGet (w : World) (nodeName : String) : Node × Option KubeError :=
  if w.failing.contains Api.NodesGet then (zeroNode, some ⟨"nodes get failed", false⟩)
  else if nodeName == "" then (zeroNode, some ⟨"resource name may not be empty", false⟩)
  else
    match w.nodes.find? (fun n => n.Name == nodeName) with
    | some n => (n, none)
    | none => (zeroNode, some ⟨"nodes " ++ nodeName ++ " not found", true⟩)

/-- The call `Nodes().Update`: the request is rejected before it is sent when the node has
no name, and answered NotFound when the cluster has no node of that name. -/
def nodesUpdate (w : World) (node : Node) : World × Option KubeError :=
  if w.failing.contains Api.NodesUpdate then (w, some ⟨"nodes update failed", false⟩)
  else if node.Name == "" then (w, some ⟨"resource name may not be empty", false⟩)
  else if w.nodes.any (fun n => n.Name == node.Name) then
    ({ w with nodes := modifyFirst (fun n => n.Name == node.Name) (fun _ => node) w.nodes }, none)
  else (w, some ⟨"nodes " ++ node.Name ++ " not found", true⟩)

/-- Whether a node satisfies the equality selector `key=value`. -/
def matchesSelector (selector : String) (n : Node) : Bool :=
  match n.Labels with
  | none => false
  | some m => m.any (fun kv => kv.1 ++ "=" ++ kv.2 == selector)

/-- The call `Nodes().List` with a label selector; the items are empty next to an error. -/
def nodesList (w : World) (selector : String) : List Node × Option KubeError :=
  if w.failing.contains Api.NodesList then ([], some ⟨"nodes list failed", false⟩)
  else (w.nodes.filter (matchesSelector selector), none)

/-! ### The cluster adapter (`pkg/kube/kube.go`)

`retry.RetryOnConflict` repeats its body only on a conflict answer; the cluster of this
model never answers with a conflict, so the body runs once. -/

/-- The function `filterError` of kube.go. -/
def filterError (err : Option KubeError) (ignoreNotFoundErrors : Bool) : Option KubeError :=
  if ignoreNotFoundErrors then
    match err with
    | some e => if e.isNotFound then none else err
    | none => err
  else err

/-- Reading a Go map of strings: the zero value when the map is nil or has no such key. -/
def mapLookup (labels : Option (List (String × String))) (key : String) : String :=
  match labels with
  | none => ""
  | some m => (m.lookup key).getD ""

/-- The method `AddLabelToNode` of kube.go.  Writing into the nil map is a run-time panic. -/
def AddLabelToNode (w : World) (nodeName labelKey labelVal : String)
    (ignoreNotFoundErrors : Bool) : World × Go (Option KubeError) :=
  match nodesGet w nodeName with
  | (node, err) =>
    if (filterError err ignoreNotFoundErrors).isSome then (w, .ret err)
    else if mapLookup node.Labels labelKey != labelVal then
      match node.Labels with
      | none => (w, .panic "assignment to entry in nil map")
      | some m =>
        let labels := upsertFirst (fun kv => kv.1 == labelKey) (labelKey, labelVal) m
        match nodesUpdate w { node with Labels := some labels } with
        | (w1, err1) => (w1, .ret (filterError err1 ignoreNotFoundErrors))
    else
      match nodesUpdate w node with
      | (w1, err1) => (w1, .ret (filterError err1 ignoreNotFoundErrors))

/-- The method `CordonNode` of kube.go. -/
def CordonNode (w : World) (nodeName : String) (ignoreNotFoundErrors : Bool) :
    World × Option KubeError :=
  match nodesGet w nodeName with
  | (node, err) =>
    if (filterError err ignoreNotFoundErrors).isSome then (w, err)
    else
      match nodesUpdate w { node with Unschedulable := true } with
      | (w1, err1) => (w1, filterError err1 ignoreNotFoundErrors)

/-- The method `GetNodeByLabel` of kube.go. -/
def GetNodeByLabel (w : World) (label : String) (ignoreNotFoundErrors : Bool) :
    List Node × Option KubeError :=
  match nodesList w label with
  | (items, err) =>
    if (filterError err ignoreNotFoundErrors).isSome then ([], err) else (items, none)

/-! ### The ASG adapter (`pkg/aws`) -/

/-- The call `DescribeAutoScalingGroups` with a list of group names. -/
def DescribeAutoScalingGroups (w : World) (names : List String) : Except String (List Group) :=
  if w.failing.contains Api.DescribeAutoScalingGroups then
    .error "DescribeAutoScalingGroups failed"
  else .ok (w.groups.filter (fun g => names.contains g.AutoScalingGroupName))

/-- The function `getAsg` of asgdetails.go: it indexes the first group of the answer. -/
def getAsg (w : World) (asgName : String) : Go (Option Group × Option String) :=
  match DescribeAutoScalingGroups w [asgName] with
  | .error e => .ret (none, some e)
  | .ok [] => .panic "index out of range [0] with length 0"
  | .ok (g :: _) => .ret (some g, none)

/-- The method `GetDesiredCount` of tags.go. -/
def GetDesiredCount (w : World) (asgName : String) : Go (Int × Option String) :=
  match getAsg w asgName with
  | .panic m => .panic m
  | .ret (_, some e) => .ret (0, some e)
  | .ret (none, none) => .panic nilDeref
  | .ret (some asg, none) => .ret (asg.DesiredCapacity, none)

/-- The method `GetMinCount` of tags.go. -/
def GetMinCount (w : World) (asgName : String) : Go (Int × Option String) :=
  match getAsg w asgName with
  | .panic m => .panic m
  | .ret (_, some e) => .ret (0, some e)
  | .ret (none, none) => .panic nilDeref
  | .ret (some asg, none) => .ret (asg.MinSize, none)

/-- The method `GetMaxCount` of tags.go. -/
def GetMaxCount (w : World) (asgName : String) : Go (Int × Option String) :=
  match getAsg w asgName with
  | .panic m => .panic m
  | .ret (_, some e) => .ret (0, some e)
  | .ret (none, none) => .panic nilDeref
  | .ret (some asg, none) => .ret (asg.MaxSize, none)

/-- The groups of the account after the change `f` of the group `asgName`. -/
def overGroup (asgName : String) (f : Group → Group) (groups : List Group) : List Group :=
  modifyFirst (fun g => g.AutoScalingGroupName == asgName) f groups

/-- The call `UpdateAutoScalingGroup` or `SetDesiredCapacity` for the group `asgName`: the
cloud applies `f` to that group, and answers with an error when it has no such group. -/
def updateGroup (w : World) (api : Api) (asgName : String) (f : Group → Group) :
    World × Option String :=
  if w.failing.contains api then (w, some "update of the auto scaling group failed")
  else if w.groups.any (fun g => g.AutoScalingGroupName == asgName) then
    ({ w with groups := overGroup asgName f w.groups }, none)
  else (w, some "ValidationError: AutoScalingGroup name not found")

/-- The method `SetDesiredCount` of tags.go. -/
def SetDesiredCount (w : World) (asgName : String) (capacity : Int) : World × Option String :=
  updateGroup w Api.SetDesiredCapacity asgName (fun g => { g with DesiredCapacity := capacity })

/-- The method `SetMinCount` of tags.go. -/
def SetMinCount (w : World) (asgName : String) (capacity : Int) : World × Option String :=
  updateGroup w Api.UpdateAutoScalingGroup asgName (fun g => { g with MinSize := capacity })

/-- The method `SetMaxCount` of tags.go. -/
def SetMaxCount (w : World) (asgName : String) (capacity : Int) : World × Option String :=
  updateGroup w Api.UpdateAutoScalingGroup asgName (fun g => { g with MaxSize := capacity })

/-- The group with scale-in protection of new instances switched on. -/
def protectNew (g : Group) : Group := { g with NewInstancesProtectedFromScaleIn := true }

/-- The method `EnableNewInstanceProtection` of asgrollout.go. -/
def EnableNewInstanceProtection (w : World) (asgName : String) : World × Option String :=
  updateGroup w Api.UpdateAutoScalingGroup asgName protectNew

/-- The method `DisableNewInstanceProtection` of asgrollout.go. -/
def DisableNewInstanceProtection (w : World) (asgName : String) : World × Option String :=
  updateGroup w Api.UpdateAutoScalingGroup asgName
    (fun g => { g with NewInstancesProtectedFromScaleIn := false })

/-- The effect of `CreateOrUpdateTags` on the tags of the account: the tag of the same
resource and key is overwritten, or the tag is created. -/
def putTag (resourceId key value : String) (tags : List TagDescription) :
    List TagDescription :=
  upsertFirst (fun t => t.ResourceId == resourceId && t.Key == key) ⟨resourceId, key, value⟩ tags

/-- The method `AddTagToAsG` of tags.go. -/
def AddTagToAsG (w : World) (asgName tagKey tagValue : String) : World × Option String :=
  if w.failing.contains Api.CreateOrUpdateTags then (w, some "CreateOrUpdateTags failed")
  else ({ w with tags := putTag asgName tagKey tagValue w.tags }, none)

/-- The call `DescribeTags` filtered on the group `asgName`. -/
def DescribeTags (w : World) (asgName : String) : Except String (List TagDescription) :=
  if w.failing.contains Api.DescribeTags then .error "DescribeTags failed"
  else .ok (w.tags.filter (fun t => t.ResourceId == asgName))

/-- The loop of `GetTagValueOfAsg` over the tags of the answer (tags.go 152-157). -/
def tagValueLoop (tagKey : String) : List TagDescription → Option Int
  | [] => none
  | tag :: rest => if tag.Key == tagKey then some (Atoi tag.Value).1 else tagValueLoop tagKey rest

/-- The method `GetTagValueOfAsg` of tags.go.  The error of `Atoi` is dropped; the message
of the last error has its two arguments in the order of the source. -/
def GetTagValueOfAsg (w : World) (asgName tagKey : String) : Int × Option String :=
  match DescribeTags w asgName with
  | .error e => (0, some e)
  | .ok tags =>
    match tagValueLoop tagKey tags with
    | some v => (v, none)
    | none => (0, some ("Tag with key " ++ asgName ++ " for asg " ++ tagKey ++ " not found"))

/-- Go's `strconv.Itoa`: the decimal representation of an integer. -/
def Itoa (n : Int) : String := toString n

/-- The method `GetOldnNewInstancesOfAsg` of asgdetails.go: old instances, new instances
and the error. -/
def GetOldnNewInstancesOfAsg (w : World) (asgName : String) :
    Go (List String × List String × Option String) :=
  match DescribeAutoScalingGroups w [asgName] with
  | .error e => .ret ([], [], some e)
  | .ok [] => .ret ([], [], some ("no autoscaling group found with name " ++ asgName))
  | .ok (g :: _) =>
    match getOldnNewInstancesOfAsg w.launch g with
    | .panic m => .panic m
    | .ret c => .ret (c.oldInstances, c.newInstances, c.err)

/-- The method `GetInstancesOfAsg` of asgdetails.go. -/
def GetInstancesOfAsg (w : World) (asgName : String) : Go (List String × Option String) :=
  match getAsg w asgName with
  | .panic m => .panic m
  | .ret (_, some e) => .ret ([], some e)
  | .ret (none, none) => .panic nilDeref
  | .ret (some asg, none) => .ret (asg.Instances.map (fun i => i.InstanceId), none)

/-- The call `DescribeInstances` for a list of instance ids: every reservation of the
account, restricted to the instances asked for. -/
def DescribeInstances (w : World) (ids : List String) : Except String (List Reservation) :=
  if w.failing.contains Api.DescribeInstances then .error "DescribeInstances failed"
  else .ok (w.reservations.map
    (fun r => ⟨r.Instances.filter (fun i => ids.contains i.InstanceId)⟩))

/-- The loop of `GetNodeNameFromInstanceId` over the reservations (nodes.go 30-44): the
private DNS name, a pointer, of the first instance of the first non-empty reservation. -/
def firstPrivateDnsName : List Reservation → Option (Option String)
  | [] => none
  | r :: rest =>
    match r.Instances with
    | i :: _ => some i.PrivateDnsName
    | [] => firstPrivateDnsName rest

/-- The method `GetNodeNameFromInstanceId` of nodes.go: the pointer and the error. -/
def GetNodeNameFromInstanceId (w : World) (instanceId : String) :
    Option String × Option String :=
  match DescribeInstances w [instanceId] with
  | .error e => (none, some e)
  | .ok reservations =>
    match firstPrivateDnsName reservations with
    | some name => (name, none)
    | none => (none, some "no node name found in any reservations")

/-- The function `getNodeStateLabel` of asgrollout.go. -/
def getNodeStateLabel (state : String) : String := NodeStateLabelKey ++ "=" ++ state

/-! ## The rollout orchestrator (`pkg/aws/asgrollout.go`) -/

/-- Two's-complement reduction of an integer to `int64`. -/
def wrap64 (n : Int) : Int := (n + 2 ^ 63) % 2 ^ 64 - 2 ^ 63

/-- The two labelling loops of `PreRolloutStart` (asgrollout.go 317-341 and 344-368), for
the label value `state`. -/
def labelInstances (cfg : AsgRolloutConfig) (state : String) :
    List String → World → World × Go (Option String)
  | [], w => (w, .ret none)
  | inst :: rest, w =>
    match GetNodeNameFromInstanceId w inst with
    | (_, some _) => (w, .ret (some ("Unable to get k8s Node for instance with id " ++ inst)))
    | (none, none) => (w, .panic nilDeref)
    | (some k8sNode, none) =>
      if k8sNode == "" then labelInstances cfg state rest w
      else
        match AddLabelToNode w k8sNode NodeStateLabelKey state cfg.IgnoreNotFound with
        | (w1, .panic m) => (w1, .panic m)
        | (w1, .ret (some e)) => (w1, .ret (some ("Unable to label k8s Node " ++ e.msg)))
        | (w1, .ret none) => labelInstances cfg state rest w1

/-- The three tag writes of `PreRolloutStart` (asgrollout.go 394-424). -/
def storeCapacityTags (w : World) (asgName : String) (asgMin asgMax asgDesired : Int) :
    World × Option String :=
  match AddTagToAsG w asgName "dockyard.io/min" (Itoa asgMin) with
  | (w1, some e) => (w1, some e)
  | (w1, none) =>
    match AddTagToAsG w1 asgName "dockyard.io/max" (Itoa asgMax) with
    | (w2, some e) => (w2, some e)
    | (w2, none) => AddTagToAsG w2 asgName "dockyard.io/desired" (Itoa asgDesired)

/-- The loop of `PreRolloutStart` that resolves the node names of the attached instances
(asgrollout.go 433-444).  On an error the message dereferences the nil name. -/
def collectNodeNames (w : World) : List String → List String → Go (List String)
  | [], currentAsgNodes => .ret currentAsgNodes
  | i :: rest, currentAsgNodes =>
    match GetNodeNameFromInstanceId w i with
    | (_, some _) => .panic nilDeref
    | (none, none) => .panic nilDeref
    | (some kNode, none) => collectNodeNames w rest (currentAsgNodes ++ [kNode])

/-- The cordon loop of `PreRolloutStart` (asgrollout.go 446-458). -/
def cordonNodes (cfg : AsgRolloutConfig) : List String → World → World × Option String
  | [], w => (w, none)
  | k8sNode :: rest, w =>
    if k8sNode == "" then cordonNodes cfg rest w
    else
      match CordonNode w k8sNode cfg.IgnoreNotFound with
      | (w1, some e) => (w1, some ("Unable to cordon Node " ++ k8sNode ++ "," ++ e.msg ++ " "))
      | (w1, none) => cordonNodes cfg rest w1

/-- The part of `PreRolloutStart` after the two labelling loops (asgrollout.go 370-478). -/
def preRolloutCapacity (cfg : AsgRolloutConfig) (asgName : String) (w : World) :
    World × Go (Option String) :=
  match GetMaxCount w asgName with
  | .panic m => (w, .panic m)
  | .ret (_, some e) => (w, .ret (some e))
  | .ret (asgMax, none) =>
    match GetMinCount w asgName with
    | .panic m => (w, .panic m)
    | .ret (_, some e) => (w, .ret (some e))
    | .ret (asgMin, none) =>
      match GetDesiredCount w asgName with
      | .panic m => (w, .panic m)
      | .ret (_, some e) => (w, .ret (some e))
      | .ret (asgDesired, none) =>
        match (if (GetTagValueOfAsg w asgName "dockyard.io/desired").1 == 0 then
            storeCapacityTags w asgName asgMin asgMax asgDesired else (w, none)) with
        | (w1, some e) => (w1, .ret (some e))
        | (w1, none) =>
          match GetInstancesOfAsg w1 asgName with
          | .panic m => (w1, .panic m)
          | .ret (_, some e) => (w1, .ret (some e))
          | .ret (inst, none) =>
            match collectNodeNames w1 inst [] with
            | .panic m => (w1, .panic m)
            | .ret currentAsgNodes =>
              match cordonNodes cfg currentAsgNodes w1 with
              | (w2, some e) => (w2, .ret (some e))
              | (w2, none) =>
                match EnableNewInstanceProtection w2 asgName with
                | (w3, some e) =>
                  (w3, .ret (some ("Unable to set new Instance Protection " ++ e)))
                | (w3, none) => (w3, .ret none)

/-- The method `PreRolloutStart` of asgrollout.go: the state it leaves and its error. -/
def PreRolloutStart (cfg : AsgRolloutConfig) (asgName : String) (w : World) :
    World × Go (Option String) :=
  match GetOldnNewInstancesOfAsg w asgName with
  | .panic m => (w, .panic m)
  | .ret (_, _, some _) => (w, .ret (some ("Unable to fetch Instances of asg " ++ asgName)))
  | .ret (instances, newInstances, none) =>
    match labelInstances cfg "new" newInstances w with
    | (w1, .panic m) => (w1, .panic m)
    | (w1, .ret (some e)) => (w1, .ret (some e))
    | (w1, .ret none) =>
      match labelInstances cfg "old" instances w1 with
      | (w2, .panic m) => (w2, .panic m)
      | (w2, .ret (some e)) => (w2, .ret (some e))
      | (w2, .ret none) => preRolloutCapacity cfg asgName w2

/-- The loop of `NodesToDrain` (asgrollout.go 496-504): `some` is the return inside the
loop, `none` the fall through to the empty list. -/
def nodesToDrainLoop (batchSize : Int) : List Node → Int → List String → Option (List String)
  | [], _, _ => none
  | node :: rest, count, nodeList =>
    if count + 1 == batchSize then some (nodeList ++ [node.Name])
    else nodesToDrainLoop batchSize rest (count + 1) (nodeList ++ [node.Name])

/-- The method `NodesToDrain` of asgrollout.go. -/
def NodesToDrain (cfg : AsgRolloutConfig) (w : World) (_asgName : String) (batchSize : Int) :
    List String × Option String :=
  match GetNodeByLabel w (getNodeStateLabel "old") cfg.IgnoreNotFound with
  | (_, some _) => ([], none)
  | (nodes, none) =>
    match nodesToDrainLoop batchSize nodes 0 [] with
    | some nodeList => (nodeList, none)
    | none => ([], none)

/-- What one batch of concurrent `rolloutNode` workflows leaves behind: the state of the
cloud and cluster once all of them are done, and the values the batch loop received on
the error channel of the batch, in order of arrival (`none` is a nil error). -/
structure BatchOutcome where
  world : World
  received : List (Option String)

/-- The concurrent part of a batch, as a parameter: given the state, the ASG name, the
nodes for which `rolloutNode` is started and the `lastBatch` flag, the outcome of the
batch.  A batch in which a workflow never finishes has no outcome and is not represented. -/
abbrev Workflows := World → String → List String → Bool → BatchOutcome

/-- The capacity increase of `StartRollout` before the batch loop (asgrollout.go
724-747).  The errors of the three setters are dropped. -/
def raiseCapacity (asgName : String) (batchSize : Int) (w : World) :
    World × Go (Option String) :=
  match GetMaxCount w asgName with
  | .panic m => (w, .panic m)
  | .ret (_, some e) => (w, .ret (some e))
  | .ret (asgMax, none) =>
    match GetDesiredCount w asgName with
    | .panic m => (w, .panic m)
    | .ret (_, some e) => (w, .ret (some e))
    | .ret (asgDesired, none) =>
      let w1 :=
        if wrap64 (asgDesired + batchSize) > asgMax then
          (SetMaxCount w asgName (wrap64 (asgMax + batchSize))).1
        else w
      let w2 := (SetMinCount w1 asgName (wrap64 (asgDesired + batchSize))).1
      let w3 := (SetDesiredCount w2 asgName (wrap64 (asgDesired + batchSize))).1
      (w3, .ret none)

/-- The loop `for node := 0; node < int(batchSize); node++` of `StartRollout`
(asgrollout.go 768-783): the names read as `nodes[node]`, or the index panic. -/
def spawnLoop (nodes : List String) (batchSize : Int) : Nat → Nat → List String →
    List String × Bool
  | 0, _, started => (started, false)
  | fuel + 1, node, started =>
    if (node : Int) < batchSize then
      match nodes.get? node with
      | none => (started, true)
      | some name => spawnLoop nodes batchSize fuel (node + 1) (started ++ [name])
    else (started, false)

/-- The result of `StartRollout`: the state it leaves, the batches it started (for each
batch the nodes for which `rolloutNode` was started, in order), and its error. -/
structure RolloutRun where
  world : World
  batches : List (List String)
  result : Go (Option String)

/-- The batch loop of `StartRollout` (asgrollout.go 749-815).  The first argument counts
the iterations that remain, `steps - i`.  After a batch with errors the log line at 807
calls `Error` on the `err` of `NodesToDrain`, which is nil there. -/
def batchLoop (cfg : AsgRolloutConfig) (run : Workflows) (asgName : String)
    (batchSize steps : Int) :
    Nat → Int → Bool → World → List (List String) → RolloutRun
  | 0, _, _, w, batches => ⟨w, batches, .ret none⟩
  | remaining + 1, i, lastBatch, w, batches =>
    let lastBatch := if i == steps - 1 then true else lastBatch
    match NodesToDrain cfg w asgName batchSize with
    | (_, some e) => ⟨w, batches, .ret (some e)⟩
    | (nodes, none) =>
      if nodes.length == 0 then ⟨w, batches, .ret none⟩
      else
        match spawnLoop nodes batchSize batchSize.toNat 0 [] with
        | (started, true) =>
          ⟨w, batches ++ [started], .panic "index out of range"⟩
        | (started, false) =>
          let outcome := run w asgName started lastBatch
          let errors := outcome.received.filterMap id
          if errors.length > 0 then
            ⟨outcome.world, batches ++ [started], .panic nilDeref⟩
          else
            batchLoop cfg run asgName batchSize steps remaining (i + 1) lastBatch
              outcome.world (batches ++ [started])

/-- The method `StartRollout` of asgrollout.go.  The conversion of `steps` through
`float64` is exact, a slice length being far below `2 ^ 53`. -/
def StartRollout (cfg : AsgRolloutConfig) (run : Workflows) (asgName : String)
    (batchSize : Int) (w : World) : RolloutRun :=
  match GetOldnNewInstancesOfAsg w asgName with
  | .panic m => ⟨w, [], .panic m⟩
  | .ret (_, _, some _) => ⟨w, [], .ret (some ("Unable to fetch Instances of asg " ++ asgName))⟩
  | .ret (oldInstances, _, none) =>
    let countOldInstances : Int := oldInstances.length
    match PreRolloutStart cfg asgName w with
    | (w1, .panic m) => ⟨w1, [], .panic m⟩
    | (w1, .ret (some e)) =>
      ⟨w1, [], .ret (some ("Unable to execute pre rollout steps, " ++ e))⟩
    | (w1, .ret none) =>
      if batchSize == 0 then ⟨w1, [], .panic "integer divide by zero"⟩
      else
        let steps := Int.tdiv countOldInstances batchSize
        match raiseCapacity asgName batchSize w1 with
        | (w2, .panic m) => ⟨w2, [], .panic m⟩
        | (w2, .ret (some e)) => ⟨w2, [], .ret (some e)⟩
        | (w2, .ret none) =>
          batchLoop cfg run asgName batchSize steps steps.toNat 0 false w2 []

/-! ## Scenarios for the rollout orchestrator -/

/-- The configuration with the default values of the documentation. -/
def defaultConfig : AsgRolloutConfig := ⟨true, false, 60, 30, 30, 30, 600⟩

/-- An instance of template lt-1 at the given version. -/
def instanceAt (id version : String) : Instance :=
  ⟨id, none, some ⟨some "lt-1", some version⟩, "Healthy"⟩

/-- A schedulable cluster node that carries only its host-name label. -/
def plainNode (name : String) : Node :=
  ⟨name, some [("kubernetes.io/hostname", name)], false, [⟨"Ready", "True"⟩]⟩

/-- A cloud whose template lt-1 has the versions 1 and 2. -/
def twoVersionsApi : LaunchApi where
  DescribeLaunchTemplateVersions := fun _ =>
    .ok [⟨some "lt-1", some 1, some ⟨some "ami-1"⟩⟩, ⟨some "lt-1", some 2, some ⟨some "ami-2"⟩⟩]
  DescribeLaunchConfigurations := fun _ => .ok []

/-- Scenario 1: the group A with min 4, desired 4, max 6 and four instances of version 1,
each a cluster node, no capacity tag, every call succeeding. -/
def scenarioOneWorld : World where
  groups := [⟨"A", none, some ⟨some "lt-1", some "$Latest"⟩, none,
    [instanceAt "i-1" "1", instanceAt "i-2" "1", instanceAt "i-3" "1", instanceAt "i-4" "1"],
    4, 6, 4, false⟩]
  tags := []
  reservations := [⟨[⟨"i-1", some "node-1"⟩, ⟨"i-2", some "node-2"⟩]⟩,
    ⟨[⟨"i-3", some "node-3"⟩, ⟨"i-4", some "node-4"⟩]⟩]
  launch := twoVersionsApi
  nodes := [plainNode "node-1", plainNode "node-2", plainNode "node-3", plainNode "node-4"]
  failing := []

/-- Scenario 6: the group A with five instances of version 1, each a cluster node. -/
def scenarioSixWorld : World where
  groups := [⟨"A", none, some ⟨some "lt-1", some "$Latest"⟩, none,
    [instanceAt "i-1" "1", instanceAt "i-2" "1", instanceAt "i-3" "1", instanceAt "i-4" "1",
      instanceAt "i-5" "1"],
    5, 7, 5, false⟩]
  tags := []
  reservations := [⟨[⟨"i-1", some "node-1"⟩, ⟨"i-2", some "node-2"⟩, ⟨"i-3", some "node-3"⟩,
    ⟨"i-4", some "node-4"⟩, ⟨"i-5", some "node-5"⟩]⟩]
  launch := twoVersionsApi
  nodes := [plainNode "node-1", plainNode "node-2", plainNode "node-3", plainNode "node-4",
    plainNode "node-5"]
  failing := []

/-- A batch in which every workflow succeeds: the drained nodes leave the cluster and
every workflow reports the nil error. -/
def succeedingWorkflows : Workflows := fun w _ nodes _ =>
  ⟨{ w with nodes := w.nodes.filter (fun n => !nodes.contains n.Name) },
    nodes.map (fun _ => none)⟩

/-- A batch in which every workflow fails before it drains anything and reports the
error of the new-node wait. -/
def failingWorkflows : Workflows := fun w _ nodes _ =>
  ⟨w, nodes.map (fun _ => some "unable to get new node, Timeout Exceeded")⟩

/-- The number `countOldInstances` of `StartRollout`: the old instances of the
classification made at its start. -/
def countOldInstances (w : World) (asgName : String) : Nat :=
  match GetOldnNewInstancesOfAsg w asgName with
  | .ret (oldInstances, _, _) => oldInstances.length
  | .panic _ => 0

/-! ## Relations between states used in the statements -/

/-- The second state differs from the first at most in the cluster nodes. -/
def sameCloud (w u : World) : Prop :=
  u.groups = w.groups ∧ u.tags = w.tags ∧ u.reservations = w.reservations ∧
    u.launch = w.launch ∧ u.failing = w.failing

/-- The capacity tags that `PreRolloutStart` stores for a group, written over `tags`. -/
def withCapacityTags (asgName : String) (g : Group) (tags : List TagDescription) :
    List TagDescription :=
  putTag asgName "dockyard.io/desired" (Itoa g.DesiredCapacity)
    (putTag asgName "dockyard.io/max" (Itoa g.MaxSize)
      (putTag asgName "dockyard.io/min" (Itoa g.MinSize) tags))

/-- Scenario 1 after an earlier rollout on the group while it was scaled to zero: the
three capacity tags exist and the desired tag holds the value 0. -/
def zeroTagWorld : World :=
  { scenarioOneWorld with
    tags := [⟨"A", "dockyard.io/min", "0"⟩, ⟨"A", "dockyard.io/max", "3"⟩,
      ⟨"A", "dockyard.io/desired", "0"⟩] }

/-! ## The writes of `PreRolloutStart` on the cluster nodes, as data -/

/-- A write on one node: set the node-state label, or mark the node unschedulable. -/
inductive NodeOp where
  | label (value : String)
  | cordon
  deriving Repr, DecidableEq

/-- The node after the write. -/
def NodeOp.run : NodeOp → Node → Node
  | .label v, n =>
    { n with Labels := some (upsertFirst (fun kv => kv.1 == NodeStateLabelKey)
        (NodeStateLabelKey, v) (n.Labels.getD [])) }
  | .cordon, n => { n with Unschedulable := true }

/-- A write on the first node of the given name. -/
def applyOp (op : String × NodeOp) (nodes : List Node) : List Node :=
  modifyFirst (fun n => n.Name == op.1) op.2.run nodes

/-- A sequence of writes, from left to right. -/
def runOps (ops : List (String × NodeOp)) (nodes : List Node) : List Node :=
  ops.foldl (fun ns op => applyOp op ns) nodes

/-- The second list has the nodes of the first, name by name, and a label map wherever
the first has one. -/
def nodesLike (a b : List Node) : Prop :=
  List.Forall₂ (fun x y => x.Name = y.Name ∧ (x.Labels.isSome → y.Labels.isSome)) a b

/-- The label writes that a labelling loop of `PreRolloutStart` makes for the given
instances: one for every instance that resolves to a non-empty node name. -/
def labelOps (w : World) (state : String) : List String → List (String × NodeOp)
  | [] => []
  | inst :: rest =>
    match GetNodeNameFromInstanceId w inst with
    | (some k8sNode, none) =>
      if k8sNode == "" then labelOps w state rest
      else (k8sNode, NodeOp.label state) :: labelOps w state rest
    | _ => labelOps w state rest

/-- The cordon writes of `PreRolloutStart` for the given node names. -/
def cordonOps : List String → List (String × NodeOp)
  | [] => []
  | k8sNode :: rest =>
    if k8sNode == "" then cordonOps rest else (k8sNode, NodeOp.cordon) :: cordonOps rest

/-! ## The readers and the clean-up calls of the cluster adapter (`pkg/kube/kube.go`) -/

/-- What `apierrors.IsNotFound` answers for an error value; the nil error is not one. -/
def IsNotFound (err : Option KubeError) : Bool :=
  match err with
  | some e => e.isNotFound
  | none => false

/-- The comma-ok read of a Go map of strings: `none` when the map is nil or has no such
key. -/
def mapGet (labels : Option (List (String × String))) (key : String) : Option String :=
  match labels with
  | none => none
  | some m => m.lookup key

/-- The method `NodeHasLabel` of kube.go.  The returns after the filter hand back the
error of the lookup itself, not the filtered one. -/
def NodeHasLabel (w : World) (nodeName labelKey labelVal : String)
    (ignoreNotFoundErrors : Bool) : Bool × Option KubeError :=
  match nodesGet w nodeName with
  | (node, err) =>
    if (filterError err ignoreNotFoundErrors).isSome then (false, err)
    else
      match mapGet node.Labels labelKey with
      | some value => if value == labelVal then (true, err) else (false, err)
      | none => (false, err)

/-- The method `GetLabelValOfNode` of kube.go. -/
def GetLabelValOfNode (w : World) (nodeName labelKey : String)
    (ignoreNotFoundErrors : Bool) : String × Option KubeError :=
  match nodesGet w nodeName with
  | (node, err) =>
    if (filterError err ignoreNotFoundErrors).isSome then ("", err)
    else (mapLookup node.Labels labelKey, none)

/-- The loop of `IsNodeHealthy` over the conditions of the node (kube.go 297-303): it
returns at the first condition of type `Ready` whose status is `False` or `True`. -/
def readyLoop : List NodeCondition → Bool
  | [] => false
  | nodeCondition :: rest =>
    if nodeCondition.CondType == "Ready" && nodeCondition.Status == "False" then false
    else if nodeCondition.CondType == "Ready" && nodeCondition.Status == "True" then true
    else readyLoop rest

/-- The method `IsNodeHealthy` of kube.go. -/
def IsNodeHealthy (w : World) (nodeName : String) (ignoreNotFoundErrors : Bool) :
    Bool × Option KubeError :=
  match nodesGet w nodeName with
  | (node, err) =>
    if (filterError err ignoreNotFoundErrors).isSome then (false, err)
    else (readyLoop node.Conditions, none)

/-- The method `GetNodeCountByLabel` of kube.go. -/
def GetNodeCountByLabel (w : World) (label : String) (ignoreNotFoundErrors : Bool) :
    Int × Option KubeError :=
  match GetNodeByLabel w label ignoreNotFoundErrors with
  | (byLabel, err) =>
    if (filterError err ignoreNotFoundErrors).isSome then (0, err) else (byLabel.length, none)

/-- The method `RemoveLabel` of kube.go.  Deleting from the nil map does nothing. -/
def RemoveLabel (w : World) (nodeName labelKey : String) (ignoreNotFoundErrors : Bool) :
    World × Option KubeError :=
  match nodesGet w nodeName with
  | (node, err) =>
    if (filterError err ignoreNotFoundErrors).isSome then (w, err)
    else
      let labels := node.Labels.map (fun m => m.filter (fun kv => kv.1 != labelKey))
      match nodesUpdate w { node with Labels := labels } with
      | (w1, err1) => (w1, filterError err1 ignoreNotFoundErrors)

/-- The method `UnCordonNode` of kube.go. -/
def UnCordonNode (w : World) (nodeName : String) (ignoreNotFoundErrors : Bool) :
    World × Option KubeError :=
  match nodesGet w nodeName with
  | (node, err) =>
    if (filterError err ignoreNotFoundErrors).isSome then (w, err)
    else
      match nodesUpdate w { node with Unschedulable := false } with
      | (w1, err1) => (w1, filterError err1 ignoreNotFoundErrors)

/-! ## The status queries of the orchestrator (`pkg/aws/asgrollout.go`) -/

/-- The loop of `GetAsgHealth` over the instances of the group (asgrollout.go 243-247). -/
def healthLoop : List Instance → Bool
  | [] => true
  | inst :: rest => if inst.HealthStatus != "Healthy" then false else healthLoop rest

/-- The method `GetAsgHealth` of asgrollout.go. -/
def GetAsgHealth (w : World) (asgName : String) : Go (Bool × Option String) :=
  match getAsg w asgName with
  | .panic m => .panic m
  | .ret (_, some e) => .ret (false, some e)
  | .ret (none, none) => .panic nilDeref
  | .ret (some asg, none) => .ret (healthLoop asg.Instances, none)

/-- The method `UpgradeStarted` of asgrollout.go. -/
def UpgradeStarted (cfg : AsgRolloutConfig) (w : World) (_asgName : String) :
    Bool × Option String :=
  match GetNodeCountByLabel w (getNodeStateLabel "old") cfg.IgnoreNotFound with
  | (_, some _) =>
    (false, some ("Unable to fetch nodes with label " ++ getNodeStateLabel "old" ++ ",err "))
  | (old, none) =>
    match GetNodeCountByLabel w (getNodeStateLabel "new") cfg.IgnoreNotFound with
    | (_, some _) =>
      (false, some ("Unable to fetch nodes with label " ++ getNodeStateLabel "new" ++ ",err "))
    | (new, none) => if old == 0 && new == 0 then (false, none) else (true, none)

/-! ## The clean-up after a rollout (`PostRolloutStart`) -/

/-- The method `DeleteTagOfAsg` of tags.go: the cloud deletes the tag of that resource
and key, whatever value the request carries. -/
def DeleteTagOfAsg (w : World) (asgName tagKey _tagVal : String) : World × Option String :=
  if w.failing.contains Api.DeleteTags then (w, some "DeleteTags failed")
  else
    ({ w with tags := w.tags.filter (fun t => !(t.ResourceId == asgName && t.Key == tagKey)) },
      none)

/-- The method `RemoveInstanceScaleInProtection` of asgrollout.go.  The protection of a
single instance is not part of the state, so the call only succeeds or fails. -/
def RemoveInstanceScaleInProtection (w : World) (_instanceId _asgName : String) :
    World × Option String :=
  if w.failing.contains Api.SetInstanceProtection then (w, some "SetInstanceProtection failed")
  else (w, none)

/-- The two loops of `PostRolloutStart` that remove the node-state label (asgrollout.go
526-538 and 548-561); the error of `RemoveLabel` is dropped. -/
def removeLabels (cfg : AsgRolloutConfig) : List Node → World → World
  | [], w => w
  | node :: rest, w =>
    if node.Name == "" then removeLabels cfg rest w
    else removeLabels cfg rest (RemoveLabel w node.Name NodeStateLabelKey cfg.IgnoreNotFound).1

/-- The loop of `PostRolloutStart` that resolves the node names of the attached instances
(asgrollout.go 570-573): the error is dropped and the name dereferenced. -/
def postNodeNames (w : World) : List String → List String → Go (List String)
  | [], currentAsgNodes => .ret currentAsgNodes
  | i :: rest, currentAsgNodes =>
    match (GetNodeNameFromInstanceId w i).1 with
    | none => .panic nilDeref
    | some kNode => postNodeNames w rest (currentAsgNodes ++ [kNode])

/-- The uncordon loop of `PostRolloutStart` (asgrollout.go 575-583); the error of
`UnCordonNode` is dropped. -/
def uncordonNodes (cfg : AsgRolloutConfig) : List String → World → World
  | [], w => w
  | node :: rest, w =>
    if node == "" then uncordonNodes cfg rest w
    else uncordonNodes cfg rest (UnCordonNode w node cfg.IgnoreNotFound).1

/-- The loop of `PostRolloutStart` that removes the scale-in protection of the instances
(asgrollout.go 662-667); the error of the call is dropped. -/
def unprotectInstances (asgName : String) : List String → World → World
  | [], w => w
  | inst :: rest, w =>
    unprotectInstances asgName rest (RemoveInstanceScaleInProtection w inst asgName).1

/-- The end of `PostRolloutStart` (asgrollout.go 659-688), after capacity is restored. -/
def postRolloutFinish (asgName : String) (rolloutSuccess : Bool) (w : World) :
    World × Go (Option String) :=
  match GetInstancesOfAsg w asgName with
  | .panic m => (w, .panic m)
  | .ret (instances, _) =>
    let w1 := unprotectInstances asgName instances w
    if !rolloutSuccess then ((DisableNewInstanceProtection w1 asgName).1, .ret none)
    else (w1, .ret none)

/-- The part of `PostRolloutStart` that reads the three capacity tags, deletes them and
restores the minimum and the maximum (asgrollout.go 585-657). -/
def restoreCapacity (asgName : String) (rolloutSuccess : Bool) (w : World) :
    World × Go (Option String) :=
  match GetTagValueOfAsg w asgName "dockyard.io/min" with
  | (_, some e) => (w, .ret (some e))
  | (minNodes, none) =>
    match GetTagValueOfAsg w asgName "dockyard.io/max" with
    | (_, some e) => (w, .ret (some e))
    | (maxNodes, none) =>
      match GetTagValueOfAsg w asgName "dockyard.io/desired" with
      | (_, some e) => (w, .ret (some e))
      | (desiredNodes, none) =>
        match DeleteTagOfAsg w asgName "dockyard.io/min" (Itoa minNodes) with
        | (w1, some e) => (w1, .ret (some e))
        | (w1, none) =>
          match DeleteTagOfAsg w1 asgName "dockyard.io/max" (Itoa maxNodes) with
          | (w2, some e) => (w2, .ret (some e))
          | (w2, none) =>
            match DeleteTagOfAsg w2 asgName "dockyard.io/desired" (Itoa desiredNodes) with
            | (w3, some e) => (w3, .ret (some e))
            | (w3, none) =>
              match SetMinCount w3 asgName minNodes with
              | (w4, some e) => (w4, .ret (some e))
              | (w4, none) =>
                match SetMaxCount w4 asgName maxNodes with
                | (w5, some e) => (w5, .ret (some e))
                | (w5, none) => postRolloutFinish asgName rolloutSuccess w5

/-- The method `PostRolloutStart` of asgrollout.go: the state it leaves and its error. -/
def PostRolloutStart (cfg : AsgRolloutConfig) (asgName : String) (rolloutSuccess : Bool)
    (w : World) : World × Go (Option String) :=
  match GetNodeByLabel w (getNodeStateLabel "new") cfg.IgnoreNotFound with
  | (_, some e) => (w, .ret (some e.msg))
  | (nodes, none) =>
    let w1 := removeLabels cfg nodes w
    match GetNodeByLabel w1 (getNodeStateLabel "old") cfg.IgnoreNotFound with
    | (_, some e) => (w1, .ret (some e.msg))
    | (nodes, none) =>
      let w2 := removeLabels cfg nodes w1
      match GetInstancesOfAsg w2 asgName with
      | .panic m => (w2, .panic m)
      | .ret (_, some e) => (w2, .ret (some e))
      | .ret (inst, none) =>
        match postNodeNames w2 inst [] with
        | .panic m => (w2, .panic m)
        | .ret currentAsgNodes =>
          restoreCapacity asgName rolloutSuccess (uncordonNodes cfg currentAsgNodes w2)

/-- The world after `n` runs of `StartRollout` that each return the nil error, or `none`
when one of them does not. -/
def rolloutRuns (cfg : AsgRolloutConfig) (run : Workflows) (asgName : String)
    (batchSize : Int) : Nat → World → Option World
  | 0, w => some w
  | n + 1, w =>
    let r := StartRollout cfg run asgName batchSize w
    if r.result = .ret none then rolloutRuns cfg run asgName batchSize n r.world else none

/-! ## Durations, contexts and the wait for a new node in `rolloutNode` -/

/-- The type `time.Duration`: a count of nanoseconds. -/
abbrev Duration := Int

/-- The constant `time.Second`. -/
def Second : Duration := 1000000000

/-- The value `timeout` of `rolloutNode` (asgrollout.go 839), `time.Duration(NewNodeTimeout)`:
the conversion of an `int64` to a duration keeps the number. -/
def rolloutNodeTimeout (cfg : AsgRolloutConfig) : Duration := cfg.NewNodeTimeout

/-- The pause of `getNewNode` between two polls (nodes.go 173). -/
def newNodePollPeriod (cfg : AsgRolloutConfig) : Duration := wrap64 (cfg.WaitForNewNode * Second)

/-- The pause of `StartRollout` after a batch (asgrollout.go 814). -/
def afterBatchPeriod (cfg : AsgRolloutConfig) : Duration := wrap64 (cfg.AfterBatch * Second)

/-- The pause of the readiness poll of `rolloutNode` (asgrollout.go 893). -/
def readyPollPeriod (cfg : AsgRolloutConfig) : Duration := wrap64 (cfg.WaitForReady * Second)

/-- The pause before the clean-up is started (newRollout.go 109). -/
def beforePostPeriod (cfg : AsgRolloutConfig) : Duration := wrap64 (cfg.BeforePost * Second)

/-- The value of `ctx.Err()` once a context is done. -/
inductive CtxErr where
  | DeadlineExceeded
  | Canceled
  deriving Repr, DecidableEq

/-- A `context.Context` as a `select` sees it: the instant, in nanoseconds, at which its
`Done` channel is closed and the error it then reports, or `none` when it is never done. -/
structure Context where
  done : Option (Nat × CtxErr)
  deriving Repr, DecidableEq

/-- The function `context.WithTimeout` called at the instant `now`: the derived context is
done at the deadline `now + timeout`, or when the parent is done if that is earlier. -/
def WithTimeout (parent : Context) (now : Nat) (timeout : Duration) : Context :=
  let deadline := (now + timeout).toNat
  match parent.done with
  | some (t, e) => if t ≤ deadline then ⟨some (t, e)⟩ else ⟨some (deadline, .DeadlineExceeded)⟩
  | none => ⟨some (deadline, .DeadlineExceeded)⟩

/-- What `getNewNode` sends to `rolloutNode`: the name of a node on `nodeFound` followed
by the nil error on `errC`, or an error on `errC`. -/
inductive PollerReport where
  | node (name : String)
  | failure (err : String)
  deriving Repr, DecidableEq

/-- The goroutine `getNewNode` as `rolloutNode` sees it: the instant of its first send
and what it sends, or `none` when it polls for ever without finding a node or meeting an
error.  The body of `getNewNode` never reads its context argument, so its behaviour is
the same under every context. -/
abbrev Poller := Context → Option (Nat × PollerReport)

/-- How the wait for a new node ends. -/
inductive WaitOutcome where
  /-- Neither case of the `select` ever becomes ready: nothing is sent and the workflow
  never returns. -/
  | blocked
  /-- The error of the poller is sent on `errCh` and the workflow returns (851-855). -/
  | returned (sent : String)
  /-- The workflow goes on after the `select` with this `newNode`, having sent these
  errors on `errCh`. -/
  | proceeds (newNode : String) (sent : List String)
  deriving Repr, DecidableEq

/-- The start of `rolloutNode` up to the end of its `select` (asgrollout.go 835-872), begun
at the instant `now` under the context `ctx`.  The derived context goes to the poller;
the `select` waits on the error channel of the poller and on `ctx` itself.  When both
cases are ready at the same instant the run time picks one: `pollerFirst` is its pick. -/
def rolloutNodeWait (cfg : AsgRolloutConfig) (ctx : Context) (now : Nat)
    (getNewNode : Poller) (pollerFirst : Bool) : WaitOutcome :=
  let timeout := rolloutNodeTimeout cfg
  let ctxWithTimeout := WithTimeout ctx now timeout
  let fromPoller : PollerReport → WaitOutcome := fun r =>
    match r with
    | .failure e => .returned e
    | .node newNode => .proceeds newNode []
  let fromCtx : CtxErr → WaitOutcome := fun e =>
    match e with
    | .DeadlineExceeded => .proceeds "" ["unable to get new node, Timeout Exceeded"]
    | .Canceled => .proceeds "" ["unable to get new node"]
  match getNewNode ctxWithTimeout, ctx.done with
  | none, none => .blocked
  | some (_, r), none => fromPoller r
  | none, some (_, e) => fromCtx e
  | some (tp, r), some (tc, e) =>
    if tp < tc || (tp == tc && pollerFirst) then fromPoller r else fromCtx e

/-- The context built in `main` (cmd/main.go 47-48) while the program runs:
`context.WithCancel(context.Background())`, not cancelled. -/
def mainContext : Context := ⟨none⟩

/-- A poller that never finds an eligible node and never meets an error. -/
def stalledPoller : Poller := fun _ => none

/-- A poller that finds the node `name` at the instant `t`. -/
def pollerFinding (t : Nat) (name : String) : Poller := fun _ => some (t, .node name)

/-! ## Scenarios for the readers and the clean-up -/

/-- An account without any auto scaling group, every call succeeding. -/
def emptyAccount : World where
  groups := []
  tags := []
  reservations := []
  launch := twoVersionsApi
  nodes := []
  failing := []

/-- A node whose status lists two conditions of type `Ready`, `False` before `True`. -/
def twoReadyNode : Node :=
  ⟨"node-1", some [("kubernetes.io/hostname", "node-1")], false,
    [⟨"MemoryPressure", "False"⟩, ⟨"Ready", "False"⟩, ⟨"Ready", "True"⟩]⟩

/-- Scenario 1 with the first node replaced by `twoReadyNode`. -/
def twoReadyWorld : World :=
  { scenarioOneWorld with nodes := [twoReadyNode, plainNode "node-2", plainNode "node-3",
      plainNode "node-4"] }

/-- The condition at which the loop of `IsNodeHealthy` returns: the first condition of
type `Ready` whose status is `True` or `False`. -/
def decisiveCondition (conditions : List NodeCondition) : Option NodeCondition :=
  conditions.find? (fun c => c.CondType == "Ready" && (c.Status == "False" || c.Status == "True"))

/-- Whether the node carries the label `dockyard.io/node-state=state`. -/
def carriesState (state : String) (n : Node) : Bool :=
  match n.Labels with
  | none => false
  | some m => m.contains (NodeStateLabelKey, state)

/-- The group A with min 0, desired 0, max 3 and no instance, no capacity tag, every
call succeeding. -/
def zeroDesiredWorld : World where
  groups := [⟨"A", none, some ⟨some "lt-1", some "$Latest"⟩, none, [], 0, 3, 0, false⟩]
  tags := []
  reservations := []
  launch := twoVersionsApi
  nodes := []
  failing := []

/-- Whether the tag is one of the three capacity tags of the group `asgName`. -/
def isCapacityTag (asgName : String) (t : TagDescription) : Bool :=
  t.ResourceId == asgName &&
    (t.Key == "dockyard.io/min" || t.Key == "dockyard.io/max" || t.Key == "dockyard.io/desired")

/-- Whether the integer is a value of the type `int64`. -/
def inInt64 (n : Int) : Prop := -(2 ^ 63) ≤ n ∧ n < 2 ^ 63

/-- The tag of the group `asgName` with the key `key` that the cloud lists first. -/
def firstTag (asgName key : String) (tags : List TagDescription) : Option TagDescription :=
  tags.find? (fun t => t.ResourceId == asgName && t.Key == key)

/-- The three capacity tags of the group `asgName` hold the capacity of `g`. -/
def storesCapacity (asgName : String) (g : Group) (tags : List TagDescription) : Prop :=
  firstTag asgName "dockyard.io/min" tags = some ⟨asgName, "dockyard.io/min", Itoa g.MinSize⟩ ∧
  firstTag asgName "dockyard.io/max" tags = some ⟨asgName, "dockyard.io/max", Itoa g.MaxSize⟩ ∧
  firstTag asgName "dockyard.io/desired" tags =
    some ⟨asgName, "dockyard.io/desired", Itoa g.DesiredCapacity⟩

/-- Whether the instance is the machine of one of the nodes `nodes`. -/
def hostsOneOf (nodes : List String) (i : Ec2Instance) : Bool :=
  match i.PrivateDnsName with
  | some name => nodes.contains name
  | none => false

/-- The ids of the instances that are the machines of the nodes `nodes`. -/
def instancesOf (w : World) (nodes : List String) : List String :=
  ((w.reservations.map (fun r => r.Instances)).flatten.filter (hostsOneOf nodes)).map
    (fun i => i.InstanceId)

/-- The group without the instances `gone`. -/
def withoutInstances (gone : List String) (g : Group) : Group :=
  { g with Instances := g.Instances.filter (fun i => !gone.contains i.InstanceId) }

/-- The state after the nodes `nodes` are deleted from the cluster and their instances
terminated. -/
def afterTermination (w : World) (nodes : List String) : World where
  groups := w.groups.map (withoutInstances (instancesOf w nodes))
  tags := w.tags
  reservations := w.reservations.map (fun r => ⟨r.Instances.filter (fun i => !hostsOneOf nodes i)⟩)
  launch := w.launch
  nodes := w.nodes.filter (fun n => !nodes.contains n.Name)
  failing := w.failing

/-- A batch in which every workflow succeeds and the cloud has not yet launched a
replacement: the drained nodes leave the cluster, their instances are terminated, and
every workflow reports the nil error. -/
def terminatingWorkflows : Workflows := fun w _ nodes _ =>
  ⟨afterTermination w nodes, nodes.map (fun _ => none)⟩

/-! ## The status query `RolloutCompleted` -/

/-- The method `RolloutCompleted` of asgrollout.go. -/
def RolloutCompleted (cfg : AsgRolloutConfig) (w : World) (_asgName : String) :
    Bool × Option KubeError :=
  match GetNodeCountByLabel w (getNodeStateLabel "old") cfg.IgnoreNotFound with
  | (_, some e) => (false, some e)
  | (oldNodes, none) => if oldNodes > 0 then (false, none) else (true, none)

/-- The run-time panics of the steps around the batch loop: a nil pointer dereferenced,
the first group of an empty answer read, a nil label map written. -/
def panicOfStep (m : String) : Prop :=
  m = nilDeref ∨ m = "index out of range [0] with length 0" ∨
    m = "assignment to entry in nil map"

/-! ## The poller for a new node (`pkg/aws/nodes.go`) -/

/-- The SDK type `ec2.InstanceStatusSummary`; `Status` is a pointer. -/
structure InstanceStatusSummary where
  Status : Option String
  deriving Repr, DecidableEq

/-- The SDK type `ec2.InstanceStatus`, restricted to the field the code reads. -/
structure InstanceStatus where
  SystemStatus : Option InstanceStatusSummary
  deriving Repr, DecidableEq

/-- The call `DescribeInstanceStatus` for one instance id: the statuses of the answer, or
the error of the call. -/
abbrev StatusApi := String → Except String (List InstanceStatus)

/-- The method `IsInstanceHealthy` of nodes.go: the loop returns at the first status of
the answer. -/
def IsInstanceHealthy (status : StatusApi) (instanceId : String) : Go (Bool × Option String) :=
  match status instanceId with
  | .error e => .ret (false, some e)
  | .ok [] => .ret (false, none)
  | .ok (s :: _) =>
    match s.SystemStatus with
    | none => .panic nilDeref
    | some summary =>
      match summary.Status with
      | none => .panic nilDeref
      | some st => if st == "ok" then .ret (true, none) else .ret (false, none)

/-- The loop of `getNewNode` over the instances of the group (nodes.go 122-170).  Every
call of the loop is answered in the state of its own instant: the call made at the
instant `t` reads `worldAt t` (`statusAt t` for the status of an instance), and the call
after it is made at `t + 1`, so the cluster and the cloud can change between any two
calls.  The result is the instant after the last call, with what the loop sends before
its `break`, or with `none` at the end of the loop without a send. -/
def pollInstances (cfg : AsgRolloutConfig) (statusAt : Nat → StatusApi)
    (worldAt : Nat → World) : Nat → List String → Go (Nat × Option PollerReport)
  | t, [] => .ret (t, none)
  | t, inst :: rest =>
    match IsInstanceHealthy (statusAt t) inst with
    | .panic m => .panic m
    | .ret (_, some e) => .ret (t + 1, some (.failure e))
    | .ret (false, none) => pollInstances cfg statusAt worldAt (t + 1) rest
    | .ret (true, none) =>
      match GetNodeNameFromInstanceId (worldAt (t + 1)) inst with
      | (_, some e) => .ret (t + 2, some (.failure e))
      | (none, none) => .panic nilDeref
      | (some k8sNode, none) =>
        match NodeHasLabel (worldAt (t + 2)) k8sNode NodeStateLabelKey "old"
          cfg.IgnoreNotFound with
        | (hasLabel, err) =>
          if IsNotFound err then pollInstances cfg statusAt worldAt (t + 3) rest
          else
            match err with
            | some e => .ret (t + 3, some (.failure e.msg))
            | none =>
              match NodeHasLabel (worldAt (t + 3)) k8sNode NodeStateLabelKey "new"
                cfg.IgnoreNotFound with
              | (_, some e) => .ret (t + 4, some (.failure e.msg))
              | (hasLabel2, none) =>
                if !hasLabel && !hasLabel2 then .ret (t + 4, some (.node k8sNode))
                else pollInstances cfg statusAt worldAt (t + 4) rest

/-- One round of the outer loop of `getNewNode` (nodes.go 116-177), started at the instant
`t`: the listing of the instances of the group is the call of that instant, and the loop
over them starts at the next. -/
def pollOnce (cfg : AsgRolloutConfig) (statusAt : Nat → StatusApi) (worldAt : Nat → World)
    (asgName : String) (t : Nat) : Go (Nat × Option PollerReport) :=
  match GetInstancesOfAsg (worldAt t) asgName with
  | .panic m => .panic m
  | .ret (_, some e) => .ret (t + 1, some (.failure e))
  | .ret (instances, none) => pollInstances cfg statusAt worldAt (t + 1) instances

/-- The method `getNewNode` of nodes.go up to its first send, started at the instant `t`:
the result is the instant after the last call before the first send and what is sent, or
`none` when the first `rounds` rounds send nothing.  The sleep between two rounds is time
in which the state can change, as it can between any two calls.  The context argument is
not read, and is left out. -/
def getNewNode (cfg : AsgRolloutConfig) (statusAt : Nat → StatusApi) (worldAt : Nat → World)
    (asgName : String) : Nat → Nat → Go (Option (Nat × PollerReport))
  | 0, _ => .ret none
  | rounds + 1, t =>
    match pollOnce cfg statusAt worldAt asgName t with
    | .panic m => .panic m
    | .ret (t', some r) => .ret (some (t', r))
    | .ret (t', none) => getNewNode cfg statusAt worldAt asgName rounds t'

/-- A cloud in which every instance passes its system status check. -/
def allOk : StatusApi := fun _ => .ok [⟨some ⟨some "ok"⟩⟩]

/-- Scenario 1 after the preparation of a rollout, with a fifth instance i-5 attached to
the group: its node node-5 has not joined the cluster yet. -/
def joiningWorld : World :=
  { (PreRolloutStart defaultConfig "A" scenarioOneWorld).1 with
    groups := [⟨"A", none, some ⟨some "lt-1", some "$Latest"⟩, none,
      [instanceAt "i-1" "1", instanceAt "i-2" "1", instanceAt "i-3" "1", instanceAt "i-4" "1",
        instanceAt "i-5" "2"], 6, 6, 6, true⟩],
    reservations := [⟨[⟨"i-1", some "node-1"⟩, ⟨"i-2", some "node-2"⟩]⟩,
      ⟨[⟨"i-3", some "node-3"⟩, ⟨"i-4", some "node-4"⟩, ⟨"i-5", some "node-5"⟩]⟩] }

/-- The state `joiningWorld` once node-5 has joined the cluster. -/
def joinedWorld : World :=
  { joiningWorld with nodes := joiningWorld.nodes ++ [plainNode "node-5"] }

/-- A cluster that node-5 leaves at the instant `t`: the calls before `t` see `joinedWorld`,
the calls from `t` on see `joiningWorld`, the same state without the node node-5. -/
def leavingAt (t : Nat) : Nat → World := fun k => if k < t then joinedWorld else joiningWorld

/-- A cluster that node-5 joins at the instant `t`. -/
def joiningAt (t : Nat) : Nat → World := fun k => if k < t then joiningWorld else joinedWorld

/-! ## Draining a node (`DrainNode` and `EvictPod` of `pkg/kube/kube.go`)

The pods are kept apart from `World`: only the drain reads or changes them.  The cluster
answers the pod calls as `PodApi` says, and what the drain does to the pods is the list
of the calls it issues. -/

/-- The type `metav1.OwnerReference`, restricted to the fields the code reads. -/
structure OwnerReference where
  Kind : String
  Name : String
  deriving Repr, DecidableEq

/-- The type `corev1.Pod`, restricted to the fields the code reads. -/
structure Pod where
  Name : String
  Namespace : String
  UID : String
  OwnerReferences : List OwnerReference
  deriving Repr, DecidableEq

/-- The type `podSpec` of kube.go. -/
structure podSpec where
  podName : String
  podNs : String
  deriving Repr, DecidableEq

/-- The zero value of `corev1.Pod`, which the typed client returns next to an error. -/
def zeroPod : Pod := ⟨"", "", "", []⟩

/-- Answers of the pod calls: `PodsList` takes the node name of the field selector, the
other calls take the namespace and the name of the pod.  `PodGone` is the result of
`WaitForPodToBeDeleted` for a pod, which polls the cluster for up to five minutes. -/
structure PodApi where
  PodsList : String → List Pod × Option KubeError
  PodsGet : String → String → Pod × Option KubeError
  Evict : String → String → Option KubeError
  PodsDelete : String → String → Option KubeError
  PodGone : Pod → Option KubeError

/-- A call that changes the pods of the cluster. -/
inductive PodCall where
  | Evict (ns name : String)
  | Delete (ns name : String)
  deriving Repr, DecidableEq

/-- The method `DeletePod` of kube.go. -/
def DeletePod (api : PodApi) (podName ns : String) : Option KubeError := api.PodsDelete ns podName

/-- The method `WaitForPodToBeDeleted` of kube.go. -/
def WaitForPodToBeDeleted (api : PodApi) (existingPod : Pod) (_interval _timeout : Int) :
    Option KubeError :=
  api.PodGone existingPod

/-- What one run of `EvictPod` does: the values it sends on `errCh`, in order, and the
calls it issues. -/
structure Eviction where
  sends : List (Option KubeError)
  calls : List PodCall
  deriving Repr, DecidableEq

/-- The method `EvictPod` of kube.go. -/
def EvictPod (api : PodApi) (pod : podSpec) (po : Pod) (force ignoreNotFoundErrors : Bool) :
    Eviction :=
  let err := api.Evict pod.podNs pod.podName
  if (filterError err ignoreNotFoundErrors).isSome then
    if force then
      ⟨[DeletePod api pod.podName pod.podNs],
        [.Evict pod.podNs pod.podName, .Delete pod.podNs pod.podName]⟩
    else ⟨[err], [.Evict pod.podNs pod.podName]⟩
  else
    let err2 := WaitForPodToBeDeleted api po 30 5
    if (filterError err2 ignoreNotFoundErrors).isSome then
      ⟨[none, err2], [.Evict pod.podNs pod.podName]⟩
    else ⟨[none, none], [.Evict pod.podNs pod.podName]⟩

/-- The loop of `DrainNode` that selects the pods (kube.go 337-349): it reads the first
owner reference of every pod. -/
def selectPods (ignoreDS : Bool) : List Pod → List podSpec → Go (List podSpec)
  | [], podList => .ret podList
  | pod :: rest, podList =>
    match pod.OwnerReferences with
    | [] => .panic "index out of range [0] with length 0"
    | controller :: _ =>
      if ignoreDS && controller.Kind == "DaemonSet" then selectPods ignoreDS rest podList
      else selectPods ignoreDS rest (podList ++ [⟨pod.Name, pod.Namespace⟩])

/-- The loop of `DrainNode` that starts one `EvictPod` per selected pod (kube.go 352-362):
the evictions started, and the error of a pod lookup, which ends the loop. -/
def startEvictions (api : PodApi) (force ignoreNotFoundErrors : Bool) :
    List podSpec → List Eviction → List Eviction × Option KubeError
  | [], started => (started, none)
  | po :: rest, started =>
    match api.PodsGet po.podNs po.podName with
    | (pod, err) =>
      if (filterError err ignoreNotFoundErrors).isSome then (started, err)
      else
        startEvictions api force ignoreNotFoundErrors rest
          (started ++ [EvictPod api po pod force ignoreNotFoundErrors])

/-- The order in which the values of several senders arrive on a channel: `schedule`
names, arrival by arrival, the sender whose next value arrives; once it is used up the
values left arrive sender by sender. -/
def arrivals {α : Type} : List Nat → List (List α) → List α
  | [], queues => queues.flatten
  | i :: rest, queues =>
    match queues.get? i with
    | some (x :: q) => x :: arrivals rest (queues.set i q)
    | _ => arrivals rest queues

/-- The loop of `DrainNode` over the values it receives (kube.go 367-375). -/
def collectErrors (ignoreNotFoundErrors : Bool) : List (Option KubeError) → List KubeError
  | [] => []
  | err :: rest =>
    match err, filterError err ignoreNotFoundErrors with
    | some e, some _ => e :: collectErrors ignoreNotFoundErrors rest
    | _, _ => collectErrors ignoreNotFoundErrors rest

/-- What `DrainNode` does: the error list it returns, or its panic, and the calls issued by
the evictions it started. -/
structure Drain where
  errors : Go (List KubeError)
  calls : List PodCall
  deriving Repr, DecidableEq

/-- The method `DrainNode` of kube.go.  It receives as many values as it selected pods. -/
def DrainNode (api : PodApi) (schedule : List Nat) (nodeName : String)
    (ignoreDS force _deleteLocalData ignoreNotFoundErrors : Bool) : Drain :=
  match api.PodsList nodeName with
  | (pods, err) =>
    if (filterError err ignoreNotFoundErrors).isSome then ⟨.ret err.toList, []⟩
    else
      match selectPods ignoreDS pods [] with
      | .panic m => ⟨.panic m, []⟩
      | .ret podList =>
        match startEvictions api force ignoreNotFoundErrors podList [] with
        | (started, some e) => ⟨.ret [e], (started.map (fun ev => ev.calls)).flatten⟩
        | (started, none) =>
          let received := (arrivals schedule (started.map (fun ev => ev.sends))).take
            podList.length
          ⟨.ret (collectErrors ignoreNotFoundErrors received),
            (started.map (fun ev => ev.calls)).flatten⟩

/-- Whether the first owner reference of the pod is of kind `DaemonSet`; a pod without
owner references is not owned by a DaemonSet. -/
def ownedByDaemonSet (pod : Pod) : Bool :=
  match pod.OwnerReferences with
  | [] => false
  | controller :: _ => controller.Kind == "DaemonSet"

/-- The selection of the claim: all pods, or the pods not owned by a DaemonSet. -/
def selectedPods (ignoreDS : Bool) (pods : List Pod) : List podSpec :=
  (pods.filter (fun p => !(ignoreDS && ownedByDaemonSet p))).map
    (fun p => ⟨p.Name, p.Namespace⟩)

/-- A pod of a ReplicaSet. -/
def webPod (name : String) : Pod := ⟨name, "default", "uid-" ++ name, [⟨"ReplicaSet", "web"⟩]⟩

/-- A pod of a DaemonSet. -/
def proxyPod (name : String) : Pod :=
  ⟨name, "kube-system", "uid-" ++ name, [⟨"DaemonSet", "kube-proxy"⟩]⟩

/-- A pod created directly, without a controller. -/
def barePod (name : String) : Pod := ⟨name, "default", "uid-" ++ name, []⟩

/-- A cluster with the pods `pods` on every node, in which every call succeeds and every
evicted pod is gone in time. -/
def calmPods (pods : List Pod) : PodApi where
  PodsList := fun _ => (pods, none)
  PodsGet := fun ns name =>
    match pods.find? (fun p => p.Namespace == ns && p.Name == name) with
    | some p => (p, none)
    | none => (zeroPod, some ⟨"pods " ++ name ++ " not found", true⟩)
  Evict := fun _ _ => none
  PodsDelete := fun _ _ => none
  PodGone := fun _ => none

/-- The cluster `calmPods pods` in which no evicted pod is gone when the wait gives up. -/
def lingeringPods (pods : List Pod) : PodApi :=
  { calmPods pods with PodGone := fun _ => some ⟨"timed out waiting for the condition", false⟩ }

/-- The cluster `calmPods pods` in which a disruption budget rejects every eviction. -/
def guardedPods (pods : List Pod) : PodApi :=
  { calmPods pods with
    Evict := fun _ _ => some ⟨"Cannot evict pod as it would violate the disruption budget", false⟩ }

/-! ## The workflow of one node (`rolloutNode`) -/

/-- The call `Nodes().Delete`. -/
def nodesDelete (w : World) (nodeName : String) : World × Option KubeError :=
  if w.failing.contains Api.NodesDelete then (w, some ⟨"nodes delete failed", false⟩)
  else if nodeName == "" then (w, some ⟨"resource name may not be empty", false⟩)
  else if w.nodes.any (fun n => n.Name == nodeName) then
    ({ w with nodes := w.nodes.filter (fun n => !(n.Name == nodeName)) }, none)
  else (w, some ⟨"nodes " ++ nodeName ++ " not found", true⟩)

/-- The method `DeleteNode` of kube.go. -/
def DeleteNode (w : World) (nodeName : String) (ignoreNotFoundErrors : Bool) :
    World × Option KubeError :=
  match nodesDelete w nodeName with
  | (w1, err) => (w1, filterError err ignoreNotFoundErrors)

/-- The method `GetInstanceDetailsOfAsg` of asgdetails.go. -/
def GetInstanceDetailsOfAsg (w : World) (asgName : String) :
    Go (List Ec2Instance × Option String) :=
  match GetInstancesOfAsg w asgName with
  | .panic m => .panic m
  | .ret (_, some e) => .ret ([], some e)
  | .ret (instances, none) =>
    match DescribeInstances w instances with
    | .error e => .ret ([], some e)
    | .ok reservations => .ret ((reservations.map (fun r => r.Instances)).flatten, none)

/-- The loop of `GetInstanceIdFromNodeName` (nodes.go 59-65): it dereferences the private
DNS name of every instance it passes. -/
def instanceIdLoop (nodeName : String) : List Ec2Instance → Go (Option String)
  | [] => .ret none
  | inst :: rest =>
    match inst.PrivateDnsName with
    | none => .panic nilDeref
    | some name => if name == nodeName then .ret (some inst.InstanceId)
      else instanceIdLoop nodeName rest

/-- The method `GetInstanceIdFromNodeName` of nodes.go. -/
def GetInstanceIdFromNodeName (w : World) (nodeName asgName : String) :
    Go (String × Option String) :=
  match GetInstanceDetailsOfAsg w asgName with
  | .panic m => .panic m
  | .ret (_, some e) => .ret ("", some e)
  | .ret (instances, none) =>
    match instanceIdLoop nodeName instances with
    | .panic m => .panic m
    | .ret (some instanceId) => .ret (instanceId, none)
    | .ret none => .ret ("", some ("Unable to fetch instanceId of node " ++ nodeName))

/-- The state after the cloud has terminated the instance: it is no longer described and
no longer attached to a group. -/
def withoutInstance (instanceId : String) (w : World) : World where
  groups := w.groups.map (withoutInstances [instanceId])
  tags := w.tags
  reservations := w.reservations.map
    (fun r => ⟨r.Instances.filter (fun i => !(i.InstanceId == instanceId))⟩)
  launch := w.launch
  nodes := w.nodes
  failing := w.failing

/-- The method `TerminateInstance` of asgrollout.go. -/
def TerminateInstance (w : World) (nodeName asgName : String) : World × Go (Option String) :=
  match GetInstanceIdFromNodeName w nodeName asgName with
  | .panic m => (w, .panic m)
  | .ret (_, some e) => (w, .ret (some e))
  | .ret (instanceId, none) =>
    if w.failing.contains Api.TerminateInstances then (w, .ret (some "TerminateInstances failed"))
    else (withoutInstance instanceId w, .ret none)

/-- A call that `rolloutNode` makes after its wait for a new node, with the result it got:
the readiness check with its boolean and error, the two labellings with their error, the
drain with its error list, the deletion of the node object, the switch of the scale-in
protection, and the termination of the instance. -/
inductive Call where
  | IsNodeHealthy (node : String) (healthy : Bool) (err : Option KubeError)
  | AddLabelToNode (node state : String) (err : Option KubeError)
  | DrainNode (node : String) (errs : List KubeError)
  | DeleteNode (node : String) (err : Option KubeError)
  | DisableNewInstanceProtection (err : Option String)
  | TerminateInstance (node : String) (err : Option String)
  deriving Repr, DecidableEq

/-- How a run of `rolloutNode` ends: it returns; it blocks for ever on a channel; the
program panics; or the readiness poll is still going on after the rounds followed. -/
inductive Ending where
  | returned
  | blocked
  | panicked (msg : String)
  | polling
  deriving Repr, DecidableEq

/-- A run of `rolloutNode`, or of a part of it: the state it leaves, the calls it made,
the values it sent on the error channel `errCh` of the batch (`none` is the nil error),
and how it ended. -/
structure NodeRun where
  world : World
  calls : List Call
  sent : List (Option String)
  ending : Ending

/-- The run `r` after the calls `calls` and the sends `sent`. -/
def NodeRun.after (calls : List Call) (sent : List (Option String)) (r : NodeRun) : NodeRun :=
  ⟨r.world, calls ++ r.calls, sent ++ r.sent, r.ending⟩

/-- What surrounds one run of `rolloutNode`: the context and the poller of the wait for a
new node, the change of the state between two readiness checks and the number of checks
followed, and the pods of the cluster with the schedule of the drain. -/
structure Surroundings where
  ctx : Context
  now : Nat
  getNewNode : Poller
  pollerFirst : Bool
  settle : World → World
  patience : Nat
  pods : PodApi
  schedule : List Nat

/-- The end of `rolloutNode` (asgrollout.go 949-958): on the last batch the scale-in
protection of new instances is switched off, and the instance is terminated.  After a
failed switch the code goes on to the termination. -/
def terminateNode (asgName nodeName : String) (lastBatch : Bool) (w : World) : NodeRun :=
  let finish : World → NodeRun := fun u =>
    match TerminateInstance u nodeName asgName with
    | (u1, .panic m) => ⟨u1, [], [], .panicked m⟩
    | (u1, .ret err) => ⟨u1, [.TerminateInstance nodeName err], [err], .returned⟩
  if lastBatch then
    match DisableNewInstanceProtection w asgName with
    | (w1, some e) =>
      (finish w1).after [.DisableNewInstanceProtection (some e)]
        [some ("Unable to unset new Instance Protection " ++ e)]
    | (w1, none) => (finish w1).after [.DisableNewInstanceProtection none] []
  else finish w

/-- The part of `rolloutNode` after a successful drain (asgrollout.go 930-958).  The error
of `DeleteNode` is sent on `errC`, the channel of the poller, which nobody receives from
any more. -/
def removeNode (cfg : AsgRolloutConfig) (asgName nodeName : String) (lastBatch : Bool)
    (w : World) : NodeRun :=
  match AddLabelToNode w nodeName NodeStateLabelKey "drained" cfg.IgnoreNotFound with
  | (w1, .panic m) => ⟨w1, [], [], .panicked m⟩
  | (w1, .ret (some e)) =>
    ⟨w1, [.AddLabelToNode nodeName "drained" (some e)], [some e.msg], .returned⟩
  | (w1, .ret none) =>
    match DeleteNode w1 nodeName cfg.IgnoreNotFound with
    | (w2, some e) =>
      ⟨w2, [.AddLabelToNode nodeName "drained" none, .DeleteNode nodeName (some e)], [],
        .blocked⟩
    | (w2, none) =>
      (terminateNode asgName nodeName lastBatch w2).after
        [.AddLabelToNode nodeName "drained" none, .DeleteNode nodeName none] []

/-- The part of `rolloutNode` after the new node was seen ready (asgrollout.go 903-958). -/
def replaceNode (cfg : AsgRolloutConfig) (env : Surroundings) (asgName nodeName : String)
    (lastBatch : Bool) (newNode : String) (w : World) : NodeRun :=
  match AddLabelToNode w newNode NodeStateLabelKey "new" cfg.IgnoreNotFound with
  | (w1, .panic m) => ⟨w1, [], [], .panicked m⟩
  | (w1, .ret (some e)) => ⟨w1, [.AddLabelToNode newNode "new" (some e)], [some e.msg], .returned⟩
  | (w1, .ret none) =>
    match (DrainNode env.pods env.schedule nodeName true cfg.ForceDeletePods true
        cfg.IgnoreNotFound).errors with
    | .panic m => ⟨w1, [.AddLabelToNode newNode "new" none], [], .panicked m⟩
    | .ret errs =>
      if errs.length != 0 then
        ⟨w1, [.AddLabelToNode newNode "new" none, .DrainNode nodeName errs],
          [some ("Unable to drain node " ++ nodeName ++ ", [" ++
            " ".intercalate (errs.map (fun e => e.msg)) ++ "]")], .returned⟩
      else
        (removeNode cfg asgName nodeName lastBatch w1).after
          [.AddLabelToNode newNode "new" none, .DrainNode nodeName errs] []

/-- The readiness poll of `rolloutNode` (asgrollout.go 878-896): the state it ends in, the
checks it made, and the value it puts on `isReady`, or `none` while it is still polling
after `rounds` checks. -/
def awaitReady (cfg : AsgRolloutConfig) (settle : World → World) (newNode : String) :
    Nat → World → World × List Call × Option (Option KubeError)
  | 0, w => (w, [], none)
  | rounds + 1, w =>
    match IsNodeHealthy w newNode cfg.IgnoreNotFound with
    | (isHealthy, some e) => (w, [.IsNodeHealthy newNode isHealthy (some e)], some (some e))
    | (true, none) => (w, [.IsNodeHealthy newNode true none], some none)
    | (false, none) =>
      match awaitReady cfg settle newNode rounds (settle w) with
      | (w1, calls, res) => (w1, .IsNodeHealthy newNode false none :: calls, res)

/-- The part of `rolloutNode` after its `select` (asgrollout.go 872-964). -/
def afterWait (cfg : AsgRolloutConfig) (env : Surroundings) (asgName nodeName : String)
    (lastBatch : Bool) (newNode : String) (w : World) : NodeRun :=
  match awaitReady cfg env.settle newNode env.patience w with
  | (w1, calls, none) => ⟨w1, calls, [], .polling⟩
  | (w1, calls, some (some isReadyError)) => ⟨w1, calls, [some isReadyError.msg], .returned⟩
  | (w1, calls, some none) =>
    (replaceNode cfg env asgName nodeName lastBatch newNode w1).after calls []

/-- The function `rolloutNode` of asgrollout.go for the old node `nodeName`. -/
def rolloutNode (cfg : AsgRolloutConfig) (env : Surroundings) (asgName nodeName : String)
    (lastBatch : Bool) (w : World) : NodeRun :=
  match rolloutNodeWait cfg env.ctx env.now env.getNewNode env.pollerFirst with
  | .blocked => ⟨w, [], [], .blocked⟩
  | .returned e => ⟨w, [], [some e], .returned⟩
  | .proceeds newNode sent =>
    (afterWait cfg env asgName nodeName lastBatch newNode w).after [] (sent.map some)

/-! ## The order of the steps of a workflow, and scenarios -/

/-- The step of the replacement that a call attempts: 1 the readiness check of the new
node, 2 its labelling as new, 3 the drain of the old node, 4 its labelling as drained,
5 the deletion of its node object, 6 the termination of its instance.  The switch of the
scale-in protection is not one of the steps. -/
def Call.step : Call → Option Nat
  | .IsNodeHealthy _ _ _ => some 1
  | .AddLabelToNode _ state _ =>
    if state == "new" then some 2 else if state == "drained" then some 4 else none
  | .DrainNode _ _ => some 3
  | .DeleteNode _ _ => some 5
  | .DisableNewInstanceProtection _ => none
  | .TerminateInstance _ _ => some 6

/-- Whether the call succeeded: the readiness check returned `true`, the drain returned
the empty list, the other calls returned the nil error. -/
def Call.succeeded : Call → Bool
  | .IsNodeHealthy _ healthy err => healthy && err.isNone
  | .AddLabelToNode _ _ err => err.isNone
  | .DrainNode _ errs => errs.isEmpty
  | .DeleteNode _ err => err.isNone
  | .DisableNewInstanceProtection err => err.isNone
  | .TerminateInstance _ err => err.isNone

/-- Whether the call is made on the node it is meant for: the readiness check and the
label new on the replacement `newNode`, the other steps on the old node `nodeName`. -/
def Call.onNode (nodeName newNode : String) : Call → Bool
  | .IsNodeHealthy node _ _ => node == newNode
  | .AddLabelToNode node state _ => if state == "new" then node == newNode else node == nodeName
  | .DrainNode node _ => node == nodeName
  | .DeleteNode node _ => node == nodeName
  | .DisableNewInstanceProtection _ => true
  | .TerminateInstance node _ => node == nodeName

/-- The order of the claim as a test on a log of calls, `done` steps having succeeded so
far: every call that attempts a step attempts the step `done + 1`, on the right node, so
a step is attempted only after all the steps before it have succeeded, in their order. -/
def inOrder (nodeName newNode : String) : Nat → List Call → Bool
  | _, [] => true
  | done, c :: rest =>
    match c.step with
    | none => inOrder nodeName newNode done rest
    | some k =>
      k == done + 1 && c.onNode nodeName newNode &&
        inOrder nodeName newNode (if c.succeeded then k else done) rest

/-- Surroundings in which everything goes well: the context of `main`, a poller that
finds node-5 after ninety seconds, a cluster that does not change during the readiness
poll, and two pods on the node, one of them of a DaemonSet. -/
def calmSurroundings : Surroundings where
  ctx := mainContext
  now := 0
  getNewNode := pollerFinding 90000000000 "node-5"
  pollerFirst := true
  settle := fun w => w
  patience := 3
  pods := calmPods [webPod "web-1", proxyPod "proxy-1"]
  schedule := []

/-- Surroundings in which the context is done at the instant 5 with the error `err`, and
the poller has found no node. -/
def doneSurroundings (err : CtxErr) : Surroundings :=
  { calmSurroundings with ctx := ⟨some (5, err)⟩, getNewNode := stalledPoller }

/-- The state `joinedWorld` with the calls `failing` failing. -/
def joinedWorldFailing (failing : List Api) : World := { joinedWorld with failing := failing }

/-! # Theorems

Every definition of the development is above this line. -/

/-! ## Theorems: classification of instances -/

theorem classifyByTemplate_ret (tid : String) (ver : Int) :
    ∀ (insts : List Instance) (old new : List String) (r : List String × List String),
      classifyByTemplate tid ver insts old new = .ret r →
      r = (old ++ (insts.filter (fun i => !carriesLatest tid ver i)).map (·.InstanceId),
           new ++ (insts.filter (carriesLatest tid ver)).map (·.InstanceId)) := by
  intro insts
  induction insts with
  | nil =>
    intro old new r h
    simp only [classifyByTemplate, Go.ret.injEq] at h
    simp [← h]
  | cons i rest ih =>
    intro old new r h
    unfold classifyByTemplate at h
    split at h
    · rename_i hlt
      have hc : carriesLatest tid ver i = false := by simp [carriesLatest, hlt]
      rw [ih _ _ _ h]
      simp [List.filter_cons, hc]
    · rename_i lt hlt
      split at h
      · exact absurd h (by simp)
      · rename_i version hv
        split at h
        · rename_i cur hat
          split at h
          · exact absurd h (by simp)
          · rename_i t ht
            split at h
            · rename_i hcond
              have hc : carriesLatest tid ver i = true := by
                simp only [Bool.and_eq_true, beq_iff_eq] at hcond
                simp [carriesLatest, hlt, hv, ht, hat, hcond.1, hcond.2]
              rw [ih _ _ _ h]
              simp [List.filter_cons, hc]
            · rename_i hcond
              have hc : carriesLatest tid ver i = false := by
                simp only [Bool.and_eq_true, beq_iff_eq, not_and] at hcond
                simp only [carriesLatest, hlt, hv, ht, hat]
                simp only [beq_self_eq_true, Bool.true_and, Bool.and_eq_false_imp, beq_iff_eq]
                intro h1
                simpa using hcond h1.symm
              rw [ih _ _ _ h]
              simp [List.filter_cons, hc]
        · rename_i cur e hat
          have hc : carriesLatest tid ver i = false := by
            simp only [carriesLatest, hlt, hv]
            cases hid : lt.LaunchTemplateId <;> simp [hat]
          rw [ih _ _ _ h]
          simp [List.filter_cons, hc]

theorem templateBranch_isLaunchConfig (api : LaunchApi) (t : Option String) (l : Latest)
    (h : templateBranch api t = .ret (.ok l)) : l.isLaunchConfig = false := by
  unfold templateBranch at h
  split at h
  · simp at h
  · split at h
    · simp at h
    · split at h
      · simp only [Go.ret.injEq, Except.ok.injEq] at h
        simp [← h]
      · split at h
        · simp at h
        · simp only [Go.ret.injEq, Except.ok.injEq] at h
          simp [← h]

theorem resolveLatest_isLaunchConfig (api : LaunchApi) (group : Group) (l : Latest)
    (hv : group.LaunchConfigurationName = none)
    (h : resolveLatest api group = .ret (.ok l)) : l.isLaunchConfig = false := by
  unfold resolveLatest at h
  rw [hv] at h
  simp only at h
  split at h
  · exact templateBranch_isLaunchConfig _ _ _ h
  · split at h
    · split at h
      · simp at h
      · split at h
        · simp at h
        · exact templateBranch_isLaunchConfig _ _ _ h
    · simp only [Go.ret.injEq, Except.ok.injEq] at h
      simp [← h]

/-- C1. For a group without a launch configuration (launch template or mixed-instances
policy), whenever `getOldnNewInstancesOfAsg` returns the nil error, `newInstances` holds, in
the order of the group, exactly the instances that carry a launch-template reference whose
template id is the latest template id and whose version parses as an integer equal to the
latest version number, and `oldInstances` holds every other instance of the group. -/
theorem getOldnNewInstancesOfAsg_template_rule (api : LaunchApi) (group : Group)
    (r : Classified) (hvariant : group.LaunchConfigurationName = none)
    (hret : getOldnNewInstancesOfAsg api group = .ret r) (herr : r.err = none) :
    ∃ l : Latest, resolveLatest api group = .ret (.ok l) ∧
      r.newInstances =
        (group.Instances.filter
          (carriesLatest l.latestLaunchTemplateId l.latestVersionNumber)).map
          (fun i => i.InstanceId) ∧
      r.oldInstances =
        (group.Instances.filter
          (fun i => !carriesLatest l.latestLaunchTemplateId l.latestVersionNumber i)).map
          (fun i => i.InstanceId) := by
  unfold getOldnNewInstancesOfAsg at hret
  split at hret
  · simp at hret
  · simp only [Go.ret.injEq] at hret
    rw [← hret] at herr
    simp at herr
  · rename_i l hl
    refine ⟨l, hl, ?_⟩
    have hlc := resolveLatest_isLaunchConfig api group l hvariant hl
    simp only [hlc, Bool.not_false, if_true] at hret
    split at hret
    · simp at hret
    · rename_i old new hcl
      have := classifyByTemplate_ret _ _ _ _ _ _ hcl
      simp only [Prod.mk.injEq, List.nil_append] at this
      simp only [Go.ret.injEq] at hret
      rw [← hret]
      exact ⟨this.2, this.1⟩

theorem latestVersionLoop_spec :
    ∀ (versions : List LaunchTemplateVersion) (v0 : Int) (id0 : String),
      (∀ v ∈ versions, ∃ n tid, v.VersionNumber = some n ∧ v.LaunchTemplateId = some tid) →
      ∃ latest tid, latestVersionLoop versions v0 id0 = .ret (latest, tid) ∧ v0 ≤ latest ∧
        (∀ v ∈ versions, ∀ n, v.VersionNumber = some n → n ≤ latest) ∧
        ((latest = v0 ∧ tid = id0) ∨
          ∃ v ∈ versions, v.VersionNumber = some latest ∧ v.LaunchTemplateId = some tid) := by
  intro versions
  induction versions with
  | nil =>
    intro v0 id0 _
    exact ⟨v0, id0, by simp [latestVersionLoop], le_refl _, by simp, Or.inl ⟨rfl, rfl⟩⟩
  | cons x rest ih =>
    intro v0 id0 hwf
    obtain ⟨n, t, hn, ht⟩ := hwf x (List.mem_cons_self _ _)
    have hrest : ∀ v ∈ rest, ∃ n tid, v.VersionNumber = some n ∧ v.LaunchTemplateId = some tid :=
      fun v hv => hwf v (List.mem_cons_of_mem _ hv)
    by_cases hgt : n > v0
    · obtain ⟨latest, tid, hrun, hle, hall, hcarry⟩ := ih n t hrest
      refine ⟨latest, tid, ?_, by omega, ?_, ?_⟩
      · simp [latestVersionLoop, hn, ht, hgt, hrun]
      · intro v hv m hm
        rcases List.mem_cons.mp hv with rfl | hv
        · rw [hn] at hm
          cases hm
          exact hle
        · exact hall v hv m hm
      · right
        rcases hcarry with ⟨h1, h2⟩ | ⟨v, hv, h1, h2⟩
        · exact ⟨x, List.mem_cons_self _ _, by rw [hn, h1], by rw [ht, h2]⟩
        · exact ⟨v, List.mem_cons_of_mem _ hv, h1, h2⟩
    · obtain ⟨latest, tid, hrun, hle, hall, hcarry⟩ := ih v0 id0 hrest
      refine ⟨latest, tid, ?_, hle, ?_, ?_⟩
      · simp [latestVersionLoop, hn, hgt, hrun]
      · intro v hv m hm
        rcases List.mem_cons.mp hv with rfl | hv
        · rw [hn] at hm
          cases hm
          omega
        · exact hall v hv m hm
      · rcases hcarry with h | ⟨v, hv, h1, h2⟩
        · exact Or.inl h
        · exact Or.inr ⟨v, List.mem_cons_of_mem _ hv, h1, h2⟩

/-- C2. For every non-empty list of launch-template versions with version numbers of at
least zero, in any order, the version loop of `getOldnNewInstancesOfAsg` ends with the
maximum version number of the list and with the template id of a version that carries this
maximum.  The versions 1, 2, 5, 3 give 5, and the instances at versions 1, 5, 5 and $Latest
split into two new and two old ones. -/
theorem latest_is_maximum (versions : List LaunchTemplateVersion) (hne : versions ≠ [])
    (hwf : ∀ v ∈ versions, ∃ n tid,
      v.VersionNumber = some n ∧ 0 ≤ n ∧ v.LaunchTemplateId = some tid) :
    (∃ latest tid, latestVersionLoop versions (-1) "" = .ret (latest, tid) ∧
      (∀ v ∈ versions, ∀ n, v.VersionNumber = some n → n ≤ latest) ∧
      (∃ v ∈ versions, v.VersionNumber = some latest ∧ v.LaunchTemplateId = some tid)) ∧
    (latestVersionLoop scenarioVersions (-1) "" = .ret (5, "lt-1") ∧
      getOldnNewInstancesOfAsg scenarioApi scenarioGroup =
        .ret ⟨["i-1", "i-4"], ["i-2", "i-3"], some "ami-1", none⟩) := by
  refine ⟨?_, by decide, by decide⟩
  obtain ⟨latest, tid, hrun, _, hall, hcarry⟩ :=
    latestVersionLoop_spec versions (-1) ""
      (fun v hv => by
        obtain ⟨n, t, h1, _, h2⟩ := hwf v hv
        exact ⟨n, t, h1, h2⟩)
  refine ⟨latest, tid, hrun, hall, ?_⟩
  rcases hcarry with ⟨h1, _⟩ | h
  · exfalso
    cases versions with
    | nil => exact hne rfl
    | cons x rest =>
      obtain ⟨n, t, hn, h0, _⟩ := hwf x (List.mem_cons_self _ _)
      have := hall x (List.mem_cons_self _ _) n hn
      omega
  · exact h

theorem latest_is_maximum_witness :
    (∃ latest tid, latestVersionLoop scenarioVersions (-1) "" = .ret (latest, tid) ∧
      (∀ v ∈ scenarioVersions, ∀ n, v.VersionNumber = some n → n ≤ latest) ∧
      (∃ v ∈ scenarioVersions, v.VersionNumber = some latest ∧ v.LaunchTemplateId = some tid)) :=
  (latest_is_maximum scenarioVersions (by decide) (by
    intro v hv
    simp only [scenarioVersions, List.mem_cons, List.mem_singleton, List.not_mem_nil,
      or_false] at hv
    rcases hv with rfl | rfl | rfl | rfl <;> exact ⟨_, _, rfl, by decide, rfl⟩)).1

theorem getOldnNewInstancesOfAsg_template_rule_witness :
    getOldnNewInstancesOfAsg scenarioApi scenarioGroup =
        .ret ⟨["i-1", "i-4"], ["i-2", "i-3"], some "ami-1", none⟩ ∧
      ∃ l : Latest, resolveLatest scenarioApi scenarioGroup = .ret (.ok l) ∧
        ["i-2", "i-3"] =
          (scenarioGroup.Instances.filter
            (carriesLatest l.latestLaunchTemplateId l.latestVersionNumber)).map
            (fun i => i.InstanceId) ∧
        ["i-1", "i-4"] =
          (scenarioGroup.Instances.filter
            (fun i => !carriesLatest l.latestLaunchTemplateId l.latestVersionNumber i)).map
            (fun i => i.InstanceId) :=
  ⟨by decide,
    getOldnNewInstancesOfAsg_template_rule scenarioApi scenarioGroup
      ⟨["i-1", "i-4"], ["i-2", "i-3"], some "ami-1", none⟩ rfl (by decide) rfl⟩

theorem classifyByConfig_eq (name : String) :
    ∀ (insts : List Instance) (old new : List String),
      classifyByConfig name insts old new =
        (old ++ (insts.filter (fun i => !(i.LaunchConfigurationName == some name))).map
            (fun i => i.InstanceId),
         new ++ (insts.filter (fun i => i.LaunchConfigurationName == some name)).map
            (fun i => i.InstanceId)) := by
  intro insts
  induction insts with
  | nil => intro old new; simp [classifyByConfig]
  | cons i rest ih =>
    intro old new
    unfold classifyByConfig
    split
    · rename_i n hn
      split
      · rename_i hc
        have : n = name := by simpa using hc
        rw [ih]
        simp [List.filter_cons, hn, this]
      · rename_i hc
        have : ¬ n = name := by simpa using hc
        rw [ih]
        simp [List.filter_cons, hn, this]
    · rename_i hn
      rw [ih]
      simp [List.filter_cons, hn]

/-- C3. For a group with a launch configuration whose describe call succeeds,
`getOldnNewInstancesOfAsg` returns the nil error, `newInstances` holds exactly the instances
whose launch-configuration name is present and equal to the name of the group, and
`oldInstances` holds every other instance, those without a name included. -/
theorem getOldnNewInstancesOfAsg_config_rule (api : LaunchApi) (group : Group)
    (lcName : String) (lcs : List LaunchConfiguration)
    (hvariant : group.LaunchConfigurationName = some lcName)
    (hapi : api.DescribeLaunchConfigurations lcName = .ok lcs) :
    ∃ ami, getOldnNewInstancesOfAsg api group = .ret
      ⟨(group.Instances.filter
          (fun i => !(i.LaunchConfigurationName == some lcName))).map (fun i => i.InstanceId),
        (group.Instances.filter
          (fun i => i.LaunchConfigurationName == some lcName)).map (fun i => i.InstanceId),
        ami, none⟩ := by
  unfold getOldnNewInstancesOfAsg resolveLatest
  rw [hvariant]
  simp only [hapi]
  cases lcs with
  | nil => exact ⟨none, by simp [classifyByConfig_eq]⟩
  | cons lc _ => exact ⟨lc.ImageId, by simp [classifyByConfig_eq]⟩

theorem getOldnNewInstancesOfAsg_config_rule_witness :
    getOldnNewInstancesOfAsg configApi configGroup =
        .ret ⟨["i-1", "i-3"], ["i-2"], some "ami-7", none⟩ ∧
      ∃ ami, getOldnNewInstancesOfAsg configApi configGroup = .ret
        ⟨(configGroup.Instances.filter
            (fun i => !(i.LaunchConfigurationName == some "lc-2"))).map (fun i => i.InstanceId),
          (configGroup.Instances.filter
            (fun i => i.LaunchConfigurationName == some "lc-2")).map (fun i => i.InstanceId),
          ami, none⟩ :=
  ⟨by decide, getOldnNewInstancesOfAsg_config_rule configApi configGroup "lc-2" [⟨some "ami-7"⟩]
    rfl rfl⟩

/-- C4 (the code departs from the claim). An instance whose launch-template reference has
no version is not placed in `oldInstances`: the version pointer is dereferenced without a
nil test and the call ends in a nil-pointer panic, so no instance of the group is
classified.  The same group without that instance is classified, its $Latest instance
being old. -/
theorem getOldnNewInstancesOfAsg_missing_version_panics :
    getOldnNewInstancesOfAsg scenarioApi missingVersionGroup = .panic nilDeref ∧
      getOldnNewInstancesOfAsg scenarioApi scenarioGroup =
        .ret ⟨["i-1", "i-4"], ["i-2", "i-3"], some "ami-1", none⟩ := by
  decide

/-! ## Theorems: batch selection -/

theorem nodesToDrainLoop_spec (batchSize : Int) :
    ∀ (nodes : List Node) (count : Int) (nodeList : List String),
      0 ≤ count → count < batchSize →
      nodesToDrainLoop batchSize nodes count nodeList =
        if batchSize - count ≤ nodes.length then
          some (nodeList ++ (nodes.take (batchSize - count).toNat).map (fun n => n.Name))
        else none := by
  intro nodes
  induction nodes with
  | nil =>
    intro count nodeList _ h1
    have : ¬ (batchSize - count ≤ ((([] : List Node).length : Nat) : Int)) := by
      simp only [List.length_nil, Nat.cast_zero]; omega
    rw [if_neg this]
    rfl
  | cons n rest ih =>
    intro count nodeList h0 h1
    unfold nodesToDrainLoop
    by_cases hlast : count + 1 = batchSize
    · have h2 : (batchSize - count).toNat = 1 := by omega
      have h3 : batchSize - count ≤ (((n :: rest).length : Nat) : Int) := by
        simp only [List.length_cons, Nat.cast_add, Nat.cast_one]; omega
      rw [if_pos h3, h2]
      simp [hlast]
    · have hne : (count + 1 == batchSize) = false := by simpa using hlast
      rw [hne]
      simp only [Bool.false_eq_true, if_false]
      rw [ih (count + 1) _ (by omega) (by omega)]
      have h2 : (batchSize - count).toNat = (batchSize - (count + 1)).toNat + 1 := by omega
      by_cases hlen : batchSize - (count + 1) ≤ (rest.length : Int)
      · have h3 : batchSize - count ≤ (((n :: rest).length : Nat) : Int) := by
          simp only [List.length_cons, Nat.cast_add, Nat.cast_one]; omega
        rw [if_pos hlen, if_pos h3, h2]
        simp
      · have h3 : ¬ (batchSize - count ≤ (((n :: rest).length : Nat) : Int)) := by
          simp only [List.length_cons, Nat.cast_add, Nat.cast_one]; omega
        rw [if_neg hlen, if_neg h3]

/-- C5. For every batch size of at least one and every list of nodes that the label query
`dockyard.io/node-state=old` returns, `NodesToDrain` returns the names of the first
`batchSize` nodes of the list, in order, when the list has at least `batchSize` nodes, and
the empty list otherwise; its error is always nil. -/
theorem NodesToDrain_first_batch (cfg : AsgRolloutConfig) (w : World) (asgName : String)
    (batchSize : Int) (nodes : List Node) (hbatch : 1 ≤ batchSize)
    (hquery : GetNodeByLabel w (getNodeStateLabel "old") cfg.IgnoreNotFound = (nodes, none)) :
    getNodeStateLabel "old" = "dockyard.io/node-state=old" ∧
    NodesToDrain cfg w asgName batchSize =
      (if batchSize ≤ nodes.length then (nodes.take batchSize.toNat).map (fun n => n.Name)
        else [], none) := by
  refine ⟨by decide, ?_⟩
  unfold NodesToDrain
  rw [hquery]
  simp only
  rw [nodesToDrainLoop_spec batchSize nodes 0 [] (le_refl _) (by omega)]
  have h0 : batchSize - 0 = batchSize := by omega
  rw [h0]
  by_cases h : batchSize ≤ (nodes.length : Int)
  · rw [if_pos h, if_pos h]
    simp
  · rw [if_neg h, if_neg h]

theorem NodesToDrain_first_batch_witness :
    NodesToDrain defaultConfig (PreRolloutStart defaultConfig "A" scenarioSixWorld).1 "A" 2 =
        (["node-1", "node-2"], none) ∧
      NodesToDrain defaultConfig (PreRolloutStart defaultConfig "A" scenarioSixWorld).1 "A" 2 =
        (if (2 : Int) ≤ (PreRolloutStart defaultConfig "A" scenarioSixWorld).1.nodes.length then
          ((PreRolloutStart defaultConfig "A" scenarioSixWorld).1.nodes.take
            (2 : Int).toNat).map (fun n => n.Name)
          else [], none) :=
  ⟨by decide,
    (NodesToDrain_first_batch defaultConfig
      (PreRolloutStart defaultConfig "A" scenarioSixWorld).1 "A" 2
      (PreRolloutStart defaultConfig "A" scenarioSixWorld).1.nodes (by decide) (by decide)).2⟩

/-! ## Theorems: the batch loop of `StartRollout` -/

theorem NodesToDrain_length (cfg : AsgRolloutConfig) (w : World) (asgName : String)
    (batchSize : Int) (hbatch : 1 ≤ batchSize) :
    (NodesToDrain cfg w asgName batchSize).2 = none ∧
      ((NodesToDrain cfg w asgName batchSize).1 = [] ∨
        (NodesToDrain cfg w asgName batchSize).1.length = batchSize.toNat) := by
  unfold NodesToDrain
  split
  · exact ⟨rfl, Or.inl rfl⟩
  · rename_i nodes _
    rw [nodesToDrainLoop_spec batchSize nodes 0 [] (le_refl _) (by omega)]
    by_cases h : batchSize - 0 ≤ (nodes.length : Int)
    · rw [if_pos h]
      refine ⟨rfl, Or.inr ?_⟩
      simp only [List.nil_append, List.length_map, List.length_take]
      omega
    · rw [if_neg h]
      exact ⟨rfl, Or.inl rfl⟩

theorem spawnLoop_full (nodes : List String) (batchSize : Int)
    (hlen : nodes.length = batchSize.toNat) (hbatch : 1 ≤ batchSize) :
    ∀ (fuel node : Nat) (started : List String), fuel + node = batchSize.toNat →
      spawnLoop nodes batchSize fuel node started = (started ++ nodes.drop node, false) := by
  intro fuel
  induction fuel with
  | zero =>
    intro node started h
    have : nodes.drop node = [] := List.drop_eq_nil_of_le (by omega)
    simp [spawnLoop, this]
  | succ fuel ih =>
    intro node started h
    unfold spawnLoop
    have h1 : (node : Int) < batchSize := by omega
    rw [if_pos h1]
    have h2 : node < nodes.length := by omega
    have h3 : nodes.get? node = some (nodes.get ⟨node, h2⟩) := List.get?_eq_get h2
    rw [h3]
    simp only
    rw [ih (node + 1) _ (by omega)]
    have h4 : nodes.drop node = nodes.get ⟨node, h2⟩ :: nodes.drop (node + 1) := by
      rw [List.drop_eq_getElem_cons h2]
      rfl
    rw [h4]
    simp

theorem batchLoop_batches (cfg : AsgRolloutConfig) (run : Workflows) (asgName : String)
    (batchSize steps : Int) (hbatch : 1 ≤ batchSize) :
    ∀ (remaining : Nat) (i : Int) (lastBatch : Bool) (w : World) (batches : List (List String)),
      ∃ extra : List (List String),
        (batchLoop cfg run asgName batchSize steps remaining i lastBatch w batches).batches =
          batches ++ extra ∧
        extra.length ≤ remaining ∧ ∀ b ∈ extra, b.length = batchSize.toNat := by
  intro remaining
  induction remaining with
  | zero =>
    intro i lastBatch w batches
    exact ⟨[], by simp [batchLoop], by simp, by simp⟩
  | succ remaining ih =>
    intro i lastBatch w batches
    unfold batchLoop
    obtain ⟨herr, hnodes⟩ := NodesToDrain_length cfg w asgName batchSize hbatch
    generalize NodesToDrain cfg w asgName batchSize = res at herr hnodes
    obtain ⟨nodes, err⟩ := res
    simp only at herr hnodes
    subst herr
    simp only
    rcases hnodes with hnil | hlen
    · subst hnil
      exact ⟨[], by simp, by simp, by simp⟩
    · have hne : (nodes.length == 0) = false := by
        have : nodes.length ≠ 0 := by omega
        simpa using this
      rw [hne]
      simp only [Bool.false_eq_true, if_false]
      rw [spawnLoop_full nodes batchSize hlen hbatch batchSize.toNat 0 [] (by omega)]
      simp only [List.nil_append, List.drop_zero]
      generalize (if (i == steps - 1) = true then true else lastBatch) = flag
      by_cases herrs : (List.filterMap id (run w asgName nodes flag).received).length > 0
      · rw [if_pos herrs]
        exact ⟨[nodes], by simp, by simp, by simp [hlen]⟩
      · rw [if_neg herrs]
        obtain ⟨extra, h1, h2, h3⟩ :=
          ih (i + 1) flag (run w asgName nodes flag).world (batches ++ [nodes])
        refine ⟨nodes :: extra, ?_, by simp; omega, ?_⟩
        · rw [h1]; simp
        · intro b hb
          rcases List.mem_cons.mp hb with rfl | hb
          · exact hlen
          · exact h3 b hb

theorem sum_lengths_of_uniform (k : Nat) :
    ∀ (l : List (List String)), (∀ b ∈ l, b.length = k) →
      (l.map List.length).sum = l.length * k := by
  intro l
  induction l with
  | nil => intro _; simp
  | cons b rest ih =>
    intro h
    have hb := h b (List.mem_cons_self _ _)
    have hrest := ih (fun c hc => h c (List.mem_cons_of_mem _ hc))
    simp only [List.map_cons, List.sum_cons, List.length_cons, hb, hrest]
    ring

theorem tdiv_toNat (c : Nat) (b : Int) (hb : 1 ≤ b) :
    (Int.tdiv (c : Int) b).toNat = c / b.toNat := by
  obtain ⟨n, rfl⟩ := Int.eq_ofNat_of_zero_le (show 0 ≤ b by omega)
  simp only [Int.tdiv, Int.toNat_ofNat]
  norm_cast

/-- C6. With `C` old instances at the start and a batch size `B` of at least one,
`StartRollout` runs at most `C / B` batches (integer division), starts exactly `B`
workflows in each batch it runs, and so handles at most `(C / B) * B ≤ C` nodes; with
`B > C` it runs no batch and, once the steps before the loop have succeeded, returns the
nil error.  Five old nodes with `B = 2` give two batches and four nodes. -/
theorem StartRollout_batches (cfg : AsgRolloutConfig) (run : Workflows) (asgName : String)
    (batchSize : Int) (w : World) (hbatch : 1 ≤ batchSize) :
    (StartRollout cfg run asgName batchSize w).batches.length ≤
        countOldInstances w asgName / batchSize.toNat ∧
      (∀ b ∈ (StartRollout cfg run asgName batchSize w).batches, b.length = batchSize.toNat) ∧
      (((StartRollout cfg run asgName batchSize w).batches.map List.length).sum ≤
        countOldInstances w asgName / batchSize.toNat * batchSize.toNat) ∧
      countOldInstances w asgName / batchSize.toNat * batchSize.toNat ≤
        countOldInstances w asgName ∧
      ((countOldInstances w asgName : Int) < batchSize →
        (StartRollout cfg run asgName batchSize w).batches = [] ∧
        ∀ w1 w2, PreRolloutStart cfg asgName w = (w1, .ret none) →
          raiseCapacity asgName batchSize w1 = (w2, .ret none) →
          (StartRollout cfg run asgName batchSize w).result = .ret none) ∧
      ((StartRollout defaultConfig succeedingWorkflows "A" 2 scenarioSixWorld).batches =
          [["node-1", "node-2"], ["node-3", "node-4"]] ∧
        (StartRollout defaultConfig succeedingWorkflows "A" 2 scenarioSixWorld).result =
          .ret none ∧
        countOldInstances scenarioSixWorld "A" = 5 ∧
        (StartRollout defaultConfig succeedingWorkflows "A" 7 scenarioSixWorld).batches = [] ∧
        (StartRollout defaultConfig succeedingWorkflows "A" 7 scenarioSixWorld).result =
          .ret none) := by
  have hpos : 0 < batchSize.toNat := by omega
  have hne0 : (batchSize == 0) = false := by
    have : batchSize ≠ 0 := by omega
    simpa using this
  -- the batches of the run, bounded by the number of steps
  have key : (StartRollout cfg run asgName batchSize w).batches.length ≤
        countOldInstances w asgName / batchSize.toNat ∧
      (∀ b ∈ (StartRollout cfg run asgName batchSize w).batches,
        b.length = batchSize.toNat) := by
    unfold StartRollout countOldInstances
    split
    · exact ⟨by simp, by simp⟩
    · exact ⟨by simp, by simp⟩
    · rename_i oldInstances _ hcl
      simp only
      split
      · exact ⟨by simp, by simp⟩
      · exact ⟨by simp, by simp⟩
      · rw [hne0]
        simp only [Bool.false_eq_true, if_false]
        split
        · exact ⟨by simp, by simp⟩
        · exact ⟨by simp, by simp⟩
        · rename_i w1 _ w2 _
          obtain ⟨extra, h1, h2, h3⟩ :=
            batchLoop_batches cfg run asgName batchSize
              (Int.tdiv (oldInstances.length : Int) batchSize) hbatch
              (Int.tdiv (oldInstances.length : Int) batchSize).toNat 0 false w2 []
          rw [h1]
          rw [tdiv_toNat _ _ hbatch] at h2
          simp only [List.nil_append, hcl]
          exact ⟨h2, h3⟩
  refine ⟨key.1, key.2, ?_, Nat.div_mul_le_self _ _, ?_, by decide, by decide, by decide,
    by decide, by decide⟩
  · rw [sum_lengths_of_uniform _ _ key.2]
    exact Nat.mul_le_mul_right _ key.1
  · intro hlt
    have hsteps : countOldInstances w asgName / batchSize.toNat = 0 :=
      Nat.div_eq_of_lt (by omega)
    refine ⟨List.eq_nil_of_length_eq_zero (by have := key.1; omega), ?_⟩
    intro w1 w2 hpre hraise
    unfold countOldInstances at hsteps
    unfold StartRollout
    split
    · rename_i m hcl
      unfold PreRolloutStart at hpre
      rw [hcl] at hpre
      simp at hpre
    · rename_i hcl
      unfold PreRolloutStart at hpre
      rw [hcl] at hpre
      simp at hpre
    · rename_i oldInstances _ hcl
      rw [hcl] at hsteps
      simp only at hsteps
      simp only [hpre, hne0, Bool.false_eq_true, if_false, hraise]
      rw [tdiv_toNat _ _ hbatch, hsteps]
      rfl

theorem StartRollout_batches_witness :
    (StartRollout defaultConfig succeedingWorkflows "A" 2 scenarioSixWorld).batches.length ≤
      countOldInstances scenarioSixWorld "A" / (2 : Int).toNat :=
  (StartRollout_batches defaultConfig succeedingWorkflows "A" 2 scenarioSixWorld
    (by decide)).1

/-! ## Theorems: the capacity increase of `StartRollout` -/

theorem find_modifyFirst {α : Type} (p : α → Bool) (f : α → α) (hf : ∀ x, p (f x) = p x) :
    ∀ l : List α, (modifyFirst p f l).find? p = (l.find? p).map f := by
  intro l
  induction l with
  | nil => simp [modifyFirst]
  | cons x rest ih =>
    unfold modifyFirst
    by_cases hx : p x = true
    · simp [hx, List.find?_cons, hf]
    · simp [hx, List.find?_cons, ih]

theorem any_of_find {α : Type} (p : α → Bool) :
    ∀ (l : List α) (x : α), l.find? p = some x → l.any p = true := by
  intro l
  induction l with
  | nil => intro x h; simp at h
  | cons y rest ih =>
    intro x h
    by_cases hy : p y = true
    · simp [hy]
    · simp only [List.find?_cons, hy] at h
      simp [ih x h]

theorem filter_of_find {α : Type} (p : α → Bool) :
    ∀ (l : List α) (x : α), l.find? p = some x → ∃ rest, l.filter p = x :: rest := by
  intro l
  induction l with
  | nil => intro x h; simp at h
  | cons y rest ih =>
    intro x h
    by_cases hy : p y = true
    · simp only [List.find?_cons, hy, Option.some.injEq] at h
      subst h
      exact ⟨_, by rw [List.filter_cons, if_pos hy]⟩
    · simp only [List.find?_cons, hy] at h
      obtain ⟨r, hr⟩ := ih x h
      exact ⟨r, by rw [List.filter_cons, if_neg hy, hr]⟩

theorem contains_singleton (a : String) :
    (fun g : Group => [a].contains g.AutoScalingGroupName) =
      fun g : Group => g.AutoScalingGroupName == a := by
  funext g
  simp only [List.contains, List.elem]
  cases g.AutoScalingGroupName == a <;> rfl

theorem getAsg_of_find (w : World) (asgName : String) (g : Group)
    (hcall : Api.DescribeAutoScalingGroups ∉ w.failing)
    (hg : w.groups.find? (fun x => x.AutoScalingGroupName == asgName) = some g) :
    getAsg w asgName = .ret (some g, none) := by
  obtain ⟨rest, hrest⟩ := filter_of_find _ _ _ hg
  have hc : w.failing.contains Api.DescribeAutoScalingGroups = false := by simpa using hcall
  unfold getAsg DescribeAutoScalingGroups
  rw [hc, contains_singleton, hrest]
  rfl

theorem updateGroup_of_find (w : World) (api : Api) (asgName : String) (f : Group → Group)
    (g : Group) (hcall : api ∉ w.failing)
    (hf : ∀ x, (f x).AutoScalingGroupName = x.AutoScalingGroupName)
    (hg : w.groups.find? (fun x => x.AutoScalingGroupName == asgName) = some g) :
    (updateGroup w api asgName f).2 = none ∧
      (updateGroup w api asgName f).1.failing = w.failing ∧
      (updateGroup w api asgName f).1.groups.find?
        (fun x => x.AutoScalingGroupName == asgName) = some (f g) := by
  have hc : w.failing.contains api = false := by simpa using hcall
  have hany := any_of_find _ _ _ hg
  simp only [updateGroup, hc, Bool.false_eq_true, if_false, hany, if_true]
  refine ⟨trivial, trivial, ?_⟩
  unfold overGroup
  rw [find_modifyFirst _ _ (fun x => by simp [hf]), hg]
  rfl

theorem wrap64_of_range (n : Int) (h0 : -(2 ^ 63) ≤ n) (h1 : n < 2 ^ 63) : wrap64 n = n := by
  unfold wrap64
  omega

/-- C7. Before the batch loop `StartRollout` reads the max and the desired capacity of the
group and then sets max to `max + batchSize` exactly when `desired + batchSize > max`, min
to `desired + batchSize` and desired to `desired + batchSize` (no `int64` overflow, the three
calls succeeding).  With min 4, desired 4, max 6 and batch size 2 the group ends at
min 6, desired 6, max 6. -/
theorem raiseCapacity_sets (asgName : String) (batchSize : Int) (w : World) (g : Group)
    (hdescribe : Api.DescribeAutoScalingGroups ∉ w.failing)
    (hupdate : Api.UpdateAutoScalingGroup ∉ w.failing)
    (hdesired : Api.SetDesiredCapacity ∉ w.failing)
    (hg : w.groups.find? (fun x => x.AutoScalingGroupName == asgName) = some g)
    (hd0 : -(2 ^ 63) ≤ g.DesiredCapacity + batchSize)
    (hd1 : g.DesiredCapacity + batchSize < 2 ^ 63)
    (hm0 : -(2 ^ 63) ≤ g.MaxSize + batchSize) (hm1 : g.MaxSize + batchSize < 2 ^ 63) :
    (raiseCapacity asgName batchSize w).2 = .ret none ∧
      (raiseCapacity asgName batchSize w).1.groups.find?
          (fun x => x.AutoScalingGroupName == asgName) =
        some { g with
          MaxSize := if g.DesiredCapacity + batchSize > g.MaxSize then g.MaxSize + batchSize
            else g.MaxSize
          MinSize := g.DesiredCapacity + batchSize
          DesiredCapacity := g.DesiredCapacity + batchSize } ∧
      ((StartRollout defaultConfig succeedingWorkflows "A" 2 scenarioOneWorld).world.groups.map
          (fun x => (x.MinSize, x.DesiredCapacity, x.MaxSize)) = [(6, 6, 6)] ∧
        scenarioOneWorld.groups.map (fun x => (x.MinSize, x.DesiredCapacity, x.MaxSize)) =
          [(4, 4, 6)]) := by
  refine ⟨?_, ?_, by decide, by decide⟩
  · unfold raiseCapacity
    simp [GetMaxCount, GetDesiredCount, getAsg_of_find w asgName g hdescribe hg]
  · unfold raiseCapacity
    simp only [GetMaxCount, GetDesiredCount, getAsg_of_find w asgName g hdescribe hg,
      wrap64_of_range _ hd0 hd1, wrap64_of_range _ hm0 hm1]
    by_cases hgt : g.DesiredCapacity + batchSize > g.MaxSize
    · simp only [hgt, if_true]
      obtain ⟨_, hf1, hg1⟩ := updateGroup_of_find w Api.UpdateAutoScalingGroup asgName
        (fun x => { x with MaxSize := g.MaxSize + batchSize }) g hupdate (fun _ => rfl) hg
      obtain ⟨_, hf2, hg2⟩ := updateGroup_of_find _ Api.UpdateAutoScalingGroup asgName
        (fun x => { x with MinSize := g.DesiredCapacity + batchSize }) _
        (by rw [hf1]; exact hupdate) (fun _ => rfl) hg1
      obtain ⟨_, _, hg3⟩ := updateGroup_of_find _ Api.SetDesiredCapacity asgName
        (fun x => { x with DesiredCapacity := g.DesiredCapacity + batchSize }) _
        (by rw [hf2, hf1]; exact hdesired) (fun _ => rfl) hg2
      exact hg3
    · simp only [hgt, if_false]
      obtain ⟨_, hf2, hg2⟩ := updateGroup_of_find w Api.UpdateAutoScalingGroup asgName
        (fun x => { x with MinSize := g.DesiredCapacity + batchSize }) _
        hupdate (fun _ => rfl) hg
      obtain ⟨_, _, hg3⟩ := updateGroup_of_find _ Api.SetDesiredCapacity asgName
        (fun x => { x with DesiredCapacity := g.DesiredCapacity + batchSize }) _
        (by rw [hf2]; exact hdesired) (fun _ => rfl) hg2
      exact hg3

theorem raiseCapacity_sets_witness :
    (raiseCapacity "A" 2 scenarioOneWorld).2 = .ret none ∧
      (raiseCapacity "A" 2 scenarioOneWorld).1.groups.map
        (fun x => (x.MinSize, x.DesiredCapacity, x.MaxSize)) = [(6, 6, 6)] :=
  ⟨(raiseCapacity_sets "A" 2 scenarioOneWorld
      ⟨"A", none, some ⟨some "lt-1", some "$Latest"⟩, none,
        [instanceAt "i-1" "1", instanceAt "i-2" "1", instanceAt "i-3" "1", instanceAt "i-4" "1"],
        4, 6, 4, false⟩
      (by decide) (by decide) (by decide) (by decide) (by decide) (by decide) (by decide)
      (by decide)).1, by decide⟩

/-! ## Theorems: what each step leaves unchanged -/

theorem sameCloud_refl (w : World) : sameCloud w w := ⟨rfl, rfl, rfl, rfl, rfl⟩

theorem sameCloud_trans {a b c : World} (h1 : sameCloud a b) (h2 : sameCloud b c) :
    sameCloud a c :=
  ⟨h2.1.trans h1.1, h2.2.1.trans h1.2.1, h2.2.2.1.trans h1.2.2.1,
    h2.2.2.2.1.trans h1.2.2.2.1, h2.2.2.2.2.trans h1.2.2.2.2⟩

theorem nodesUpdate_sameCloud (w : World) (node : Node) :
    sameCloud w (nodesUpdate w node).1 := by
  unfold nodesUpdate
  split
  · exact sameCloud_refl w
  · split
    · exact sameCloud_refl w
    · split
      · exact ⟨rfl, rfl, rfl, rfl, rfl⟩
      · exact sameCloud_refl w

theorem AddLabelToNode_sameCloud (w : World) (nodeName labelKey labelVal : String)
    (ignore : Bool) : sameCloud w (AddLabelToNode w nodeName labelKey labelVal ignore).1 := by
  unfold AddLabelToNode
  simp only
  split
  · exact sameCloud_refl w
  · split
    · split
      · exact sameCloud_refl w
      · exact nodesUpdate_sameCloud _ _
    · exact nodesUpdate_sameCloud _ _

theorem CordonNode_sameCloud (w : World) (nodeName : String) (ignore : Bool) :
    sameCloud w (CordonNode w nodeName ignore).1 := by
  unfold CordonNode
  simp only
  split
  · exact sameCloud_refl w
  · exact nodesUpdate_sameCloud _ _

theorem labelInstances_sameCloud (cfg : AsgRolloutConfig) (state : String) :
    ∀ (insts : List String) (w : World), sameCloud w (labelInstances cfg state insts w).1 := by
  intro insts
  induction insts with
  | nil => intro w; exact sameCloud_refl w
  | cons i rest ih =>
    intro w
    unfold labelInstances
    split
    · exact sameCloud_refl w
    · exact sameCloud_refl w
    · split
      · exact ih w
      · have h := AddLabelToNode_sameCloud w ‹String› NodeStateLabelKey state cfg.IgnoreNotFound
        split
        · rename_i heq; rw [heq] at h; exact h
        · rename_i heq; rw [heq] at h; exact h
        · rename_i heq; rw [heq] at h; exact sameCloud_trans h (ih _)

theorem cordonNodes_sameCloud (cfg : AsgRolloutConfig) :
    ∀ (names : List String) (w : World), sameCloud w (cordonNodes cfg names w).1 := by
  intro names
  induction names with
  | nil => intro w; exact sameCloud_refl w
  | cons k rest ih =>
    intro w
    unfold cordonNodes
    split
    · exact ih w
    · have h := CordonNode_sameCloud w k cfg.IgnoreNotFound
      split
      · rename_i heq; rw [heq] at h; exact h
      · rename_i heq; rw [heq] at h; exact sameCloud_trans h (ih _)

/-! ## Theorems: the batch error path and the capacity tags of `PreRolloutStart` -/

theorem getAsg_congr (w u : World) (asgName : String) (hg : u.groups = w.groups)
    (hf : u.failing = w.failing) : getAsg u asgName = getAsg w asgName := by
  unfold getAsg DescribeAutoScalingGroups
  rw [hg, hf]

theorem GetMaxCount_ret (w : World) (asgName : String) (x : Int)
    (h : GetMaxCount w asgName = .ret (x, none)) :
    ∃ g, getAsg w asgName = .ret (some g, none) ∧ x = g.MaxSize := by
  unfold GetMaxCount at h
  split at h
  · simp at h
  · simp at h
  · simp at h
  · rename_i g hg
    simp only [Go.ret.injEq, Prod.mk.injEq, and_true] at h
    exact ⟨g, hg, h.symm⟩

theorem GetMinCount_ret (w : World) (asgName : String) (x : Int)
    (h : GetMinCount w asgName = .ret (x, none)) :
    ∃ g, getAsg w asgName = .ret (some g, none) ∧ x = g.MinSize := by
  unfold GetMinCount at h
  split at h
  · simp at h
  · simp at h
  · simp at h
  · rename_i g hg
    simp only [Go.ret.injEq, Prod.mk.injEq, and_true] at h
    exact ⟨g, hg, h.symm⟩

theorem GetDesiredCount_ret (w : World) (asgName : String) (x : Int)
    (h : GetDesiredCount w asgName = .ret (x, none)) :
    ∃ g, getAsg w asgName = .ret (some g, none) ∧ x = g.DesiredCapacity := by
  unfold GetDesiredCount at h
  split at h
  · simp at h
  · simp at h
  · simp at h
  · rename_i g hg
    simp only [Go.ret.injEq, Prod.mk.injEq, and_true] at h
    exact ⟨g, hg, h.symm⟩

theorem GetInstancesOfAsg_ret (w : World) (asgName : String) (inst : List String)
    (h : GetInstancesOfAsg w asgName = .ret (inst, none)) :
    ∃ g, getAsg w asgName = .ret (some g, none) ∧
      inst = g.Instances.map (fun i => i.InstanceId) := by
  unfold GetInstancesOfAsg at h
  split at h
  · simp at h
  · simp at h
  · simp at h
  · rename_i g hg
    simp only [Go.ret.injEq, Prod.mk.injEq, and_true] at h
    exact ⟨g, hg, h.symm⟩

theorem AddTagToAsG_none (w w1 : World) (asgName tagKey tagValue : String)
    (h : AddTagToAsG w asgName tagKey tagValue = (w1, none)) :
    Api.CreateOrUpdateTags ∉ w.failing ∧
      w1 = { w with tags := putTag asgName tagKey tagValue w.tags } := by
  unfold AddTagToAsG at h
  split at h
  · simp at h
  · rename_i hc
    simp only [Prod.mk.injEq, and_true] at h
    exact ⟨by simpa using hc, h.symm⟩

theorem storeCapacityTags_none (w w1 : World) (asgName : String) (g : Group)
    (h : storeCapacityTags w asgName g.MinSize g.MaxSize g.DesiredCapacity = (w1, none)) :
    Api.CreateOrUpdateTags ∉ w.failing ∧
      w1 = { w with tags := withCapacityTags asgName g w.tags } := by
  unfold storeCapacityTags at h
  split at h
  · simp at h
  · rename_i wa ha
    obtain ⟨hcall, rfl⟩ := AddTagToAsG_none _ _ _ _ _ ha
    split at h
    · simp at h
    · rename_i wb hb
      obtain ⟨_, rfl⟩ := AddTagToAsG_none _ _ _ _ _ hb
      obtain ⟨_, rfl⟩ := AddTagToAsG_none _ _ _ _ _ h
      exact ⟨hcall, rfl⟩

theorem updateGroup_tags (w : World) (api : Api) (asgName : String) (f : Group → Group) :
    (updateGroup w api asgName f).1.tags = w.tags ∧
      (updateGroup w api asgName f).1.nodes = w.nodes ∧
      (updateGroup w api asgName f).1.reservations = w.reservations ∧
      (updateGroup w api asgName f).1.launch = w.launch ∧
      (updateGroup w api asgName f).1.failing = w.failing := by
  unfold updateGroup
  split
  · exact ⟨rfl, rfl, rfl, rfl, rfl⟩
  · split <;> exact ⟨rfl, rfl, rfl, rfl, rfl⟩

/-- What a successful run of the second part of `PreRolloutStart` went through. -/
theorem preRolloutCapacity_ret (cfg : AsgRolloutConfig) (asgName : String) (w w' : World)
    (h : preRolloutCapacity cfg asgName w = (w', .ret none)) :
    ∃ (g : Group) (w1 w2 : World) (names : List String),
      getAsg w asgName = .ret (some g, none) ∧
      (if (GetTagValueOfAsg w asgName "dockyard.io/desired").1 == 0 then
          storeCapacityTags w asgName g.MinSize g.MaxSize g.DesiredCapacity
        else (w, none)) = (w1, none) ∧
      collectNodeNames w1 (g.Instances.map (fun i => i.InstanceId)) [] = .ret names ∧
      cordonNodes cfg names w1 = (w2, none) ∧
      EnableNewInstanceProtection w2 asgName = (w', none) := by
  unfold preRolloutCapacity at h
  split at h
  · simp at h
  · simp at h
  · rename_i asgMax hmax
    obtain ⟨g, hg, rfl⟩ := GetMaxCount_ret _ _ _ hmax
    split at h
    · simp at h
    · simp at h
    · rename_i asgMin hmin
      obtain ⟨g2, hg2, rfl⟩ := GetMinCount_ret _ _ _ hmin
      split at h
      · simp at h
      · simp at h
      · rename_i asgDesired hdes
        obtain ⟨g3, hg3, rfl⟩ := GetDesiredCount_ret _ _ _ hdes
        have e2 : g = g2 := by rw [hg] at hg2; simpa using hg2
        have e3 : g = g3 := by rw [hg] at hg3; simpa using hg3
        subst e2 e3
        split at h
        · simp at h
        · rename_i w1 htags
          split at h
          · simp at h
          · simp at h
          · rename_i inst hinst
            obtain ⟨g4, hg4, rfl⟩ := GetInstancesOfAsg_ret _ _ _ hinst
            split at h
            · simp at h
            · rename_i names hnames
              split at h
              · simp at h
              · rename_i w2 hcordon
                split at h
                · simp at h
                · rename_i w3 hprot
                  simp only [Prod.mk.injEq, and_true] at h
                  subst h
                  have hw1 : w1.groups = w.groups ∧ w1.failing = w.failing := by
                    split at htags
                    · obtain ⟨_, rfl⟩ := storeCapacityTags_none _ _ _ _ htags
                      exact ⟨rfl, rfl⟩
                    · simp only [Prod.mk.injEq, and_true] at htags
                      subst htags
                      exact ⟨rfl, rfl⟩
                  have e4 : g = g4 := by
                    rw [getAsg_congr w w1 asgName hw1.1 hw1.2, hg] at hg4
                    simpa using hg4
                  subst e4
                  exact ⟨g, w1, w2, names, hg, htags, hnames, hcordon, hprot⟩

/-- What a successful run of `PreRolloutStart` went through. -/
theorem PreRolloutStart_ret (cfg : AsgRolloutConfig) (asgName : String) (w w' : World)
    (h : PreRolloutStart cfg asgName w = (w', .ret none)) :
    ∃ (old new : List String) (w1 w2 : World),
      GetOldnNewInstancesOfAsg w asgName = .ret (old, new, none) ∧
      labelInstances cfg "new" new w = (w1, .ret none) ∧
      labelInstances cfg "old" old w1 = (w2, .ret none) ∧
      preRolloutCapacity cfg asgName w2 = (w', .ret none) := by
  unfold PreRolloutStart at h
  split at h
  · simp at h
  · simp at h
  · rename_i old new hcl
    split at h
    · simp at h
    · simp at h
    · rename_i w1 h1
      split at h
      · simp at h
      · simp at h
      · rename_i w2 h2
        exact ⟨old, new, w1, w2, hcl, h1, h2, h⟩

theorem GetTagValueOfAsg_congr (w u : World) (asgName tagKey : String)
    (ht : u.tags = w.tags) (hf : u.failing = w.failing) :
    GetTagValueOfAsg u asgName tagKey = GetTagValueOfAsg w asgName tagKey := by
  unfold GetTagValueOfAsg DescribeTags
  rw [ht, hf]

theorem tagValueLoop_absent (tagKey : String) :
    ∀ tags : List TagDescription, (∀ t ∈ tags, t.Key ≠ tagKey) →
      tagValueLoop tagKey tags = none := by
  intro tags
  induction tags with
  | nil => intro _; rfl
  | cons t rest ih =>
    intro h
    unfold tagValueLoop
    have ht : (t.Key == tagKey) = false := by simpa using h t (List.mem_cons_self _ _)
    rw [ht]
    exact ih (fun x hx => h x (List.mem_cons_of_mem _ hx))

theorem tagValueLoop_first (tagKey : String) :
    ∀ (tags : List TagDescription) (t : TagDescription),
      tags.find? (fun x => x.Key == tagKey) = some t →
      tagValueLoop tagKey tags = some (Atoi t.Value).1 := by
  intro tags
  induction tags with
  | nil => intro t h; simp at h
  | cons x rest ih =>
    intro t h
    unfold tagValueLoop
    by_cases hx : (x.Key == tagKey) = true
    · simp only [List.find?_cons, hx, Option.some.injEq] at h
      subst h
      simp [hx]
    · simp only [List.find?_cons, hx] at h
      simp only [hx, Bool.false_eq_true, if_false]
      exact ih t h

/-- C8 (the code departs from the claim). When a workflow of a batch reports an error,
`StartRollout` starts no later batch, and it does not return the error that joins the
messages: the log line before the return calls `Error` on the nil error of `NodesToDrain`
and the run ends in a nil-pointer panic.  Shown on scenario 6 with batch size 2 and
workflows that time out; in general the batch loop never returns a non-nil error. -/
theorem StartRollout_batch_error_panics :
    (StartRollout defaultConfig failingWorkflows "A" 2 scenarioSixWorld).result =
        .panic nilDeref ∧
      (StartRollout defaultConfig failingWorkflows "A" 2 scenarioSixWorld).batches =
        [["node-1", "node-2"]] ∧
      (failingWorkflows scenarioSixWorld "A" ["node-1", "node-2"] false).received =
        [some "unable to get new node, Timeout Exceeded",
          some "unable to get new node, Timeout Exceeded"] ∧
      ∀ (cfg : AsgRolloutConfig) (run : Workflows) (asgName : String) (batchSize steps : Int)
        (remaining : Nat) (i : Int) (lastBatch : Bool) (w : World)
        (batches : List (List String)) (e : String),
        (batchLoop cfg run asgName batchSize steps remaining i lastBatch w batches).result ≠
          .ret (some e) := by
  refine ⟨by decide, by decide, by decide, ?_⟩
  intro cfg run asgName batchSize steps remaining
  induction remaining with
  | zero => intro i lastBatch w batches e; simp [batchLoop]
  | succ remaining ih =>
    intro i lastBatch w batches e
    unfold batchLoop
    simp only
    split
    · rename_i e' hdrain
      exfalso
      unfold NodesToDrain at hdrain
      split at hdrain
      · simp at hdrain
      · split at hdrain <;> simp at hdrain
    · split
      · simp
      · split
        · simp
        · generalize (if (i == steps - 1) = true then true else lastBatch) = flag
          split
          · simp
          · exact ih _ _ _ _ e

/-- C9 (counterexample). The group of `zeroTagWorld` carries the tag `dockyard.io/desired`,
with the value 0, and `PreRolloutStart` nevertheless writes the three capacity tags: the
values 0, 3, 0 become 4, 6, 4. -/
theorem PreRolloutStart_rewrites_zero_tag :
    (∃ t ∈ zeroTagWorld.tags, t.ResourceId = "A" ∧ t.Key = "dockyard.io/desired") ∧
      (PreRolloutStart defaultConfig "A" zeroTagWorld).2 = .ret none ∧
      zeroTagWorld.tags = [⟨"A", "dockyard.io/min", "0"⟩, ⟨"A", "dockyard.io/max", "3"⟩,
        ⟨"A", "dockyard.io/desired", "0"⟩] ∧
      (PreRolloutStart defaultConfig "A" zeroTagWorld).1.tags =
        [⟨"A", "dockyard.io/min", "4"⟩, ⟨"A", "dockyard.io/max", "6"⟩,
          ⟨"A", "dockyard.io/desired", "4"⟩] := by
  refine ⟨⟨⟨"A", "dockyard.io/desired", "0"⟩, by decide, rfl, rfl⟩, by decide, by decide, by decide⟩

/-- C9 (amended). On a run of `PreRolloutStart` that returns the nil error, the tags it
leaves are the tags it found with the three capacity tags written over them (holding the
current min, max and desired of the group) exactly when `GetTagValueOfAsg` reads 0 for
`dockyard.io/desired`, and are the tags it found otherwise.  The read is 0 when the group
has no such tag; it is the integer value of the tag when the tag exists and the tags can
be described, so a tag whose value reads as a non-zero integer is never overwritten. -/
theorem PreRolloutStart_capacity_tags (cfg : AsgRolloutConfig) (asgName : String)
    (w w' : World) (hrun : PreRolloutStart cfg asgName w = (w', .ret none)) :
    (∃ g, getAsg w asgName = .ret (some g, none) ∧
      w'.tags =
        if (GetTagValueOfAsg w asgName "dockyard.io/desired").1 = 0 then
          withCapacityTags asgName g w.tags
        else w.tags) ∧
    ((∀ t ∈ w.tags, t.ResourceId = asgName → t.Key ≠ "dockyard.io/desired") →
      (GetTagValueOfAsg w asgName "dockyard.io/desired").1 = 0) ∧
    (∀ t, (w.tags.filter (fun x => x.ResourceId == asgName)).find?
        (fun x => x.Key == "dockyard.io/desired") = some t →
      Api.DescribeTags ∉ w.failing →
      (GetTagValueOfAsg w asgName "dockyard.io/desired").1 = (Atoi t.Value).1) := by
  refine ⟨?_, ?_, ?_⟩
  · obtain ⟨old, new, w1, w2, _, h1, h2, hcap⟩ := PreRolloutStart_ret _ _ _ _ hrun
    have s1 := labelInstances_sameCloud cfg "new" new w
    rw [h1] at s1
    have s2 := labelInstances_sameCloud cfg "old" old w1
    rw [h2] at s2
    have s := sameCloud_trans s1 s2
    obtain ⟨g, w3, w4, names, hg, htags, _, hcordon, hprot⟩ :=
      preRolloutCapacity_ret _ _ _ _ hcap
    refine ⟨g, ?_, ?_⟩
    · rw [← getAsg_congr w w2 asgName s.1 s.2.2.2.2]
      exact hg
    · have s4 := cordonNodes_sameCloud cfg names w3
      rw [hcordon] at s4
      have s5 := updateGroup_tags w4 Api.UpdateAutoScalingGroup asgName protectNew
      unfold EnableNewInstanceProtection at hprot
      rw [hprot] at s5
      rw [s5.1, s4.2.1]
      rw [GetTagValueOfAsg_congr w w2 asgName _ s.2.1 s.2.2.2.2] at htags
      by_cases hz : (GetTagValueOfAsg w asgName "dockyard.io/desired").1 = 0
      · rw [if_pos hz]
        have hz2 : ((GetTagValueOfAsg w asgName "dockyard.io/desired").1 == 0) = true := by
          simpa using hz
        rw [hz2] at htags
        simp only [if_true] at htags
        obtain ⟨_, rfl⟩ := storeCapacityTags_none _ _ _ _ htags
        simp only
        rw [s.2.1]
      · rw [if_neg hz]
        have hz2 : ((GetTagValueOfAsg w asgName "dockyard.io/desired").1 == 0) = false := by
          simpa using hz
        rw [hz2] at htags
        simp only [Bool.false_eq_true, if_false, Prod.mk.injEq, and_true] at htags
        rw [← htags, s.2.1]
  · intro habsent
    unfold GetTagValueOfAsg DescribeTags
    split
    · rfl
    · rename_i tags htags
      split at htags
      · simp at htags
      · simp only [Except.ok.injEq] at htags
        rw [tagValueLoop_absent "dockyard.io/desired" tags (by
          intro t ht
          rw [← htags] at ht
          have := List.mem_filter.mp ht
          exact habsent t this.1 (by simpa using this.2))]
  · intro t hfind hcall
    have hc : w.failing.contains Api.DescribeTags = false := by simpa using hcall
    unfold GetTagValueOfAsg DescribeTags
    rw [hc]
    simp only [Bool.false_eq_true, if_false]
    rw [tagValueLoop_first _ _ _ hfind]

theorem PreRolloutStart_capacity_tags_witness :
    PreRolloutStart defaultConfig "A" scenarioOneWorld =
        ((PreRolloutStart defaultConfig "A" scenarioOneWorld).1, .ret none) ∧
      (PreRolloutStart defaultConfig "A" scenarioOneWorld).1.tags =
        [⟨"A", "dockyard.io/min", "4"⟩, ⟨"A", "dockyard.io/max", "6"⟩,
          ⟨"A", "dockyard.io/desired", "4"⟩] ∧
      ∃ g, getAsg scenarioOneWorld "A" = .ret (some g, none) ∧
        (PreRolloutStart defaultConfig "A" scenarioOneWorld).1.tags =
          if (GetTagValueOfAsg scenarioOneWorld "A" "dockyard.io/desired").1 = 0 then
            withCapacityTags "A" g scenarioOneWorld.tags
          else scenarioOneWorld.tags :=
  ⟨Prod.ext rfl (by decide), by decide,
    (PreRolloutStart_capacity_tags defaultConfig "A" scenarioOneWorld
      (PreRolloutStart defaultConfig "A" scenarioOneWorld).1
      (Prod.ext rfl (by decide))).1⟩

/-! ## Theorems: algebra of the writes -/

theorem modifyFirst_modifyFirst {α : Type} (p : α → Bool) (f g : α → α)
    (hg : ∀ x, p (g x) = p x) :
    ∀ l : List α, modifyFirst p f (modifyFirst p g l) = modifyFirst p (fun x => f (g x)) l := by
  intro l
  induction l with
  | nil => rfl
  | cons x rest ih =>
    by_cases hx : p x = true
    · simp [modifyFirst, hx, hg]
    · simp [modifyFirst, hx, ih]

theorem modifyFirst_comm {α : Type} (p q : α → Bool) (f g : α → α)
    (hf : ∀ x, q (f x) = q x) (hg : ∀ x, p (g x) = p x)
    (hpq : ∀ x, p x = true → q x = false) :
    ∀ l : List α,
      modifyFirst p f (modifyFirst q g l) = modifyFirst q g (modifyFirst p f l) := by
  intro l
  induction l with
  | nil => rfl
  | cons x rest ih =>
    by_cases hx : p x = true
    · have hq := hpq x hx
      simp [modifyFirst, hx, hq, hf]
    · by_cases hq : q x = true
      · simp [modifyFirst, hx, hq, hg]
      · simp [modifyFirst, hx, hq, ih]

theorem modifyFirst_congr_found {α : Type} (p : α → Bool) (f g : α → α) :
    ∀ (l : List α) (x : α), l.find? p = some x → f x = g x →
      modifyFirst p f l = modifyFirst p g l := by
  intro l
  induction l with
  | nil => intro x h; simp at h
  | cons y rest ih =>
    intro x h hfg
    by_cases hy : p y = true
    · simp only [List.find?_cons, hy, Option.some.injEq] at h
      subst h
      simp [modifyFirst, hy, hfg]
    · simp only [List.find?_cons, hy] at h
      simp only [modifyFirst, hy, Bool.false_eq_true, if_false]
      rw [ih x h hfg]

theorem modifyFirst_id_found {α : Type} (p : α → Bool) (f : α → α) :
    ∀ (l : List α) (x : α), l.find? p = some x → f x = x → modifyFirst p f l = l := by
  intro l
  induction l with
  | nil => intro x h; simp at h
  | cons y rest ih =>
    intro x h hfx
    by_cases hy : p y = true
    · simp only [List.find?_cons, hy, Option.some.injEq] at h
      subst h
      simp [modifyFirst, hy, hfx]
    · simp only [List.find?_cons, hy] at h
      simp only [modifyFirst, hy, Bool.false_eq_true, if_false]
      rw [ih x h hfx]

theorem upsertFirst_upsertFirst {α : Type} (p : α → Bool) (x y : α) (hy : p y = true) :
    ∀ l : List α, upsertFirst p x (upsertFirst p y l) = upsertFirst p x l := by
  intro l
  induction l with
  | nil => simp [upsertFirst, hy]
  | cons z rest ih =>
    by_cases hz : p z = true
    · simp [upsertFirst, hz, hy]
    · simp [upsertFirst, hz, ih]

theorem upsertFirst_found {α : Type} (p : α → Bool) (x : α) :
    ∀ l : List α, l.find? p = some x → upsertFirst p x l = l := by
  intro l
  induction l with
  | nil => intro h; simp at h
  | cons z rest ih =>
    intro h
    by_cases hz : p z = true
    · simp only [List.find?_cons, hz, Option.some.injEq] at h
      subst h
      simp [upsertFirst, hz]
    · simp only [List.find?_cons, hz] at h
      simp only [upsertFirst, hz, Bool.false_eq_true, if_false]
      rw [ih h]

theorem find_upsertFirst_self {α : Type} (p : α → Bool) (x : α) (hx : p x = true) :
    ∀ l : List α, (upsertFirst p x l).find? p = some x := by
  intro l
  induction l with
  | nil => simp [upsertFirst, hx]
  | cons z rest ih =>
    by_cases hz : p z = true
    · simp [upsertFirst, hz, hx]
    · simp [upsertFirst, hz, ih]

theorem find_upsertFirst_other {α : Type} (p q : α → Bool) (y : α) (hy : p y = false)
    (hqp : ∀ z, q z = true → p z = false) :
    ∀ l : List α, (upsertFirst q y l).find? p = l.find? p := by
  intro l
  induction l with
  | nil => simp [upsertFirst, hy]
  | cons z rest ih =>
    by_cases hz : q z = true
    · have := hqp z hz
      simp [upsertFirst, hz, hy, this]
    · by_cases hpz : p z = true
      · simp [upsertFirst, hz, hpz]
      · simp [upsertFirst, hz, hpz, ih]

/-- A sequence of idempotent state transformers in which any two either absorb (the
later one wins) or commute is idempotent as a whole. -/
theorem foldl_absorb {σ : Type} :
    ∀ (ops : List (σ → σ)),
      (∀ a ∈ ops, ∀ s, a (a s) = a s) →
      (∀ a ∈ ops, ∀ b ∈ ops, (∀ s, a (b s) = a s) ∨ (∀ s, a (b s) = b (a s))) →
      ∀ s, ops.foldl (fun t f => f t) (ops.foldl (fun t f => f t) s) =
        ops.foldl (fun t f => f t) s := by
  -- a transformer applied before a sequence and again after it is absorbed
  have absorb : ∀ (xs : List (σ → σ)) (o : σ → σ),
      (∀ a ∈ xs, (∀ s, a (o s) = a s) ∨ (∀ s, a (o s) = o (a s))) →
      (∀ s, o (o s) = o s) →
      ∀ s, o (xs.foldl (fun t f => f t) (o s)) = o (xs.foldl (fun t f => f t) s) := by
    intro xs
    induction xs with
    | nil => intro o _ ho s; exact ho s
    | cons x rest ih =>
      intro o h ho s
      simp only [List.foldl_cons]
      have hrest := fun a ha => h a (List.mem_cons_of_mem _ ha)
      rcases h x (List.mem_cons_self _ _) with hx | hx
      · rw [hx]
      · rw [hx]
        exact ih o hrest ho (x s)
  intro ops
  induction ops using List.reverseRecOn with
  | nil => intro _ _ s; rfl
  | append_singleton xs o ih =>
    intro hidem h s
    simp only [List.foldl_append, List.foldl_cons, List.foldl_nil]
    have hxs : ∀ a ∈ xs, ∀ b ∈ xs, (∀ s, a (b s) = a s) ∨ (∀ s, a (b s) = b (a s)) :=
      fun a ha b hb => h a (List.mem_append_left _ ha) b (List.mem_append_left _ hb)
    rw [absorb xs o (fun a ha => h a (List.mem_append_left _ ha) o (by simp))
      (hidem o (by simp)), ih (fun a ha => hidem a (List.mem_append_left _ ha)) hxs]

/-! ## Theorems: writes on nodes -/

theorem NodeOp.run_name (o : NodeOp) (n : Node) : (o.run n).Name = n.Name := by
  cases o <;> rfl

theorem NodeOp.run_labels (o : NodeOp) (n : Node) :
    n.Labels.isSome → (o.run n).Labels.isSome := by
  cases o with
  | label v => intro _; rfl
  | cordon => intro h; exact h

theorem NodeOp.run_pair (a b : NodeOp) :
    (∀ n, a.run (b.run n) = a.run n) ∨ (∀ n, a.run (b.run n) = b.run (a.run n)) := by
  cases a with
  | label v =>
    cases b with
    | label v' =>
      left
      intro n
      simp only [NodeOp.run, Option.getD_some]
      rw [upsertFirst_upsertFirst _ _ _ (by simp)]
    | cordon => right; intro n; rfl
  | cordon =>
    cases b with
    | label v' => right; intro n; rfl
    | cordon => left; intro n; rfl

theorem NodeOp.run_idem (a : NodeOp) (n : Node) : a.run (a.run n) = a.run n := by
  cases a with
  | label v =>
    simp only [NodeOp.run, Option.getD_some]
    rw [upsertFirst_upsertFirst _ _ _ (by simp)]
  | cordon => rfl

theorem applyOp_idem (a : String × NodeOp) (s : List Node) :
    applyOp a (applyOp a s) = applyOp a s := by
  unfold applyOp
  rw [modifyFirst_modifyFirst _ _ _ (fun x => by rw [NodeOp.run_name])]
  congr 1
  funext x
  exact NodeOp.run_idem _ _

theorem applyOp_pair (a b : String × NodeOp) :
    (∀ s, applyOp a (applyOp b s) = applyOp a s) ∨
      (∀ s, applyOp a (applyOp b s) = applyOp b (applyOp a s)) := by
  by_cases hname : a.1 = b.1
  · rcases NodeOp.run_pair a.2 b.2 with h | h
    · left
      intro s
      unfold applyOp
      rw [← hname, modifyFirst_modifyFirst _ _ _ (fun x => by rw [NodeOp.run_name])]
      congr 1
      funext x
      exact h x
    · right
      intro s
      unfold applyOp
      rw [← hname, modifyFirst_modifyFirst _ _ _ (fun x => by rw [NodeOp.run_name]),
        modifyFirst_modifyFirst _ _ _ (fun x => by rw [NodeOp.run_name])]
      congr 1
      funext x
      exact h x
  · right
    intro s
    unfold applyOp
    exact modifyFirst_comm _ _ _ _ (fun x => by rw [NodeOp.run_name])
      (fun x => by rw [NodeOp.run_name]) (fun x hx => by
        have h1 : x.Name = a.1 := by simpa using hx
        have : ¬ x.Name = b.1 := fun h2 => hname (h1.symm.trans h2)
        simpa using this) s

theorem runOps_eq_foldl (ops : List (String × NodeOp)) (s : List Node) :
    runOps ops s = (ops.map applyOp).foldl (fun t f => f t) s := by
  unfold runOps
  rw [List.foldl_map]

/-- Running a sequence of node writes a second time changes nothing. -/
theorem runOps_idem (ops : List (String × NodeOp)) (s : List Node) :
    runOps ops (runOps ops s) = runOps ops s := by
  rw [runOps_eq_foldl, runOps_eq_foldl]
  apply foldl_absorb
  · intro a ha
    obtain ⟨x, _, rfl⟩ := List.mem_map.mp ha
    exact applyOp_idem x
  · intro a ha b hb
    obtain ⟨x, _, rfl⟩ := List.mem_map.mp ha
    obtain ⟨y, _, rfl⟩ := List.mem_map.mp hb
    exact applyOp_pair x y

theorem runOps_append (xs ys : List (String × NodeOp)) (s : List Node) :
    runOps (xs ++ ys) s = runOps ys (runOps xs s) := by
  unfold runOps
  rw [List.foldl_append]

theorem runOps_cons (x : String × NodeOp) (xs : List (String × NodeOp)) (s : List Node) :
    runOps (x :: xs) s = runOps xs (applyOp x s) := rfl

theorem nodesLike_refl : ∀ a : List Node, nodesLike a a := by
  intro a
  induction a with
  | nil => exact List.Forall₂.nil
  | cons x rest ih => exact List.Forall₂.cons ⟨rfl, id⟩ ih

theorem nodesLike_trans : ∀ {a b c : List Node}, nodesLike a b → nodesLike b c →
    nodesLike a c := by
  intro a b c h1
  induction h1 generalizing c with
  | nil => intro h2; cases h2; exact List.Forall₂.nil
  | cons hxy _ ih =>
    intro h2
    cases h2 with
    | cons hyz hrest =>
      exact List.Forall₂.cons ⟨hxy.1.trans hyz.1, fun h => hyz.2 (hxy.2 h)⟩ (ih hrest)

theorem nodesLike_applyOp (o : String × NodeOp) : ∀ {a b : List Node}, nodesLike a b →
    nodesLike (applyOp o a) (applyOp o b) := by
  intro a b h
  induction h with
  | nil => exact List.Forall₂.nil
  | @cons x y l1 l2 hxy hrest ih =>
    unfold applyOp at ih ⊢
    by_cases hx : (x.Name == o.1) = true
    · have hy : (y.Name == o.1) = true := by rw [← hxy.1]; exact hx
      simp only [modifyFirst, hx, hy, if_true]
      refine List.Forall₂.cons ⟨?_, ?_⟩ hrest
      · rw [NodeOp.run_name, NodeOp.run_name]; exact hxy.1
      · cases o.2 with
        | label v => intro _; rfl
        | cordon => exact hxy.2
    · have hy : ¬ (y.Name == o.1) = true := by rw [← hxy.1]; exact hx
      simp only [modifyFirst, hx, hy, Bool.false_eq_true, if_false]
      exact List.Forall₂.cons hxy ih

theorem nodesLike_applyOp_self (o : String × NodeOp) : ∀ a : List Node,
    nodesLike a (applyOp o a) := by
  intro a
  induction a with
  | nil => exact List.Forall₂.nil
  | cons x rest ih =>
    unfold applyOp at ih ⊢
    by_cases hx : (x.Name == o.1) = true
    · simp only [modifyFirst, hx, if_true]
      exact List.Forall₂.cons ⟨(NodeOp.run_name _ _).symm, NodeOp.run_labels _ _⟩
        (nodesLike_refl rest)
    · simp only [modifyFirst, hx, Bool.false_eq_true, if_false]
      exact List.Forall₂.cons ⟨rfl, id⟩ ih

theorem nodesLike_runOps (ops : List (String × NodeOp)) : ∀ {a b : List Node},
    nodesLike a b → nodesLike (runOps ops a) (runOps ops b) := by
  induction ops with
  | nil => intro a b h; exact h
  | cons o rest ih => intro a b h; exact ih (nodesLike_applyOp o h)

theorem nodesLike_runOps_self (ops : List (String × NodeOp)) : ∀ a : List Node,
    nodesLike a (runOps ops a) := by
  induction ops with
  | nil => intro a; exact nodesLike_refl a
  | cons o rest ih =>
    intro a
    exact nodesLike_trans (nodesLike_applyOp_self o a) (ih _)

theorem nodesLike_find (name : String) : ∀ {a b : List Node}, nodesLike a b →
    ∀ n, a.find? (fun x => x.Name == name) = some n →
      ∃ n', b.find? (fun x => x.Name == name) = some n' ∧
        (n.Labels.isSome → n'.Labels.isSome) := by
  intro a b h
  induction h with
  | nil => intro n hn; simp at hn
  | @cons x y l1 l2 hxy _ ih =>
    intro n hn
    by_cases hx : (x.Name == name) = true
    · have hy : (y.Name == name) = true := by rw [← hxy.1]; exact hx
      simp only [List.find?_cons, hx, Option.some.injEq] at hn
      subst hn
      exact ⟨y, by simp only [List.find?_cons, hy], hxy.2⟩
    · have hy : ¬ (y.Name == name) = true := by rw [← hxy.1]; exact hx
      simp only [List.find?_cons, hx] at hn
      obtain ⟨n', h1, h2⟩ := ih n hn
      exact ⟨n', by simp only [List.find?_cons, hy]; exact h1, h2⟩

/-! ## Theorems: when the label and cordon calls succeed, and what they write -/

theorem lookup_find (k v : String) : ∀ m : List (String × String), m.lookup k = some v →
    m.find? (fun kv => kv.1 == k) = some (k, v) := by
  intro m
  induction m with
  | nil => intro h; simp at h
  | cons x rest ih =>
    intro h
    obtain ⟨a, b⟩ := x
    by_cases hk : k = a
    · subst hk
      simp only [List.lookup_cons, beq_self_eq_true, Option.some.injEq] at h
      subst h
      simp
    · have h1 : (k == a) = false := by simpa using hk
      have h2 : (a == k) = false := by simpa using fun h => hk h.symm
      simp only [List.lookup_cons, h1] at h
      simp only [List.find?_cons, h2]
      exact ih h

theorem label_run_same (v : String) (hv : v ≠ "") (n : Node)
    (h : mapLookup n.Labels NodeStateLabelKey = v) (hsome : n.Labels.isSome) :
    (NodeOp.label v).run n = n := by
  obtain ⟨name, labels, u, c⟩ := n
  cases labels with
  | none => simp at hsome
  | some m =>
    simp only [mapLookup] at h
    have hl : m.lookup NodeStateLabelKey = some v := by
      cases hm : m.lookup NodeStateLabelKey with
      | none => rw [hm] at h; simp at h; exact absurd h.symm hv
      | some x => rw [hm] at h; simp at h; rw [h]
    simp only [NodeOp.run, Option.getD_some]
    rw [upsertFirst_found _ _ _ (lookup_find _ _ _ hl)]

theorem find_name {name : String} : ∀ {l : List Node} {n : Node},
    l.find? (fun x => x.Name == name) = some n → n.Name = name := by
  intro l n h
  have := List.find?_some h
  simpa using this

/-- The label call on a node that exists and has a label map writes the label. -/
theorem AddLabelToNode_of (w : World) (name v : String) (ignore : Bool) (hv : v ≠ "")
    (hget : Api.NodesGet ∉ w.failing) (hupd : Api.NodesUpdate ∉ w.failing)
    (hname : name ≠ "") (n : Node)
    (hfind : w.nodes.find? (fun x => x.Name == name) = some n)
    (hlab : n.Labels.isSome) :
    AddLabelToNode w name NodeStateLabelKey v ignore =
      ({ w with nodes := applyOp (name, NodeOp.label v) w.nodes }, .ret none) := by
  have hg : w.failing.contains Api.NodesGet = false := by simpa using hget
  have hu : w.failing.contains Api.NodesUpdate = false := by simpa using hupd
  have hn := find_name hfind
  have hne : (n.Name == "") = false := by rw [hn]; simpa using hname
  have hany : w.nodes.any (fun x => x.Name == n.Name) = true := by
    rw [hn]; exact any_of_find _ _ _ hfind
  have hfilter : ∀ b, filterError none b = none := by
    intro b; cases b <;> rfl
  have hnm : (name == "") = false := by simpa using hname
  unfold AddLabelToNode nodesGet
  simp only [hg, hnm, Bool.false_eq_true, if_false, hfind, hfilter, Option.isSome_none]
  by_cases hsame : mapLookup n.Labels NodeStateLabelKey = v
  · have hb : (mapLookup n.Labels NodeStateLabelKey != v) = false := by simpa using hsame
    simp only [hb, Bool.false_eq_true, if_false]
    unfold nodesUpdate
    simp only [hu, Bool.false_eq_true, if_false, hne, hany, if_true, hfilter]
    have e1 : modifyFirst (fun x => x.Name == n.Name) (fun _ => n) w.nodes = w.nodes := by
      rw [hn]; exact modifyFirst_id_found _ _ _ _ hfind rfl
    have e2 : applyOp (name, NodeOp.label v) w.nodes = w.nodes :=
      modifyFirst_id_found _ _ _ _ hfind (label_run_same v hv n hsame hlab)
    rw [e1, e2]
  · have hb : (mapLookup n.Labels NodeStateLabelKey != v) = true := by simpa using hsame
    simp only [hb, if_true]
    cases hm : n.Labels with
    | none => rw [hm] at hlab; simp at hlab
    | some m =>
      simp only
      unfold nodesUpdate
      simp only [hu, Bool.false_eq_true, if_false, hne, hany, if_true, hfilter]
      have e : modifyFirst (fun x => x.Name == n.Name)
          (fun _ => { n with Labels := some (upsertFirst (fun kv => kv.1 == NodeStateLabelKey)
            (NodeStateLabelKey, v) m) }) w.nodes =
          applyOp (name, NodeOp.label v) w.nodes := by
        unfold applyOp
        simp only [hn]
        refine (modifyFirst_congr_found _ _ _ _ _ hfind ?_).symm
        simp only [NodeOp.run, hm, Option.getD_some]
        rw [hn]
      rw [e]

/-- The label call returns the nil error only on a node that exists and has a label map,
with both cluster calls succeeding. -/
theorem AddLabelToNode_ret (w w' : World) (name v : String) (ignore : Bool) (hv : v ≠ "")
    (h : AddLabelToNode w name NodeStateLabelKey v ignore = (w', .ret none)) :
    Api.NodesGet ∉ w.failing ∧ Api.NodesUpdate ∉ w.failing ∧ name ≠ "" ∧
      ∃ n, w.nodes.find? (fun x => x.Name == name) = some n ∧ n.Labels.isSome := by
  have hfilter : ∀ b, filterError none b = none := by
    intro b; cases b <;> rfl
  have hother : ∀ (m : String) (b : Bool), filterError (some ⟨m, false⟩) b = some ⟨m, false⟩ := by
    intro m b; cases b <;> rfl
  unfold AddLabelToNode at h
  by_cases hg : w.failing.contains Api.NodesGet = true
  · have e : nodesGet w name = (zeroNode, some ⟨"nodes get failed", false⟩) := by
      unfold nodesGet; rw [if_pos hg]
    rw [e] at h
    simp only [hother, Option.isSome_some, if_true, Prod.mk.injEq, Go.ret.injEq] at h
    exact absurd h.2 (by simp)
  · by_cases hempty : (name == "") = true
    · have e : nodesGet w name = (zeroNode, some ⟨"resource name may not be empty", false⟩) := by
        unfold nodesGet; rw [if_neg hg, if_pos hempty]
      rw [e] at h
      simp only [hother, Option.isSome_some, if_true, Prod.mk.injEq, Go.ret.injEq] at h
      exact absurd h.2 (by simp)
    have e : nodesGet w name =
        match w.nodes.find? (fun n => n.Name == name) with
        | some n => (n, none)
        | none => (zeroNode, some ⟨"nodes " ++ name ++ " not found", true⟩) := by
      unfold nodesGet; rw [if_neg hg, if_neg hempty]
    rw [e] at h
    cases hfind : w.nodes.find? (fun x => x.Name == name) with
    | none =>
      rw [hfind] at h
      simp only at h
      cases ignore with
      | false => simp [filterError] at h
      | true =>
        have hz : ¬ (mapLookup none NodeStateLabelKey = v) := by
          simp only [mapLookup]
          exact fun e => hv e.symm
        simp [filterError, hz, zeroNode] at h
    | some n =>
      rw [hfind] at h
      simp only [hfilter, Option.isSome_none, Bool.false_eq_true, if_false] at h
      have hn := find_name hfind
      -- the update must have gone through
      have hupdate : ∀ node : Node, (nodesUpdate w node).2 = none → node.Name = n.Name →
          Api.NodesUpdate ∉ w.failing ∧ name ≠ "" := by
        intro node hres hnode
        unfold nodesUpdate at hres
        by_cases hu : w.failing.contains Api.NodesUpdate = true
        · rw [if_pos hu] at hres
          simp at hres
        · rw [if_neg hu] at hres
          by_cases he : (node.Name == "") = true
          · rw [if_pos he] at hres
            simp at hres
          · refine ⟨by simpa using hu, ?_⟩
            rw [hnode, hn] at he
            simpa using he
      have hnone : ∀ (e : Option KubeError), filterError e ignore = none →
          e = none ∨ ∃ x, e = some x ∧ x.isNotFound = true := by
        intro e he
        cases e with
        | none => exact Or.inl rfl
        | some x =>
          right
          refine ⟨x, rfl, ?_⟩
          cases ignore with
          | false => simp [filterError] at he
          | true =>
            simp only [filterError, if_true] at he
            by_cases hx : x.isNotFound = true
            · exact hx
            · simp [hx] at he
      -- an update of an existing named node is never answered NotFound
      have hclean : ∀ node : Node,
          filterError (nodesUpdate w node).2 ignore = none → node.Name = n.Name →
          (nodesUpdate w node).2 = none := by
        intro node hres hnode
        rcases hnone _ hres with h0 | ⟨x, hx, hnf⟩
        · exact h0
        · exfalso
          unfold nodesUpdate at hx
          have hany : w.nodes.any (fun y => y.Name == node.Name) = true := by
            rw [hnode, hn]; exact any_of_find _ _ _ hfind
          by_cases hu : w.failing.contains Api.NodesUpdate = true
          · rw [if_pos hu] at hx
            simp only [Option.some.injEq] at hx
            rw [← hx] at hnf
            simp at hnf
          · rw [if_neg hu] at hx
            by_cases he : (node.Name == "") = true
            · rw [if_pos he] at hx
              simp only [Option.some.injEq] at hx
              rw [← hx] at hnf
              simp at hnf
            · rw [if_neg he, if_pos hany] at hx
              simp at hx
      by_cases hb : (mapLookup n.Labels NodeStateLabelKey != v) = true
      · simp only [hb, if_true] at h
        cases hm : n.Labels with
        | none => rw [hm] at h; simp at h
        | some m =>
          rw [hm] at h
          simp only [Prod.mk.injEq, Go.ret.injEq] at h
          have := hupdate _ (hclean _ h.2 rfl) rfl
          exact ⟨by simpa using hg, this.1, this.2, n, rfl, by simp [hm]⟩
      · simp only [hb, Bool.false_eq_true, if_false, Prod.mk.injEq, Go.ret.injEq] at h
        have := hupdate _ (hclean _ h.2 rfl) rfl
        refine ⟨by simpa using hg, this.1, this.2, n, rfl, ?_⟩
        cases hm : n.Labels with
        | none =>
          exfalso
          have : ¬ ("" = v) := fun e => hv e.symm
          apply hb
          simpa [mapLookup, hm] using this
        | some m => rfl

/-- The cordon call on a node that exists marks it unschedulable. -/
theorem CordonNode_of (w : World) (name : String) (ignore : Bool)
    (hget : Api.NodesGet ∉ w.failing) (hupd : Api.NodesUpdate ∉ w.failing)
    (hname : name ≠ "") (n : Node)
    (hfind : w.nodes.find? (fun x => x.Name == name) = some n) :
    CordonNode w name ignore =
      ({ w with nodes := applyOp (name, NodeOp.cordon) w.nodes }, none) := by
  have hg : w.failing.contains Api.NodesGet = false := by simpa using hget
  have hu : w.failing.contains Api.NodesUpdate = false := by simpa using hupd
  have hn := find_name hfind
  have hne : (n.Name == "") = false := by rw [hn]; simpa using hname
  have hany : w.nodes.any (fun x => x.Name == n.Name) = true := by
    rw [hn]; exact any_of_find _ _ _ hfind
  have hfilter : ∀ b, filterError none b = none := by
    intro b; cases b <;> rfl
  have hnm : (name == "") = false := by simpa using hname
  unfold CordonNode nodesGet
  simp only [hg, hnm, Bool.false_eq_true, if_false, hfind, hfilter, Option.isSome_none]
  unfold nodesUpdate
  simp only [hu, Bool.false_eq_true, if_false, hne, hany, if_true, hfilter]
  have e : modifyFirst (fun x => x.Name == n.Name)
      (fun _ => { n with Unschedulable := true }) w.nodes =
      applyOp (name, NodeOp.cordon) w.nodes := by
    unfold applyOp
    simp only [hn]
    refine (modifyFirst_congr_found _ _ _ _ _ hfind ?_).symm
    simp only [NodeOp.run]
    rw [hn]
  rw [e]

/-- The cordon call returns the nil error only on a node that exists, with both cluster
calls succeeding. -/
theorem CordonNode_ret (w w' : World) (name : String) (ignore : Bool)
    (h : CordonNode w name ignore = (w', none)) :
    Api.NodesGet ∉ w.failing ∧ Api.NodesUpdate ∉ w.failing ∧ name ≠ "" ∧
      ∃ n, w.nodes.find? (fun x => x.Name == name) = some n := by
  have hfilter : ∀ b, filterError none b = none := by
    intro b; cases b <;> rfl
  have hother : ∀ (m : String) (b : Bool), filterError (some ⟨m, false⟩) b = some ⟨m, false⟩ := by
    intro m b; cases b <;> rfl
  -- an update that is filtered to the nil error went through, or was answered NotFound
  have hupdate : ∀ node : Node, filterError (nodesUpdate w node).2 ignore = none →
      Api.NodesUpdate ∉ w.failing ∧ node.Name ≠ "" := by
    intro node hres
    unfold nodesUpdate at hres
    by_cases hu : w.failing.contains Api.NodesUpdate = true
    · rw [if_pos hu] at hres
      simp [hother] at hres
    · rw [if_neg hu] at hres
      by_cases he : (node.Name == "") = true
      · rw [if_pos he] at hres
        simp [hother] at hres
      · exact ⟨by simpa using hu, by simpa using he⟩
  unfold CordonNode at h
  by_cases hg : w.failing.contains Api.NodesGet = true
  · have e : nodesGet w name = (zeroNode, some ⟨"nodes get failed", false⟩) := by
      unfold nodesGet; rw [if_pos hg]
    rw [e] at h
    simp only [hother, Option.isSome_some, if_true, Prod.mk.injEq] at h
    exact absurd h.2 (by simp)
  · by_cases hempty : (name == "") = true
    · have e : nodesGet w name = (zeroNode, some ⟨"resource name may not be empty", false⟩) := by
        unfold nodesGet; rw [if_neg hg, if_pos hempty]
      rw [e] at h
      simp only [hother, Option.isSome_some, if_true, Prod.mk.injEq] at h
      exact absurd h.2 (by simp)
    have e : nodesGet w name =
        match w.nodes.find? (fun n => n.Name == name) with
        | some n => (n, none)
        | none => (zeroNode, some ⟨"nodes " ++ name ++ " not found", true⟩) := by
      unfold nodesGet; rw [if_neg hg, if_neg hempty]
    rw [e] at h
    cases hfind : w.nodes.find? (fun x => x.Name == name) with
    | none =>
      rw [hfind] at h
      simp only at h
      cases ignore with
      | false => simp [filterError] at h
      | true =>
        have h1 : filterError (some ⟨"nodes " ++ name ++ " not found", true⟩) true = none := rfl
        simp only [h1, Option.isSome_none, Bool.false_eq_true, if_false, Prod.mk.injEq] at h
        have := (hupdate _ h.2).2
        simp [zeroNode] at this
    | some n =>
      rw [hfind] at h
      simp only [hfilter, Option.isSome_none, Bool.false_eq_true, if_false, Prod.mk.injEq] at h
      have hn := find_name hfind
      have := hupdate _ h.2
      refine ⟨by simpa using hg, this.1, ?_, n, rfl⟩
      have h2 := this.2
      simp only at h2
      rw [hn] at h2
      exact h2

/-! ## Theorems: the loops of `PreRolloutStart` as sequences of writes -/

theorem GetNodeNameFromInstanceId_congr (w u : World) (instanceId : String)
    (hr : u.reservations = w.reservations) (hf : u.failing = w.failing) :
    GetNodeNameFromInstanceId u instanceId = GetNodeNameFromInstanceId w instanceId := by
  unfold GetNodeNameFromInstanceId DescribeInstances
  rw [hr, hf]

theorem labelOps_congr (w u : World) (state : String)
    (hr : u.reservations = w.reservations) (hf : u.failing = w.failing) :
    ∀ insts, labelOps u state insts = labelOps w state insts := by
  intro insts
  induction insts with
  | nil => rfl
  | cons i rest ih =>
    unfold labelOps
    rw [GetNodeNameFromInstanceId_congr w u i hr hf, ih]

theorem collectNodeNames_congr (w u : World)
    (hr : u.reservations = w.reservations) (hf : u.failing = w.failing) :
    ∀ insts acc, collectNodeNames u insts acc = collectNodeNames w insts acc := by
  intro insts
  induction insts with
  | nil => intro acc; rfl
  | cons i rest ih =>
    intro acc
    unfold collectNodeNames
    rw [GetNodeNameFromInstanceId_congr w u i hr hf]
    split
    · rfl
    · rfl
    · exact ih _

/-- A labelling loop that returns the nil error has made the writes `labelOps`, and makes
the same writes, again without error, from every state with the same instances and with
nodes of the same names that have a label map wherever the first state has one. -/
theorem labelInstances_sim (cfg : AsgRolloutConfig) (state : String) (hstate : state ≠ "") :
    ∀ (insts : List String) (w w' : World),
      labelInstances cfg state insts w = (w', .ret none) →
      w' = { w with nodes := runOps (labelOps w state insts) w.nodes } ∧
      ∀ u : World, u.reservations = w.reservations → u.failing = w.failing →
        nodesLike w.nodes u.nodes →
        labelInstances cfg state insts u =
          ({ u with nodes := runOps (labelOps w state insts) u.nodes }, .ret none) := by
  intro insts
  induction insts with
  | nil =>
    intro w w' h
    simp only [labelInstances, Prod.mk.injEq, and_true] at h
    subst h
    exact ⟨rfl, fun u _ _ _ => rfl⟩
  | cons i rest ih =>
    intro w w' h
    unfold labelInstances at h
    cases hres : GetNodeNameFromInstanceId w i with
    | mk name err =>
      rw [hres] at h
      cases err with
      | some e => simp at h
      | none =>
        cases name with
        | none => simp at h
        | some k =>
          simp only at h
          have hops : labelOps w state (i :: rest) =
              if k == "" then labelOps w state rest
              else (k, NodeOp.label state) :: labelOps w state rest := by
            conv_lhs => unfold labelOps
            rw [hres]
          by_cases hk : (k == "") = true
          · rw [if_pos hk] at h
            rw [hops, if_pos hk]
            obtain ⟨h1, h2⟩ := ih w w' h
            refine ⟨h1, ?_⟩
            intro u hr hf hlike
            unfold labelInstances
            rw [GetNodeNameFromInstanceId_congr w u i hr hf, hres]
            simp only
            rw [if_pos hk]
            exact h2 u hr hf hlike
          · rw [if_neg hk] at h
            rw [hops, if_neg hk]
            cases hadd : AddLabelToNode w k NodeStateLabelKey state cfg.IgnoreNotFound with
            | mk w1 r =>
              rw [hadd] at h
              cases r with
              | panic m => simp at h
              | ret e =>
                cases e with
                | some e => simp at h
                | none =>
                  simp only at h
                  obtain ⟨hget, hupd, hname, n, hfind, hlab⟩ :=
                    AddLabelToNode_ret w w1 k state cfg.IgnoreNotFound hstate hadd
                  have hw1 := AddLabelToNode_of w k state cfg.IgnoreNotFound hstate hget hupd
                    hname n hfind hlab
                  rw [hadd] at hw1
                  simp only [Prod.mk.injEq, and_true] at hw1
                  have hr1 : w1.reservations = w.reservations := by rw [hw1]
                  have hf1 : w1.failing = w.failing := by rw [hw1]
                  have hn1 : w1.nodes = applyOp (k, NodeOp.label state) w.nodes := by rw [hw1]
                  obtain ⟨h1, h2⟩ := ih w1 w' h
                  rw [labelOps_congr w w1 state hr1 hf1] at h1 h2
                  refine ⟨?_, ?_⟩
                  · rw [h1, hw1]
                    rfl
                  · intro u hr hf hlike
                    obtain ⟨n', hfind', hlab'⟩ := nodesLike_find k hlike n hfind
                    have hu1 := AddLabelToNode_of u k state cfg.IgnoreNotFound hstate
                      (by rw [hf]; exact hget) (by rw [hf]; exact hupd) hname n' hfind'
                      (hlab' hlab)
                    unfold labelInstances
                    rw [GetNodeNameFromInstanceId_congr w u i hr hf, hres]
                    simp only
                    rw [if_neg hk, hu1]
                    simp only
                    rw [h2 { u with nodes := applyOp (k, NodeOp.label state) u.nodes }
                      (hr.trans hr1.symm) (hf.trans hf1.symm)
                      (by rw [hn1]; exact nodesLike_applyOp _ hlike)]
                    rfl

/-- The cordon loop, likewise. -/
theorem cordonNodes_sim (cfg : AsgRolloutConfig) :
    ∀ (names : List String) (w w' : World),
      cordonNodes cfg names w = (w', none) →
      w' = { w with nodes := runOps (cordonOps names) w.nodes } ∧
      ∀ u : World, u.failing = w.failing → nodesLike w.nodes u.nodes →
        cordonNodes cfg names u =
          ({ u with nodes := runOps (cordonOps names) u.nodes }, none) := by
  intro names
  induction names with
  | nil =>
    intro w w' h
    simp only [cordonNodes, Prod.mk.injEq, and_true] at h
    subst h
    exact ⟨rfl, fun u _ _ => rfl⟩
  | cons k rest ih =>
    intro w w' h
    unfold cordonNodes at h
    have hops : cordonOps (k :: rest) =
        if k == "" then cordonOps rest else (k, NodeOp.cordon) :: cordonOps rest := rfl
    by_cases hk : (k == "") = true
    · rw [if_pos hk] at h
      rw [hops, if_pos hk]
      obtain ⟨h1, h2⟩ := ih w w' h
      refine ⟨h1, ?_⟩
      intro u hf hlike
      unfold cordonNodes
      rw [if_pos hk]
      exact h2 u hf hlike
    · rw [if_neg hk] at h
      rw [hops, if_neg hk]
      cases hc : CordonNode w k cfg.IgnoreNotFound with
      | mk w1 e =>
        rw [hc] at h
        cases e with
        | some e => simp at h
        | none =>
          simp only at h
          obtain ⟨hget, hupd, hname, n, hfind⟩ := CordonNode_ret w w1 k cfg.IgnoreNotFound hc
          have hw1 := CordonNode_of w k cfg.IgnoreNotFound hget hupd hname n hfind
          rw [hc] at hw1
          simp only [Prod.mk.injEq, and_true] at hw1
          have hf1 : w1.failing = w.failing := by rw [hw1]
          have hn1 : w1.nodes = applyOp (k, NodeOp.cordon) w.nodes := by rw [hw1]
          obtain ⟨h1, h2⟩ := ih w1 w' h
          refine ⟨?_, ?_⟩
          · rw [h1, hw1]
            rfl
          · intro u hf hlike
            obtain ⟨n', hfind', _⟩ := nodesLike_find k hlike n hfind
            have hu1 := CordonNode_of u k cfg.IgnoreNotFound
              (by rw [hf]; exact hget) (by rw [hf]; exact hupd) hname n' hfind'
            unfold cordonNodes
            rw [if_neg hk, hu1]
            simp only
            rw [h2 { u with nodes := applyOp (k, NodeOp.cordon) u.nodes }
              (hf.trans hf1.symm) (by rw [hn1]; exact nodesLike_applyOp _ hlike)]
            rfl

/-! ## Theorems: reads and writes of the second run of `PreRolloutStart` -/

theorem World.eq_of_fields (a b : World) (h1 : a.groups = b.groups) (h2 : a.tags = b.tags)
    (h3 : a.reservations = b.reservations) (h4 : a.launch = b.launch)
    (h5 : a.nodes = b.nodes) (h6 : a.failing = b.failing) : a = b := by
  cases a
  cases b
  simp only at h1 h2 h3 h4 h5 h6
  subst h1 h2 h3 h4 h5 h6
  rfl

theorem find_of_filter {α : Type} (p : α → Bool) :
    ∀ (l : List α) (x : α) (rest : List α), l.filter p = x :: rest → l.find? p = some x := by
  intro l
  induction l with
  | nil => intro x rest h; simp at h
  | cons y ys ih =>
    intro x rest h
    by_cases hy : p y = true
    · rw [List.filter_cons, if_pos hy] at h
      simp only [List.cons.injEq] at h
      obtain ⟨rfl, _⟩ := h
      simp [List.find?_cons, hy]
    · rw [List.filter_cons, if_neg hy] at h
      simp only [List.find?_cons, hy]
      exact ih x rest h

theorem getAsg_find (w : World) (asgName : String) (g : Group)
    (h : getAsg w asgName = .ret (some g, none)) :
    Api.DescribeAutoScalingGroups ∉ w.failing ∧
      w.groups.find? (fun x => x.AutoScalingGroupName == asgName) = some g := by
  unfold getAsg DescribeAutoScalingGroups at h
  by_cases hc : w.failing.contains Api.DescribeAutoScalingGroups = true
  · rw [if_pos hc] at h
    simp at h
  · rw [if_neg hc, contains_singleton] at h
    refine ⟨by simpa using hc, ?_⟩
    cases hf : w.groups.filter (fun g => g.AutoScalingGroupName == asgName) with
    | nil => rw [hf] at h; simp at h
    | cons x rest =>
      rw [hf] at h
      simp only [Go.ret.injEq, Prod.mk.injEq, Option.some.injEq, and_true] at h
      rw [← h]
      exact find_of_filter _ _ _ _ hf

theorem GetOldnNewInstancesOfAsg_of_find (w : World) (asgName : String) (g : Group)
    (hcall : Api.DescribeAutoScalingGroups ∉ w.failing)
    (hg : w.groups.find? (fun x => x.AutoScalingGroupName == asgName) = some g) :
    GetOldnNewInstancesOfAsg w asgName =
      match getOldnNewInstancesOfAsg w.launch g with
      | .panic m => .panic m
      | .ret c => .ret (c.oldInstances, c.newInstances, c.err) := by
  obtain ⟨rest, hrest⟩ := filter_of_find _ _ _ hg
  have hc : w.failing.contains Api.DescribeAutoScalingGroups = false := by simpa using hcall
  unfold GetOldnNewInstancesOfAsg DescribeAutoScalingGroups
  rw [hc, contains_singleton, hrest]
  rfl

theorem GetOldnNewInstancesOfAsg_find (w : World) (asgName : String)
    (old new : List String)
    (h : GetOldnNewInstancesOfAsg w asgName = .ret (old, new, none)) :
    ∃ g, Api.DescribeAutoScalingGroups ∉ w.failing ∧
      w.groups.find? (fun x => x.AutoScalingGroupName == asgName) = some g := by
  unfold GetOldnNewInstancesOfAsg DescribeAutoScalingGroups at h
  by_cases hc : w.failing.contains Api.DescribeAutoScalingGroups = true
  · rw [if_pos hc] at h
    simp at h
  · rw [if_neg hc, contains_singleton] at h
    cases hf : w.groups.filter (fun g => g.AutoScalingGroupName == asgName) with
    | nil => rw [hf] at h; simp at h
    | cons x rest => exact ⟨x, by simpa using hc, find_of_filter _ _ _ _ hf⟩

/-- Classification does not read the scale-in protection of the group. -/
theorem getOldnNewInstancesOfAsg_protection (api : LaunchApi) (g : Group) :
    getOldnNewInstancesOfAsg api (protectNew g) = getOldnNewInstancesOfAsg api g := rfl

theorem updateGroup_of (w : World) (api : Api) (asgName : String) (f : Group → Group)
    (g : Group) (hcall : api ∉ w.failing)
    (hg : w.groups.find? (fun x => x.AutoScalingGroupName == asgName) = some g) :
    updateGroup w api asgName f = ({ w with groups := overGroup asgName f w.groups }, none) := by
  have hc : w.failing.contains api = false := by simpa using hcall
  have hany := any_of_find _ _ _ hg
  unfold updateGroup
  rw [hc, hany]
  rfl

theorem updateGroup_none (w w' : World) (api : Api) (asgName : String) (f : Group → Group)
    (h : updateGroup w api asgName f = (w', none)) :
    api ∉ w.failing ∧ w' = { w with groups := overGroup asgName f w.groups } := by
  unfold updateGroup at h
  by_cases hc : w.failing.contains api = true
  · rw [if_pos hc] at h
    simp at h
  · rw [if_neg hc] at h
    by_cases hany : w.groups.any (fun g => g.AutoScalingGroupName == asgName) = true
    · rw [if_pos hany] at h
      simp only [Prod.mk.injEq, and_true] at h
      exact ⟨by simpa using hc, h.symm⟩
    · rw [if_neg hany] at h
      simp at h

theorem storeCapacityTags_of (w : World) (asgName : String) (g : Group)
    (hcall : Api.CreateOrUpdateTags ∉ w.failing) :
    storeCapacityTags w asgName g.MinSize g.MaxSize g.DesiredCapacity =
      ({ w with tags := withCapacityTags asgName g w.tags }, none) := by
  have hc : w.failing.contains Api.CreateOrUpdateTags = false := by simpa using hcall
  unfold storeCapacityTags AddTagToAsG
  simp only [hc, Bool.false_eq_true, if_false]
  rfl

/-- Writing the capacity tags of a group a second time changes nothing. -/
theorem withCapacityTags_idem (asgName : String) (g : Group) (tags : List TagDescription) :
    withCapacityTags asgName g (withCapacityTags asgName g tags) =
      withCapacityTags asgName g tags := by
  have key : ∀ (k k' v : String) (l : List TagDescription), k ≠ k' →
      (putTag asgName k' v l).find? (fun t => t.ResourceId == asgName && t.Key == k) =
        l.find? (fun t => t.ResourceId == asgName && t.Key == k) := by
    intro k k' v l hk
    unfold putTag
    refine find_upsertFirst_other _ _ _ ?_ ?_ l
    · have : ¬ k' = k := fun e => hk e.symm
      simp [this]
    · intro z hz
      simp only [Bool.and_eq_true, beq_iff_eq] at hz
      have : ¬ z.Key = k := fun e => hk (e.symm.trans hz.2)
      simp [this]
  have self : ∀ (k v : String) (l : List TagDescription),
      (putTag asgName k v l).find? (fun t => t.ResourceId == asgName && t.Key == k) =
        some ⟨asgName, k, v⟩ := by
    intro k v l
    unfold putTag
    exact find_upsertFirst_self _ _ (by simp) l
  have fix : ∀ (k v : String) (l : List TagDescription),
      l.find? (fun t => t.ResourceId == asgName && t.Key == k) = some ⟨asgName, k, v⟩ →
      putTag asgName k v l = l := by
    intro k v l h
    unfold putTag
    exact upsertFirst_found _ _ l h
  unfold withCapacityTags
  have hmin := fix "dockyard.io/min" (Itoa g.MinSize)
    (putTag asgName "dockyard.io/desired" (Itoa g.DesiredCapacity)
      (putTag asgName "dockyard.io/max" (Itoa g.MaxSize)
        (putTag asgName "dockyard.io/min" (Itoa g.MinSize) tags)))
    (by rw [key _ _ _ _ (by decide), key _ _ _ _ (by decide), self])
  rw [hmin]
  have hmax := fix "dockyard.io/max" (Itoa g.MaxSize)
    (putTag asgName "dockyard.io/desired" (Itoa g.DesiredCapacity)
      (putTag asgName "dockyard.io/max" (Itoa g.MaxSize)
        (putTag asgName "dockyard.io/min" (Itoa g.MinSize) tags)))
    (by rw [key _ _ _ _ (by decide), self])
  rw [hmax]
  exact fix _ _ _ (self _ _ _)

/-- The second part of `PreRolloutStart` returns the nil error when each of its steps
does. -/
theorem preRolloutCapacity_of (cfg : AsgRolloutConfig) (asgName : String)
    (u u1 u2 u3 : World) (g : Group) (names : List String)
    (hg : getAsg u asgName = .ret (some g, none))
    (htags : (if (GetTagValueOfAsg u asgName "dockyard.io/desired").1 == 0 then
        storeCapacityTags u asgName g.MinSize g.MaxSize g.DesiredCapacity
      else (u, none)) = (u1, none))
    (hg1 : getAsg u1 asgName = .ret (some g, none))
    (hnames : collectNodeNames u1 (g.Instances.map (fun i => i.InstanceId)) [] = .ret names)
    (hcordon : cordonNodes cfg names u1 = (u2, none))
    (hprot : EnableNewInstanceProtection u2 asgName = (u3, none)) :
    preRolloutCapacity cfg asgName u = (u3, .ret none) := by
  unfold preRolloutCapacity
  simp only [GetMaxCount, GetMinCount, GetDesiredCount, hg, htags, GetInstancesOfAsg, hg1,
    hnames, hcordon, hprot]

theorem PreRolloutStart_of (cfg : AsgRolloutConfig) (asgName : String) (w w1 w2 w' : World)
    (old new : List String)
    (hcl : GetOldnNewInstancesOfAsg w asgName = .ret (old, new, none))
    (h1 : labelInstances cfg "new" new w = (w1, .ret none))
    (h2 : labelInstances cfg "old" old w1 = (w2, .ret none))
    (hcap : preRolloutCapacity cfg asgName w2 = (w', .ret none)) :
    PreRolloutStart cfg asgName w = (w', .ret none) := by
  unfold PreRolloutStart
  simp only [hcl, h1, h2, hcap]

/-! ## Theorem: `PreRolloutStart` is idempotent -/

theorem overGroup_overGroup_protect (asgName : String) (groups : List Group) :
    overGroup asgName protectNew (overGroup asgName protectNew groups) =
      overGroup asgName protectNew groups := by
  unfold overGroup
  exact modifyFirst_modifyFirst (fun g : Group => g.AutoScalingGroupName == asgName)
    protectNew protectNew (fun _ => rfl) groups

theorem find_overGroup_protect (asgName : String) (groups : List Group) (g : Group)
    (h : groups.find? (fun x => x.AutoScalingGroupName == asgName) = some g) :
    (overGroup asgName protectNew groups).find?
        (fun x => x.AutoScalingGroupName == asgName) = some (protectNew g) := by
  unfold overGroup
  rw [find_modifyFirst (fun g : Group => g.AutoScalingGroupName == asgName) protectNew
    (fun _ => rfl), h]
  rfl

/-- C10. Whenever a run of `PreRolloutStart` returns the nil error, a second run from the
state it left returns the nil error again and leaves that state as it is: node labels,
unschedulable flags, capacity tags, capacity and scale-in protection are those of one
run. -/
theorem PreRolloutStart_idempotent (cfg : AsgRolloutConfig) (asgName : String)
    (w w' : World) (hrun : PreRolloutStart cfg asgName w = (w', .ret none)) :
    PreRolloutStart cfg asgName w' = (w', .ret none) := by
  obtain ⟨old, new, w1, w2, hcl, hL1, hL2, hcap⟩ := PreRolloutStart_ret _ _ _ _ hrun
  obtain ⟨hw1, sim1⟩ := labelInstances_sim cfg "new" (by decide) new w w1 hL1
  obtain ⟨hw2, sim2⟩ := labelInstances_sim cfg "old" (by decide) old w1 w2 hL2
  obtain ⟨g, w3, w4, names, hg2, htags, hnames, hcordon, hprot⟩ :=
    preRolloutCapacity_ret _ _ _ _ hcap
  obtain ⟨hw4, sim4⟩ := cordonNodes_sim cfg names w3 w4 hcordon
  unfold EnableNewInstanceProtection at hprot
  obtain ⟨hupd, hw'⟩ := updateGroup_none _ _ _ _ _ hprot
  obtain ⟨hdesc, hfind2⟩ := getAsg_find _ _ _ hg2
  generalize labelOps w "new" new = opsN at hw1 sim1
  generalize labelOps w1 "old" old = opsO at hw2 sim2
  generalize cordonOps names = opsC at hw4 sim4
  -- the fields of the intermediate states of the first run
  have f1 : w1.groups = w.groups ∧ w1.tags = w.tags ∧ w1.reservations = w.reservations ∧
      w1.launch = w.launch ∧ w1.failing = w.failing ∧
      w1.nodes = runOps opsN w.nodes := by
    rw [hw1]; exact ⟨rfl, rfl, rfl, rfl, rfl, rfl⟩
  have f2 : w2.groups = w.groups ∧ w2.tags = w.tags ∧ w2.reservations = w.reservations ∧
      w2.launch = w.launch ∧ w2.failing = w.failing ∧
      w2.nodes = runOps opsO (runOps opsN w.nodes) := by
    rw [hw2]
    exact ⟨f1.1, f1.2.1, f1.2.2.1, f1.2.2.2.1, f1.2.2.2.2.1, by rw [f1.2.2.2.2.2]⟩
  have f3 : w3.groups = w2.groups ∧ w3.reservations = w2.reservations ∧
      w3.launch = w2.launch ∧ w3.failing = w2.failing ∧ w3.nodes = w2.nodes := by
    by_cases hv : ((GetTagValueOfAsg w2 asgName "dockyard.io/desired").1 == 0) = true
    · rw [if_pos hv] at htags
      obtain ⟨_, e⟩ := storeCapacityTags_none _ _ _ _ htags
      rw [e]; exact ⟨rfl, rfl, rfl, rfl, rfl⟩
    · rw [if_neg hv] at htags
      simp only [Prod.mk.injEq, and_true] at htags
      rw [← htags]; exact ⟨rfl, rfl, rfl, rfl, rfl⟩
  have f4 : w4.groups = w3.groups ∧ w4.tags = w3.tags ∧ w4.reservations = w3.reservations ∧
      w4.launch = w3.launch ∧ w4.failing = w3.failing ∧
      w4.nodes = runOps opsC w3.nodes := by
    rw [hw4]; exact ⟨rfl, rfl, rfl, rfl, rfl, rfl⟩
  have hG : w'.groups =
      overGroup asgName protectNew w.groups := by
    rw [hw']
    simp only
    rw [f4.1, f3.1, f2.1]
  have hT : w'.tags = w3.tags := by rw [hw']; exact f4.2.1
  have hR : w'.reservations = w.reservations := by
    rw [hw']; simp only; rw [f4.2.2.1, f3.2.1, f2.2.2.1]
  have hLa : w'.launch = w.launch := by
    rw [hw']; simp only; rw [f4.2.2.2.1, f3.2.2.1, f2.2.2.2.1]
  have hF : w'.failing = w.failing := by
    rw [hw']; simp only; rw [f4.2.2.2.2.1, f3.2.2.2.1, f2.2.2.2.2.1]
  have hN : w'.nodes = runOps opsC
      (runOps opsO (runOps opsN w.nodes)) := by
    rw [hw']; simp only; rw [f4.2.2.2.2.2, f3.2.2.2.2, f2.2.2.2.2.2]
  have hfind : w.groups.find? (fun x => x.AutoScalingGroupName == asgName) = some g := by
    rw [← f2.1]; exact hfind2
  have hfind' : w'.groups.find? (fun x => x.AutoScalingGroupName == asgName) =
      some (protectNew g) := by
    rw [hG]; exact find_overGroup_protect _ _ _ hfind
  have hdescW : Api.DescribeAutoScalingGroups ∉ w.failing := by
    rw [← f2.2.2.2.2.1]; exact hdesc
  have hlike : nodesLike w.nodes w'.nodes := by
    rw [hN]
    exact nodesLike_trans (nodesLike_runOps_self _ _)
      (nodesLike_trans (nodesLike_runOps_self _ _) (nodesLike_runOps_self _ _))
  -- the second run: classification
  have hcl' : GetOldnNewInstancesOfAsg w' asgName = .ret (old, new, none) := by
    rw [GetOldnNewInstancesOfAsg_of_find w' asgName _ (by rw [hF]; exact hdescW) hfind',
      hLa, getOldnNewInstancesOfAsg_protection]
    rw [GetOldnNewInstancesOfAsg_of_find w asgName g hdescW hfind] at hcl
    exact hcl
  -- the second run: the two labelling loops
  have hL1' := sim1 w' hR hF hlike
  have hL2' := sim2 { w' with nodes := runOps opsN w'.nodes }
    (hR.trans f1.2.2.1.symm) (hF.trans f1.2.2.2.2.1.symm)
    (by rw [f1.2.2.2.2.2]; exact nodesLike_runOps _ hlike)
  -- the second run: capacity tags, cordon, protection
  have hcap' : preRolloutCapacity cfg asgName
      { w' with nodes := runOps opsO (runOps opsN w'.nodes) } = (w', .ret none) := by
    refine preRolloutCapacity_of cfg asgName
      { w' with nodes := runOps opsO (runOps opsN w'.nodes) }
      { w' with nodes := runOps opsO (runOps opsN w'.nodes) }
      { w' with nodes := runOps opsC (runOps opsO (runOps opsN w'.nodes)) } w'
      (protectNew g) names ?_ ?_ ?_ ?_ ?_ ?_
    · exact getAsg_of_find _ asgName _ (by simp only; rw [hF]; exact hdescW) hfind'
    · by_cases hv' : ((GetTagValueOfAsg { w' with nodes := runOps opsO (runOps opsN w'.nodes) }
          asgName "dockyard.io/desired").1 == 0) = true
      · rw [if_pos hv']
        by_cases hv : ((GetTagValueOfAsg w2 asgName "dockyard.io/desired").1 == 0) = true
        · rw [if_pos hv] at htags
          obtain ⟨hcreate, e⟩ := storeCapacityTags_none _ _ _ _ htags
          rw [storeCapacityTags_of _ asgName (protectNew g)
            (by simp only; rw [hF, ← f2.2.2.2.2.1]; exact hcreate)]
          refine Prod.ext ?_ rfl
          refine World.eq_of_fields _ _ rfl ?_ rfl rfl rfl rfl
          simp only
          rw [hT, e]
          exact withCapacityTags_idem asgName g w2.tags
        · exfalso
          rw [if_neg hv] at htags
          simp only [Prod.mk.injEq, and_true] at htags
          rw [GetTagValueOfAsg_congr w2 _ asgName _ (by simp only; rw [hT, ← htags])
            (by simp only; rw [hF, f2.2.2.2.2.1])] at hv'
          exact hv hv'
      · rw [if_neg hv']
    · exact getAsg_of_find _ asgName _ (by simp only; rw [hF]; exact hdescW) hfind'
    · rw [collectNodeNames_congr w3 _ (by simp only; rw [hR, f3.2.1, f2.2.2.1])
        (by simp only; rw [hF, f3.2.2.2.1, f2.2.2.2.2.1])]
      exact hnames
    · exact sim4 _ (by simp only; rw [hF, f3.2.2.2.1, f2.2.2.2.2.1])
        (by
          simp only
          rw [f3.2.2.2.2, f2.2.2.2.2.2]
          exact nodesLike_runOps _ (nodesLike_runOps _ hlike))
    · unfold EnableNewInstanceProtection
      rw [updateGroup_of { w' with nodes := runOps opsC (runOps opsO (runOps opsN w'.nodes)) }
        Api.UpdateAutoScalingGroup asgName protectNew (protectNew g)
        (by simp only; rw [hF, ← f2.2.2.2.2.1, ← f3.2.2.2.1, ← f4.2.2.2.2.1]; exact hupd)
        hfind']
      refine Prod.ext ?_ rfl
      refine World.eq_of_fields _ _ ?_ rfl rfl rfl ?_ rfl
      · simp only
        rw [hG]
        exact overGroup_overGroup_protect asgName w.groups
      · simp only
        have e : ∀ s, runOps opsC (runOps opsO (runOps opsN s)) =
            runOps (opsN ++ opsO ++ opsC) s := by
          intro s
          rw [runOps_append, runOps_append]
        rw [hN, e, e]
        exact runOps_idem _ _
  exact PreRolloutStart_of cfg asgName w' _ _ w' old new hcl' hL1' hL2' hcap'

theorem PreRolloutStart_idempotent_witness :
    PreRolloutStart defaultConfig "A" scenarioOneWorld =
        ((PreRolloutStart defaultConfig "A" scenarioOneWorld).1, .ret none) ∧
      PreRolloutStart defaultConfig "A" (PreRolloutStart defaultConfig "A" scenarioOneWorld).1 =
        ((PreRolloutStart defaultConfig "A" scenarioOneWorld).1, .ret none) :=
  ⟨Prod.ext rfl (by decide),
    PreRolloutStart_idempotent defaultConfig "A" scenarioOneWorld
      (PreRolloutStart defaultConfig "A" scenarioOneWorld).1 (Prod.ext rfl (by decide))⟩

/-! ## The error filter and the readers of the cluster adapter -/

/-- C16. `filterError err flag` is nil when `flag` is true and `err` is a NotFound error,
and is `err` itself in every other case: `flag` false, `err` nil, or `err` not NotFound. -/
theorem filterError_spec (err : Option KubeError) (flag : Bool) :
    filterError err flag = if flag && IsNotFound err then none else err := by
  cases flag with
  | false => simp [filterError]
  | true =>
    cases err with
    | none => simp [filterError, IsNotFound]
    | some e =>
      cases h : e.isNotFound <;> simp [filterError, IsNotFound, h]

/-- The lookup of a name, not empty, that no node of the cluster has, is answered
NotFound with the zero node. -/
theorem nodesGet_not_found (w : World) (name : String) (hget : Api.NodesGet ∉ w.failing)
    (hname : name ≠ "") (hfind : w.nodes.find? (fun n => n.Name == name) = none) :
    nodesGet w name = (zeroNode, some ⟨"nodes " ++ name ++ " not found", true⟩) := by
  have hg : w.failing.contains Api.NodesGet = false := by simpa using hget
  have hnm : (name == "") = false := by simpa using hname
  unfold nodesGet
  simp only [hg, hnm, Bool.false_eq_true, if_false, hfind]

/-- C17. On scenario 1 no node is named node-9 and the lookup is answered NotFound.
`NodeHasLabel` with `ignoreNotFoundErrors = true` returns `false` together with that
NotFound error, not with the nil error: it tests the filtered error, which is nil here,
and then returns the error of the lookup, so that the flag changes nothing.
`IsNodeHealthy` and `GetLabelValOfNode` return the zero value with the nil error on the
same lookup. -/
theorem NodeHasLabel_returns_not_found_error :
    nodesGet scenarioOneWorld "node-9" =
      (zeroNode, some ⟨"nodes node-9 not found", true⟩) ∧
    filterError (nodesGet scenarioOneWorld "node-9").2 true = none ∧
    NodeHasLabel scenarioOneWorld "node-9" NodeStateLabelKey "old" true =
      (false, some ⟨"nodes node-9 not found", true⟩) ∧
    (NodeHasLabel scenarioOneWorld "node-9" NodeStateLabelKey "old" true).2 ≠ none ∧
    NodeHasLabel scenarioOneWorld "node-9" NodeStateLabelKey "old" true =
      NodeHasLabel scenarioOneWorld "node-9" NodeStateLabelKey "old" false ∧
    IsNodeHealthy scenarioOneWorld "node-9" true = (false, none) ∧
    GetLabelValOfNode scenarioOneWorld "node-9" NodeStateLabelKey true = ("", none) := by
  decide

/-- For every node name, label key and label value, when the cluster answers the node
lookup with a NotFound error, `NodeHasLabel` returns `false` together with that error,
whether `ignoreNotFoundErrors` is true or false. -/
theorem NodeHasLabel_not_found (w : World) (name key val : String) (ignore : Bool)
    (e : KubeError) (hget : nodesGet w name = (zeroNode, some e))
    (hnf : e.isNotFound = true) :
    NodeHasLabel w name key val ignore = (false, some e) ∧
      IsNotFound (NodeHasLabel w name key val ignore).2 = true := by
  unfold NodeHasLabel
  rw [hget]
  cases ignore <;> simp [filterError, mapGet, zeroNode, hnf, IsNotFound]

/-- The answer of `NodeHasLabel` on scenario 1 for the absent node node-9, with NotFound
ignored. -/
theorem NodeHasLabel_not_found_witness :
    nodesGet scenarioOneWorld "node-9" =
      (zeroNode, some ⟨"nodes node-9 not found", true⟩) ∧
    NodeHasLabel scenarioOneWorld "node-9" NodeStateLabelKey "new" true =
      (false, some ⟨"nodes node-9 not found", true⟩) ∧
    IsNotFound (NodeHasLabel scenarioOneWorld "node-9" NodeStateLabelKey "new" true).2 = true :=
  ⟨by decide,
    NodeHasLabel_not_found scenarioOneWorld "node-9" NodeStateLabelKey "new" true
      ⟨"nodes node-9 not found", true⟩ (by decide) rfl⟩

/-- With NotFound ignored, `AddLabelToNode` on a node the cluster does not have panics on
the write into the nil label map when the value is not empty, and otherwise sends the
unnamed zero node to the cluster, which rejects it. -/
theorem AddLabelToNode_not_found (w : World) (name key val : String)
    (hget : Api.NodesGet ∉ w.failing) (hupd : Api.NodesUpdate ∉ w.failing)
    (hname : name ≠ "") (hfind : w.nodes.find? (fun n => n.Name == name) = none) :
    (AddLabelToNode w name key val true).2 =
      if val == "" then .ret (some ⟨"resource name may not be empty", false⟩)
      else .panic "assignment to entry in nil map" := by
  have hu : w.failing.contains Api.NodesUpdate = false := by simpa using hupd
  unfold AddLabelToNode
  rw [nodesGet_not_found w name hget hname hfind]
  have h1 : filterError (some ⟨"nodes " ++ name ++ " not found", true⟩) true = none := rfl
  simp only [h1, Option.isSome_none, Bool.false_eq_true, if_false]
  by_cases hv : val = ""
  · subst hv
    have hsame : (mapLookup zeroNode.Labels key != "") = false := by
      simp [zeroNode, mapLookup]
    have hupdate : nodesUpdate w zeroNode =
        (w, some ⟨"resource name may not be empty", false⟩) := by
      unfold nodesUpdate
      rw [hu]
      simp [zeroNode]
    rw [hsame]
    simp only [Bool.false_eq_true, if_false, hupdate]
    rfl
  · have hb : (val == "") = false := by simpa using hv
    have hne : (mapLookup zeroNode.Labels key != val) = true := by
      simp only [zeroNode, mapLookup]
      simpa using fun e => hv e.symm
    rw [hne, hb]
    simp only [if_true, Bool.false_eq_true, if_false]
    rfl

/-- C18. On scenario 1, where no node is named node-9, `AddLabelToNode` with NotFound
ignored does not return nil: with a label value that is not empty it panics on the write
into the nil label map of the zero node, and with the empty value it returns the error of
the update of the unnamed node.  The state is left as it was in both cases. -/
theorem AddLabelToNode_not_found_panics :
    (∀ key val : String, (AddLabelToNode scenarioOneWorld "node-9" key val true).2 =
      if val == "" then .ret (some ⟨"resource name may not be empty", false⟩)
      else .panic "assignment to entry in nil map") ∧
    (AddLabelToNode scenarioOneWorld "node-9" NodeStateLabelKey "old" true).2 =
      .panic "assignment to entry in nil map" ∧
    (AddLabelToNode scenarioOneWorld "node-9" NodeStateLabelKey "old" true).1.nodes =
      scenarioOneWorld.nodes ∧
    (AddLabelToNode scenarioOneWorld "node-1" NodeStateLabelKey "old" true).2 = .ret none := by
  refine ⟨fun key val => AddLabelToNode_not_found scenarioOneWorld "node-9" key val
    (by decide) (by decide) (by decide) (by decide), by decide, by decide, by decide⟩

/-! ## Node readiness -/

/-- The loop returns `true` exactly when the decisive condition has status `True`. -/
theorem readyLoop_decisive (conditions : List NodeCondition) :
    readyLoop conditions = true ↔
      ∃ c, decisiveCondition conditions = some c ∧ c.Status = "True" := by
  induction conditions with
  | nil => simp [readyLoop, decisiveCondition]
  | cons c rest ih =>
    have hstep : decisiveCondition (c :: rest) =
        if (c.CondType == "Ready" && (c.Status == "False" || c.Status == "True")) = true
        then some c else decisiveCondition rest := by
      unfold decisiveCondition
      rw [List.find?_cons]
      cases (c.CondType == "Ready" && (c.Status == "False" || c.Status == "True")) <;> rfl
    unfold readyLoop
    rw [hstep]
    cases hA : (c.CondType == "Ready")
    · simp only [Bool.false_and, Bool.false_eq_true, if_false]
      exact ih
    · cases hF : (c.Status == "False")
      · cases hT : (c.Status == "True")
        · simp only [Bool.and_false, Bool.or_self, Bool.false_eq_true, if_false]
          exact ih
        · have ht : c.Status = "True" := by simpa using hT
          simp only [Bool.and_false, Bool.and_self, Bool.false_eq_true, if_false, if_true,
            Bool.false_or, true_iff]
          exact ⟨c, rfl, ht⟩
      · have hf : c.Status = "False" := by simpa using hF
        simp only [Bool.and_self, if_true, Bool.true_or, Bool.false_eq_true, false_iff,
          not_exists, not_and, Option.some.injEq]
        intro d hd
        rw [← hd, hf]
        decide

/-- On a list with at most one condition of type `Ready`, the loop returns `true` exactly
when the list holds a condition of type `Ready` with status `True`. -/
theorem readyLoop_single (conditions : List NodeCondition)
    (h : (conditions.filter (fun c => c.CondType == "Ready")).length ≤ 1) :
    readyLoop conditions = true ↔
      ∃ c ∈ conditions, c.CondType = "Ready" ∧ c.Status = "True" := by
  induction conditions with
  | nil => simp [readyLoop]
  | cons c rest ih =>
    unfold readyLoop
    by_cases hr : c.CondType = "Ready"
    · have hrest : ∀ d ∈ rest, d.CondType ≠ "Ready" := by
        intro d hd hdr
        have hmem : d ∈ rest.filter (fun c => c.CondType == "Ready") := by
          simp [List.mem_filter, hd, hdr]
        have hpos := List.length_pos_of_mem hmem
        simp only [List.filter_cons, hr, beq_self_eq_true, if_true, List.length_cons] at h
        omega
      by_cases hf : c.Status = "False"
      · simp only [hr, hf, beq_self_eq_true, Bool.and_self, if_true, Bool.false_eq_true,
          false_iff, not_exists, not_and]
        intro d hd hdr
        rcases List.mem_cons.mp hd with e | e
        · subst e
          rw [hf]
          decide
        · exact absurd hdr (hrest d e)
      · by_cases ht : c.Status = "True"
        · have e1 : (c.CondType == "Ready" && c.Status == "False") = false := by
            rw [hr, ht]; decide
          have e2 : (c.CondType == "Ready" && c.Status == "True") = true := by
            rw [hr, ht]; decide
          rw [e1, e2]
          simp only [Bool.false_eq_true, if_false, if_true, true_iff]
          exact ⟨c, List.mem_cons_self _ _, hr, ht⟩
        · have e1 : (c.CondType == "Ready" && c.Status == "False") = false := by
            simp [hf]
          have e2 : (c.CondType == "Ready" && c.Status == "True") = false := by
            simp [ht]
          rw [e1, e2]
          simp only [Bool.false_eq_true, if_false]
          have hnone : readyLoop rest = false := by
            cases hl : readyLoop rest with
            | false => rfl
            | true =>
              have hlen : (rest.filter (fun c => c.CondType == "Ready")).length ≤ 1 := by
                simp only [List.filter_cons, hr, beq_self_eq_true, if_true,
                  List.length_cons] at h
                omega
              obtain ⟨d, hd, hdr, _⟩ := (ih hlen).mp hl
              exact absurd hdr (hrest d hd)
          rw [hnone]
          simp only [Bool.false_eq_true, false_iff, not_exists, not_and]
          intro d hd hdr
          rcases List.mem_cons.mp hd with e | e
          · subst e
            exact ht
          · exact absurd hdr (hrest d e)
    · have e1 : (c.CondType == "Ready" && c.Status == "False") = false := by simp [hr]
      have e2 : (c.CondType == "Ready" && c.Status == "True") = false := by simp [hr]
      have hlen : (rest.filter (fun c => c.CondType == "Ready")).length ≤ 1 := by
        have hb : (c.CondType == "Ready") = false := by simpa using hr
        simpa only [List.filter_cons, hb, Bool.false_eq_true, if_false] using h
      rw [e1, e2]
      simp only [Bool.false_eq_true, if_false]
      rw [ih hlen]
      constructor
      · rintro ⟨d, hd, hd2⟩
        exact ⟨d, List.mem_cons_of_mem _ hd, hd2⟩
      · rintro ⟨d, hd, hdr, hds⟩
        rcases List.mem_cons.mp hd with e | e
        · subst e
          exact absurd hdr hr
        · exact ⟨d, e, hdr, hds⟩

/-- The readiness check of a node the cluster has: the loop over its conditions, with the
nil error. -/
theorem IsNodeHealthy_of (w : World) (name : String) (ignore : Bool) (n : Node)
    (hget : Api.NodesGet ∉ w.failing) (hname : name ≠ "")
    (hfind : w.nodes.find? (fun x => x.Name == name) = some n) :
    IsNodeHealthy w name ignore = (readyLoop n.Conditions, none) := by
  have hg : w.failing.contains Api.NodesGet = false := by simpa using hget
  have hnm : (name == "") = false := by simpa using hname
  have hfilter : ∀ b, filterError none b = none := by
    intro b; cases b <;> rfl
  unfold IsNodeHealthy nodesGet
  simp only [hg, hnm, Bool.false_eq_true, if_false, hfind, hfilter, Option.isSome_none]

/-- A list that holds two conditions of type `Ready`, which the cluster does not report,
is decided by the first of them: the node node-1 of `twoReadyWorld` lists one with status
`True` after one with status `False`, and the check returns `false`. -/
theorem IsNodeHealthy_first_ready_decides :
    (∃ c ∈ twoReadyNode.Conditions, c.CondType = "Ready" ∧ c.Status = "True") ∧
    twoReadyWorld.nodes.find? (fun x => x.Name == "node-1") = some twoReadyNode ∧
    IsNodeHealthy twoReadyWorld "node-1" true = (false, none) := by
  refine ⟨⟨⟨"Ready", "True"⟩, by decide, rfl, rfl⟩, by decide, by decide⟩

/-- For every node the cluster returns, whatever its list of conditions, `IsNodeHealthy`
returns `true` if and only if the first condition of type `Ready` with status `True` or
`False` has status `True`. -/
theorem IsNodeHealthy_decisive (w : World) (name : String) (ignore : Bool) (n : Node)
    (hget : Api.NodesGet ∉ w.failing) (hname : name ≠ "")
    (hfind : w.nodes.find? (fun x => x.Name == name) = some n) :
    (IsNodeHealthy w name ignore).1 = true ↔
      ∃ c, decisiveCondition n.Conditions = some c ∧ c.Status = "True" := by
  rw [IsNodeHealthy_of w name ignore n hget hname hfind]
  exact readyLoop_decisive _

/-- Two conditions of type `Ready` of a list that holds at most one are the same. -/
theorem ready_unique (conditions : List NodeCondition)
    (h : (conditions.filter (fun c => c.CondType == "Ready")).length ≤ 1)
    (c d : NodeCondition) (hc : c ∈ conditions) (hd : d ∈ conditions)
    (hcr : c.CondType = "Ready") (hdr : d.CondType = "Ready") : c = d := by
  have mc : c ∈ conditions.filter (fun c => c.CondType == "Ready") := by
    simp [List.mem_filter, hc, hcr]
  have md : d ∈ conditions.filter (fun c => c.CondType == "Ready") := by
    simp [List.mem_filter, hd, hdr]
  match hfl : conditions.filter (fun c => c.CondType == "Ready") with
  | [] => rw [hfl] at mc; simp at mc
  | [x] =>
    rw [hfl] at mc md
    simp only [List.mem_singleton] at mc md
    rw [mc, md]
  | x :: y :: rest => rw [hfl] at h; simp at h

/-- C19. For every node the cluster returns, its list of conditions holding at most one
condition of type `Ready` (the cluster keys the conditions of a node by their type),
`IsNodeHealthy` returns `true` if and only if the conditions of the node contain a
condition of type `Ready` whose status is `True`.  A node with no conditions, with no
`Ready` condition, or with a `Ready` condition whose status is not `True` (`False` or
`Unknown`) yields `false`.  The error is nil in every case. -/
theorem IsNodeHealthy_iff (w : World) (name : String) (ignore : Bool) (n : Node)
    (hget : Api.NodesGet ∉ w.failing) (hname : name ≠ "")
    (hfind : w.nodes.find? (fun x => x.Name == name) = some n)
    (hkeyed : (n.Conditions.filter (fun c => c.CondType == "Ready")).length ≤ 1) :
    (IsNodeHealthy w name ignore).2 = none ∧
    ((IsNodeHealthy w name ignore).1 = true ↔
      ∃ c ∈ n.Conditions, c.CondType = "Ready" ∧ c.Status = "True") ∧
    (n.Conditions = [] → (IsNodeHealthy w name ignore).1 = false) ∧
    ((∀ c ∈ n.Conditions, c.CondType ≠ "Ready") → (IsNodeHealthy w name ignore).1 = false) ∧
    (∀ c ∈ n.Conditions, c.CondType = "Ready" → c.Status ≠ "True" →
      (IsNodeHealthy w name ignore).1 = false) := by
  rw [IsNodeHealthy_of w name ignore n hget hname hfind]
  refine ⟨rfl, readyLoop_single _ hkeyed, ?_, ?_, ?_⟩
  · intro h
    simp only [h]
    rfl
  · intro h
    cases hl : readyLoop n.Conditions with
    | false => rfl
    | true =>
      obtain ⟨c, hc, hr, _⟩ := (readyLoop_single _ hkeyed).mp hl
      exact absurd hr (h c hc)
  · intro c hc hcr hs
    cases hl : readyLoop n.Conditions with
    | false => rfl
    | true =>
      obtain ⟨d, hd, hdr, ht⟩ := (readyLoop_single _ hkeyed).mp hl
      rw [ready_unique n.Conditions hkeyed c d hc hd hcr hdr] at hs
      exact absurd ht hs

/-- The claim C19 on scenario 1: node-2 reports the single condition `Ready` with status
`True`, and the check returns `true`. -/
theorem IsNodeHealthy_iff_witness :
    Api.NodesGet ∉ scenarioOneWorld.failing ∧ "node-2" ≠ "" ∧
    scenarioOneWorld.nodes.find? (fun x => x.Name == "node-2") = some (plainNode "node-2") ∧
    ((plainNode "node-2").Conditions.filter (fun c => c.CondType == "Ready")).length ≤ 1 ∧
    (IsNodeHealthy scenarioOneWorld "node-2" true).1 = true ∧
    ((IsNodeHealthy scenarioOneWorld "node-2" true).1 = true ↔
      ∃ c ∈ (plainNode "node-2").Conditions, c.CondType = "Ready" ∧ c.Status = "True") :=
  ⟨by decide, by decide, by decide, by decide, by decide,
    (IsNodeHealthy_iff scenarioOneWorld "node-2" true (plainNode "node-2") (by decide)
      (by decide) (by decide) (by decide)).2.1⟩

/-! ## The status query `UpgradeStarted` -/

/-- Two cuts of a list of characters at a separator agree when the pieces of the second
cut do not hold the separator. -/
theorem cut_unique (sep : Char) (a b c d : List Char) (hc : sep ∉ c) (hd : sep ∉ d)
    (h : a ++ sep :: b = c ++ sep :: d) : a = c ∧ b = d := by
  induction a generalizing c with
  | nil =>
    cases c with
    | nil => simpa using h
    | cons x c' =>
      simp only [List.nil_append, List.cons_append, List.cons.injEq] at h
      exact absurd (h.1 ▸ List.mem_cons_self _ _) hc
  | cons y a' ih =>
    cases c with
    | nil =>
      simp only [List.cons_append, List.nil_append, List.cons.injEq] at h
      have : sep ∈ d := by
        rw [← h.2]
        simp
      exact absurd this hd
    | cons x c' =>
      simp only [List.cons_append, List.cons.injEq] at h
      have hc' : sep ∉ c' := fun hm => hc (List.mem_cons_of_mem _ hm)
      obtain ⟨e1, e2⟩ := ih c' hc' h.2
      exact ⟨by rw [h.1, e1], e2⟩

/-- The selector `key=state` names exactly the pair of `key` and `state`, when neither
holds the sign `=`. -/
theorem selector_eq_iff (k v key state : String) (hk : '=' ∉ key.data)
    (hs : '=' ∉ state.data) :
    k ++ "=" ++ v = key ++ "=" ++ state ↔ k = key ∧ v = state := by
  constructor
  · intro h
    have hdata := congrArg String.data h
    simp only [String.data_append] at hdata
    simp only [List.append_assoc, List.singleton_append] at hdata
    obtain ⟨e1, e2⟩ := cut_unique '=' k.data v.data key.data state.data hk hs hdata
    exact ⟨String.ext e1, String.ext e2⟩
  · rintro ⟨rfl, rfl⟩
    rfl

/-- The label selector of a node state matches the nodes that carry that state. -/
theorem matchesSelector_state (state : String) (hs : '=' ∉ state.data) (n : Node) :
    matchesSelector (getNodeStateLabel state) n = carriesState state n := by
  unfold matchesSelector carriesState getNodeStateLabel
  cases n.Labels with
  | none => rfl
  | some m =>
    simp only
    have hc : m.contains (NodeStateLabelKey, state) = true ↔ (NodeStateLabelKey, state) ∈ m := by
      simp
    rw [Bool.eq_iff_iff, hc, List.any_eq_true]
    constructor
    · rintro ⟨kv, hm, h⟩
      have h' : kv.1 ++ "=" ++ kv.2 = NodeStateLabelKey ++ "=" ++ state := by simpa using h
      obtain ⟨e1, e2⟩ :=
        (selector_eq_iff kv.1 kv.2 NodeStateLabelKey state (by decide) hs).mp h'
      have : kv = (NodeStateLabelKey, state) := Prod.ext e1 e2
      rw [← this]
      exact hm
    · intro hm
      exact ⟨(NodeStateLabelKey, state), hm, by simp⟩

/-- The count of the nodes under a label selector: the length of the filtered node list,
or the error of the list call. -/
theorem GetNodeCountByLabel_eq (w : World) (label : String) (ignore : Bool) :
    GetNodeCountByLabel w label ignore =
      if w.failing.contains Api.NodesList then (0, some ⟨"nodes list failed", false⟩)
      else (((w.nodes.filter (matchesSelector label)).length : Int), none) := by
  have hfilter : ∀ b, filterError none b = none := by
    intro b; cases b <;> rfl
  have hother : ∀ (m : String) (b : Bool), filterError (some ⟨m, false⟩) b = some ⟨m, false⟩ := by
    intro m b; cases b <;> rfl
  unfold GetNodeCountByLabel GetNodeByLabel nodesList
  by_cases h : w.failing.contains Api.NodesList = true
  · simp only [h, if_true, hother, Option.isSome_some]
  · simp only [h, if_false, hfilter, Option.isSome_none, Bool.false_eq_true]

/-- C20. Whenever both label queries succeed, `UpgradeStarted` returns the nil error, and
it returns `true` if and only if at least one node of the cluster carries the label
`dockyard.io/node-state=old` or `dockyard.io/node-state=new`. -/
theorem UpgradeStarted_iff (cfg : AsgRolloutConfig) (w : World) (asgName : String)
    (hold : (GetNodeCountByLabel w (getNodeStateLabel "old") cfg.IgnoreNotFound).2 = none)
    (hnew : (GetNodeCountByLabel w (getNodeStateLabel "new") cfg.IgnoreNotFound).2 = none) :
    (UpgradeStarted cfg w asgName).2 = none ∧
    ((UpgradeStarted cfg w asgName).1 = true ↔
      ∃ n ∈ w.nodes, carriesState "old" n = true ∨ carriesState "new" n = true) := by
  have hboth := And.intro hold hnew
  have hl : w.failing.contains Api.NodesList = false := by
    cases h : w.failing.contains Api.NodesList with
    | false => rfl
    | true =>
      rw [GetNodeCountByLabel_eq, GetNodeCountByLabel_eq, h] at hboth
      simp at hboth
  have e : ∀ state, '=' ∉ state.data →
      GetNodeCountByLabel w (getNodeStateLabel state) cfg.IgnoreNotFound =
        (((w.nodes.filter (carriesState state)).length : Int), none) := by
    intro state hs
    rw [GetNodeCountByLabel_eq, hl]
    simp only [Bool.false_eq_true, if_false]
    have : matchesSelector (getNodeStateLabel state) = carriesState state :=
      funext (matchesSelector_state state hs)
    rw [this]
  unfold UpgradeStarted
  rw [e "old" (by decide), e "new" (by decide)]
  simp only
  by_cases h0 : (w.nodes.filter (carriesState "old")).length = 0
  · by_cases h1 : (w.nodes.filter (carriesState "new")).length = 0
    · have c : (((w.nodes.filter (carriesState "old")).length : Int) == 0 &&
          ((w.nodes.filter (carriesState "new")).length : Int) == 0) = true := by
        rw [h0, h1]; rfl
      rw [c]
      refine ⟨rfl, ?_⟩
      simp only [if_true, Bool.false_eq_true, false_iff, not_exists, not_and, not_or]
      intro n hn
      have a0 := List.length_eq_zero.mp h0
      have a1 := List.length_eq_zero.mp h1
      rw [List.filter_eq_nil_iff] at a0 a1
      exact ⟨a0 n hn, a1 n hn⟩
    · have c : (((w.nodes.filter (carriesState "old")).length : Int) == 0 &&
          ((w.nodes.filter (carriesState "new")).length : Int) == 0) = false := by
        have : ¬ (((w.nodes.filter (carriesState "new")).length : Int) = 0) := by
          exact_mod_cast h1
        simp [this]
      rw [c]
      refine ⟨rfl, ?_⟩
      simp only [Bool.false_eq_true, if_false, true_iff]
      obtain ⟨n, hn⟩ := List.exists_mem_of_length_pos (Nat.pos_of_ne_zero h1)
      rw [List.mem_filter] at hn
      exact ⟨n, hn.1, Or.inr hn.2⟩
  · have c : (((w.nodes.filter (carriesState "old")).length : Int) == 0 &&
        ((w.nodes.filter (carriesState "new")).length : Int) == 0) = false := by
      have : ¬ (((w.nodes.filter (carriesState "old")).length : Int) = 0) := by
        exact_mod_cast h0
      simp [this]
    rw [c]
    refine ⟨rfl, ?_⟩
    simp only [Bool.false_eq_true, if_false, true_iff]
    obtain ⟨n, hn⟩ := List.exists_mem_of_length_pos (Nat.pos_of_ne_zero h0)
    rw [List.mem_filter] at hn
    exact ⟨n, hn.1, Or.inl hn.2⟩

/-- The claim C20 on scenario 1 after the preparation of a rollout, where the four nodes
carry the state `old`, and before it, where none carries a state. -/
theorem UpgradeStarted_iff_witness :
    (UpgradeStarted defaultConfig (PreRolloutStart defaultConfig "A" scenarioOneWorld).1 "A").1
      = true ∧
    ((UpgradeStarted defaultConfig (PreRolloutStart defaultConfig "A" scenarioOneWorld).1 "A").1
      = true ↔
      ∃ n ∈ (PreRolloutStart defaultConfig "A" scenarioOneWorld).1.nodes,
        carriesState "old" n = true ∨ carriesState "new" n = true) ∧
    UpgradeStarted defaultConfig scenarioOneWorld "A" = (false, none) :=
  ⟨by decide,
    (UpgradeStarted_iff defaultConfig (PreRolloutStart defaultConfig "A" scenarioOneWorld).1
      "A" (by decide) (by decide)).2,
    by decide⟩

/-! ## An empty answer of the describe call -/

/-- C15. On an account without any group the describe call succeeds with an empty list;
`getAsg` then indexes that list at 0 and panics, and so do `GetMinCount`, `GetMaxCount`,
`GetDesiredCount`, `GetInstancesOfAsg` and `GetAsgHealth`, for every name.  Only
`GetOldnNewInstancesOfAsg`, which tests the length first, returns the not-found error. -/
theorem getAsg_empty_answer_panics :
    (∀ asgName : String, DescribeAutoScalingGroups emptyAccount [asgName] = .ok []) ∧
    (∀ asgName : String,
      getAsg emptyAccount asgName = .panic "index out of range [0] with length 0") ∧
    (∀ asgName : String,
      GetMinCount emptyAccount asgName = .panic "index out of range [0] with length 0") ∧
    (∀ asgName : String,
      GetMaxCount emptyAccount asgName = .panic "index out of range [0] with length 0") ∧
    (∀ asgName : String,
      GetDesiredCount emptyAccount asgName = .panic "index out of range [0] with length 0") ∧
    (∀ asgName : String,
      GetInstancesOfAsg emptyAccount asgName = .panic "index out of range [0] with length 0") ∧
    (∀ asgName : String,
      GetAsgHealth emptyAccount asgName = .panic "index out of range [0] with length 0") ∧
    (∀ asgName : String, GetOldnNewInstancesOfAsg emptyAccount asgName =
      .ret ([], [], some ("no autoscaling group found with name " ++ asgName))) :=
  ⟨fun _ => rfl, fun _ => rfl, fun _ => rfl, fun _ => rfl, fun _ => rfl, fun _ => rfl,
    fun _ => rfl, fun _ => rfl⟩

/-! ## The wait for a new node -/

/-- C14. The timeout `rolloutNode` gives to the derived context is the configured number
taken as nanoseconds: 600 ns with the default configuration, not 600 s, which would be
`600 * 10 ^ 9`.  The derived context of a workflow started at instant 0 is done at
instant 600.  The pauses next to it are the configured numbers times `time.Second`. -/
theorem rolloutNodeTimeout_is_nanoseconds :
    (∀ cfg : AsgRolloutConfig, rolloutNodeTimeout cfg = cfg.NewNodeTimeout) ∧
    rolloutNodeTimeout defaultConfig = 600 ∧
    defaultConfig.NewNodeTimeout * 10 ^ 9 = 600000000000 ∧
    rolloutNodeTimeout defaultConfig ≠ defaultConfig.NewNodeTimeout * 10 ^ 9 ∧
    WithTimeout mainContext 0 (rolloutNodeTimeout defaultConfig) =
      ⟨some (600, .DeadlineExceeded)⟩ ∧
    newNodePollPeriod defaultConfig = 30 * 10 ^ 9 ∧
    afterBatchPeriod defaultConfig = 30 * 10 ^ 9 ∧
    readyPollPeriod defaultConfig = 30 * 10 ^ 9 ∧
    beforePostPeriod defaultConfig = 60 * 10 ^ 9 :=
  ⟨fun _ => rfl, by decide, by decide, by decide, by decide, by decide, by decide, by decide,
    by decide⟩

/-- C13. Under the context of `main`, which has no deadline and is not cancelled, and a
poller that finds no eligible node, the wait of `rolloutNode` never ends, whatever the
configured timeout: no error is sent on the error channel.  The derived context is done
at its deadline all the same, and a node found long after that deadline is accepted. -/
theorem rolloutNodeWait_not_bounded :
    (∀ (cfg : AsgRolloutConfig) (now : Nat) (pollerFirst : Bool),
      rolloutNodeWait cfg mainContext now stalledPoller pollerFirst = .blocked) ∧
    (WithTimeout mainContext 0 (rolloutNodeTimeout defaultConfig)).done =
      some (600, .DeadlineExceeded) ∧
    (∀ pollerFirst : Bool,
      rolloutNodeWait defaultConfig mainContext 0
        (pollerFinding (700 * 10 ^ 9) "node-5") pollerFirst = .proceeds "node-5" []) ∧
    (∀ pollerFirst : Bool,
      rolloutNodeWait defaultConfig ⟨some (600 * 10 ^ 9, .DeadlineExceeded)⟩ 0 stalledPoller
        pollerFirst = .proceeds "" ["unable to get new node, Timeout Exceeded"]) :=
  ⟨fun _ _ _ => rfl, by decide, fun _ => rfl, fun _ => rfl⟩

/-! ## Reading back a written number: `Atoi` after `Itoa` -/

/-- The step of `digitsToNat` on one character. -/
theorem digitChar_value (d : Nat) (h : d < 10) :
    (Nat.digitChar d).isDigit = true ∧ (Nat.digitChar d).toNat - 48 = d := by
  interval_cases d <;> exact ⟨by decide, by decide⟩

/-- Folding the digit step over the digits that `Nat.toDigitsCore` puts in front of `ds`
is folding it over `ds` from the number itself. -/
theorem foldl_toDigitsCore (f : Option Nat → Char → Option Nat)
    (hf : ∀ n c, f (some n) c = if c.isDigit then some (n * 10 + (c.toNat - 48)) else none) :
    ∀ (fuel n : Nat) (ds : List Char), n < fuel →
      (Nat.toDigitsCore 10 fuel n ds).foldl f (some 0) = ds.foldl f (some n) := by
  intro fuel
  induction fuel with
  | zero => intro n ds h; omega
  | succ fuel ih =>
    intro n ds h
    obtain ⟨h1, h2⟩ := digitChar_value (n % 10) (Nat.mod_lt _ (by decide))
    unfold Nat.toDigitsCore
    simp only
    by_cases h0 : n / 10 = 0
    · rw [if_pos h0, List.foldl_cons, hf, h1, if_pos rfl, h2]
      have : n % 10 = n := Nat.mod_eq_of_lt (by omega)
      rw [this, Nat.zero_mul, Nat.zero_add]
    · rw [if_neg h0, ih (n / 10) _ (by omega), List.foldl_cons, hf, h1, if_pos rfl, h2]
      have : n / 10 * 10 + n % 10 = n := by omega
      rw [this]

/-- The digits of a number are not the empty list. -/
theorem toDigitsCore_ne_nil : ∀ (fuel n : Nat) (ds : List Char), 0 < fuel →
    Nat.toDigitsCore 10 fuel n ds ≠ [] := by
  intro fuel
  induction fuel with
  | zero => intro n ds h; omega
  | succ fuel ih =>
    intro n ds _
    unfold Nat.toDigitsCore
    simp only
    by_cases h0 : n / 10 = 0
    · rw [if_pos h0]; simp
    · rw [if_neg h0]
      cases fuel with
      | zero => simp [Nat.toDigitsCore]
      | succ k => exact ih _ _ (by omega)

/-- The decimal digits of a number read back as that number. -/
theorem digitsToNat_toDigits (n : Nat) : digitsToNat (Nat.toDigits 10 n) = some n := by
  unfold digitsToNat Nat.toDigits
  have hne := toDigitsCore_ne_nil (n + 1) n [] (by omega)
  have hempty : (Nat.toDigitsCore 10 (n + 1) n []).isEmpty = false := by
    cases h : Nat.toDigitsCore 10 (n + 1) n [] with
    | nil => exact absurd h hne
    | cons _ _ => rfl
  rw [hempty]
  simp only [Bool.false_eq_true, if_false]
  rw [foldl_toDigitsCore _ (fun _ _ => rfl) (n + 1) n [] (by omega)]
  rfl

theorem foldl_digit_none (f : Option Nat → Char → Option Nat) (hf : ∀ c, f none c = none) :
    ∀ cs : List Char, cs.foldl f none = none := by
  intro cs
  induction cs with
  | nil => rfl
  | cons c rest ih => rw [List.foldl_cons, hf, ih]

theorem digitsToNat_not_digit (c : Char) (r : List Char) (hc : c.isDigit = false) :
    digitsToNat (c :: r) = none := by
  unfold digitsToNat
  simp only [List.isEmpty_cons, Bool.false_eq_true, if_false, List.foldl_cons, hc]
  exact foldl_digit_none _ (fun _ => rfl) r

theorem Atoi_of_digits (s : String) (n : Nat) (h : digitsToNat s.data = some n)
    (hn : n < 2 ^ 63) : Atoi s = ((n : Int), none) := by
  have hsigned : (match s.data with
      | '-' :: r => (true, r)
      | '+' :: r => (false, r)
      | _ => (false, s.data)) = (false, s.data) := by
    split
    · rename_i r hr
      rw [hr, digitsToNat_not_digit '-' r (by decide)] at h
      simp at h
    · rename_i r hr
      rw [hr, digitsToNat_not_digit '+' r (by decide)] at h
      simp at h
    · rfl
  unfold Atoi
  simp only
  rw [hsigned]
  simp only [h, Bool.false_eq_true, if_false]
  rw [if_pos hn]

theorem Atoi_of_minus (s : String) (r : List Char) (n : Nat) (hs : s.data = '-' :: r)
    (h : digitsToNat r = some n) (hn : n ≤ 2 ^ 63) : Atoi s = (-(n : Int), none) := by
  unfold Atoi
  simp only [hs, h, if_true]
  rw [if_pos hn]

theorem Atoi_Itoa (n : Int) (h0 : -(2 ^ 63) ≤ n) (h1 : n < 2 ^ 63) :
    Atoi (Itoa n) = (n, none) := by
  cases n with
  | ofNat m =>
    have hm : m < 2 ^ 63 := by
      have : (m : Int) < 2 ^ 63 := h1
      exact_mod_cast this
    exact Atoi_of_digits (Itoa (Int.ofNat m)) m (digitsToNat_toDigits m) hm
  | negSucc m =>
    have hm : m + 1 ≤ 2 ^ 63 := by
      have : -(2 ^ 63 : Int) ≤ Int.negSucc m := h0
      rw [Int.negSucc_eq] at this
      have h2 : ((m : Int) + 1) ≤ 2 ^ 63 := by omega
      exact_mod_cast h2
    have e := Atoi_of_minus (Itoa (Int.negSucc m)) (Nat.toDigits 10 (m + 1)) (m + 1) rfl
      (digitsToNat_toDigits (m + 1)) hm
    rw [e, Int.negSucc_eq]
    push_cast
    rfl

/-! ## The clean-up after a rollout -/

theorem RemoveLabel_sameCloud (w : World) (nodeName labelKey : String) (ignore : Bool) :
    sameCloud w (RemoveLabel w nodeName labelKey ignore).1 := by
  unfold RemoveLabel
  simp only
  split
  · exact sameCloud_refl w
  · exact nodesUpdate_sameCloud _ _

theorem UnCordonNode_sameCloud (w : World) (nodeName : String) (ignore : Bool) :
    sameCloud w (UnCordonNode w nodeName ignore).1 := by
  unfold UnCordonNode
  simp only
  split
  · exact sameCloud_refl w
  · exact nodesUpdate_sameCloud _ _

theorem removeLabels_sameCloud (cfg : AsgRolloutConfig) :
    ∀ (nodes : List Node) (w : World), sameCloud w (removeLabels cfg nodes w) := by
  intro nodes
  induction nodes with
  | nil => intro w; exact sameCloud_refl w
  | cons n rest ih =>
    intro w
    unfold removeLabels
    split
    · exact ih w
    · exact sameCloud_trans (RemoveLabel_sameCloud w _ _ _) (ih _)

theorem uncordonNodes_sameCloud (cfg : AsgRolloutConfig) :
    ∀ (names : List String) (w : World), sameCloud w (uncordonNodes cfg names w) := by
  intro names
  induction names with
  | nil => intro w; exact sameCloud_refl w
  | cons n rest ih =>
    intro w
    unfold uncordonNodes
    split
    · exact ih w
    · exact sameCloud_trans (UnCordonNode_sameCloud w _ _) (ih _)

theorem unprotectInstances_eq (asgName : String) :
    ∀ (insts : List String) (w : World), unprotectInstances asgName insts w = w := by
  intro insts
  induction insts with
  | nil => intro w; rfl
  | cons i rest ih =>
    intro w
    unfold unprotectInstances
    have : (RemoveInstanceScaleInProtection w i asgName).1 = w := by
      unfold RemoveInstanceScaleInProtection
      split <;> rfl
    rw [this]
    exact ih w

theorem DeleteTagOfAsg_none (w w1 : World) (asgName tagKey tagVal : String)
    (h : DeleteTagOfAsg w asgName tagKey tagVal = (w1, none)) :
    Api.DeleteTags ∉ w.failing ∧
      w1 = { w with tags :=
        w.tags.filter (fun t => !(t.ResourceId == asgName && t.Key == tagKey)) } := by
  unfold DeleteTagOfAsg at h
  split at h
  · simp at h
  · rename_i hc
    simp only [Prod.mk.injEq, and_true] at h
    exact ⟨by simpa using hc, h.symm⟩

/-- Deleting the three capacity tags one after the other leaves the tags that are not
capacity tags of the group. -/
theorem filter_capacity_tags (asgName : String) (tags : List TagDescription) :
    ((tags.filter (fun t => !(t.ResourceId == asgName && t.Key == "dockyard.io/min"))).filter
      (fun t => !(t.ResourceId == asgName && t.Key == "dockyard.io/max"))).filter
      (fun t => !(t.ResourceId == asgName && t.Key == "dockyard.io/desired")) =
    tags.filter (fun t => !isCapacityTag asgName t) := by
  rw [List.filter_filter, List.filter_filter]
  congr 1
  funext t
  unfold isCapacityTag
  cases (t.ResourceId == asgName) <;> cases (t.Key == "dockyard.io/min") <;>
    cases (t.Key == "dockyard.io/max") <;> cases (t.Key == "dockyard.io/desired") <;> rfl

/-- What the end of `PostRolloutStart` leaves of the group: its minimum and maximum. -/
theorem postRolloutFinish_ret (asgName : String) (rolloutSuccess : Bool) (w w' : World)
    (g : Group) (hg : w.groups.find? (fun x => x.AutoScalingGroupName == asgName) = some g)
    (h : postRolloutFinish asgName rolloutSuccess w = (w', .ret none)) :
    w'.tags = w.tags ∧ w'.failing = w.failing ∧ w'.nodes = w.nodes ∧
    ∃ g', w'.groups.find? (fun x => x.AutoScalingGroupName == asgName) = some g' ∧
      g'.MinSize = g.MinSize ∧ g'.MaxSize = g.MaxSize := by
  unfold postRolloutFinish at h
  split at h
  · simp at h
  · rename_i instances e hinst
    simp only [unprotectInstances_eq] at h
    cases rolloutSuccess with
    | true =>
      simp only [Bool.not_true, Bool.false_eq_true, if_false, Prod.mk.injEq, and_true] at h
      subst h
      exact ⟨rfl, rfl, rfl, g, hg, rfl, rfl⟩
    | false =>
      simp only [Bool.not_false, if_true, Prod.mk.injEq, and_true] at h
      subst h
      have ht := updateGroup_tags w Api.UpdateAutoScalingGroup asgName
        (fun g => { g with NewInstancesProtectedFromScaleIn := false })
      refine ⟨ht.1, ht.2.2.2.2, ht.2.1, ?_⟩
      unfold DisableNewInstanceProtection
      by_cases hc : Api.UpdateAutoScalingGroup ∈ w.failing
      · have hcb : w.failing.contains Api.UpdateAutoScalingGroup = true := by simpa using hc
        unfold updateGroup
        rw [if_pos hcb]
        exact ⟨g, hg, rfl, rfl⟩
      · have hu := updateGroup_of_find w Api.UpdateAutoScalingGroup asgName
          (fun g => { g with NewInstancesProtectedFromScaleIn := false }) g hc (fun _ => rfl) hg
        exact ⟨_, hu.2.2, rfl, rfl⟩

/-- A successful update of a group: the group existed, and is replaced by its image. -/
theorem updateGroup_none_find (w w' : World) (api : Api) (asgName : String)
    (f : Group → Group) (hf : ∀ x, (f x).AutoScalingGroupName = x.AutoScalingGroupName)
    (h : updateGroup w api asgName f = (w', none)) :
    w'.tags = w.tags ∧ w'.failing = w.failing ∧ w'.nodes = w.nodes ∧
    ∃ g, w.groups.find? (fun x => x.AutoScalingGroupName == asgName) = some g ∧
      w'.groups.find? (fun x => x.AutoScalingGroupName == asgName) = some (f g) := by
  have ht := updateGroup_tags w api asgName f
  rw [h] at ht
  refine ⟨ht.1, ht.2.2.2.2, ht.2.1, ?_⟩
  obtain ⟨hcall, _⟩ := updateGroup_none _ _ _ _ _ h
  cases hfind : w.groups.find? (fun x => x.AutoScalingGroupName == asgName) with
  | none =>
    have hany : w.groups.any (fun g => g.AutoScalingGroupName == asgName) = false := by
      rw [List.find?_eq_none] at hfind
      rw [List.any_eq_false]
      exact hfind
    have hc : w.failing.contains api = false := by simpa using hcall
    unfold updateGroup at h
    rw [hc, hany] at h
    simp at h
  | some g =>
    have hu := updateGroup_of_find w api asgName f g hcall hf hfind
    rw [h] at hu
    exact ⟨g, rfl, hu.2.2⟩

/-- What a successful run of the capacity part of `PostRolloutStart` went through. -/
theorem restoreCapacity_ret (asgName : String) (rolloutSuccess : Bool) (w w' : World)
    (h : restoreCapacity asgName rolloutSuccess w = (w', .ret none)) :
    ∃ minNodes maxNodes desiredNodes : Int,
      GetTagValueOfAsg w asgName "dockyard.io/min" = (minNodes, none) ∧
      GetTagValueOfAsg w asgName "dockyard.io/max" = (maxNodes, none) ∧
      GetTagValueOfAsg w asgName "dockyard.io/desired" = (desiredNodes, none) ∧
      w'.tags = w.tags.filter (fun t => !isCapacityTag asgName t) ∧
      w'.failing = w.failing ∧ w'.nodes = w.nodes ∧
      ∃ g', w'.groups.find? (fun x => x.AutoScalingGroupName == asgName) = some g' ∧
        g'.MinSize = minNodes ∧ g'.MaxSize = maxNodes := by
  unfold restoreCapacity at h
  split at h
  · simp at h
  · rename_i minNodes hmin
    split at h
    · simp at h
    · rename_i maxNodes hmax
      split at h
      · simp at h
      · rename_i desiredNodes hdes
        split at h
        · simp at h
        · rename_i w1 h1
          obtain ⟨_, rfl⟩ := DeleteTagOfAsg_none _ _ _ _ _ h1
          split at h
          · simp at h
          · rename_i w2 h2
            obtain ⟨_, rfl⟩ := DeleteTagOfAsg_none _ _ _ _ _ h2
            split at h
            · simp at h
            · rename_i w3 h3
              obtain ⟨_, rfl⟩ := DeleteTagOfAsg_none _ _ _ _ _ h3
              split at h
              · simp at h
              · rename_i w4 h4
                obtain ⟨t4, f4, n4, g, _, hg4⟩ :=
                  updateGroup_none_find _ _ Api.UpdateAutoScalingGroup asgName
                    (fun g => { g with MinSize := minNodes }) (fun _ => rfl) h4
                split at h
                · simp at h
                · rename_i w5 h5
                  obtain ⟨t5, f5, n5, g5, hg5, hg5'⟩ :=
                    updateGroup_none_find _ _ Api.UpdateAutoScalingGroup asgName
                      (fun g => { g with MaxSize := maxNodes }) (fun _ => rfl) h5
                  obtain ⟨t6, f6, n6, g', hg', hmin', hmax'⟩ :=
                    postRolloutFinish_ret asgName rolloutSuccess w5 w' _ hg5' h
                  refine ⟨minNodes, maxNodes, desiredNodes, hmin, hmax, hdes, ?_, ?_, ?_,
                    g', hg', ?_, ?_⟩
                  · rw [t6, t5, t4]
                    exact filter_capacity_tags asgName w.tags
                  · rw [f6, f5, f4]
                  · rw [n6, n5, n4]
                  · rw [hmin']
                    rw [hg4] at hg5
                    simp only [Option.some.injEq] at hg5
                    rw [← hg5]
                  · rw [hmax']

/-- What a successful run of `PostRolloutStart` went through: changes of the cluster
nodes, and then the capacity part. -/
theorem PostRolloutStart_ret (cfg : AsgRolloutConfig) (asgName : String)
    (rolloutSuccess : Bool) (w w' : World)
    (h : PostRolloutStart cfg asgName rolloutSuccess w = (w', .ret none)) :
    ∃ w2, sameCloud w w2 ∧ restoreCapacity asgName rolloutSuccess w2 = (w', .ret none) := by
  unfold PostRolloutStart at h
  split at h
  · simp at h
  · rename_i nodes hnew
    simp only at h
    split at h
    · simp at h
    · rename_i nodes2 hold
      split at h
      · simp at h
      · simp at h
      · rename_i inst hinst
        split at h
        · simp at h
        · rename_i names hnames
          refine ⟨_, ?_, h⟩
          exact sameCloud_trans (removeLabels_sameCloud cfg nodes w)
            (sameCloud_trans (removeLabels_sameCloud cfg nodes2 _)
              (uncordonNodes_sameCloud cfg names _))

/-! ## Capacity across runs of `StartRollout` -/

theorem raiseCapacity_frame (asgName : String) (batchSize : Int) (w : World) :
    (raiseCapacity asgName batchSize w).1.tags = w.tags ∧
      (raiseCapacity asgName batchSize w).1.failing = w.failing := by
  unfold raiseCapacity
  split
  · exact ⟨rfl, rfl⟩
  · exact ⟨rfl, rfl⟩
  · split
    · exact ⟨rfl, rfl⟩
    · exact ⟨rfl, rfl⟩
    · simp only
      unfold SetDesiredCount SetMinCount
      have h3 := fun u f => updateGroup_tags u Api.SetDesiredCapacity asgName f
      have h2 := fun u f => updateGroup_tags u Api.UpdateAutoScalingGroup asgName f
      constructor
      · rw [(h3 _ _).1, (h2 _ _).1]
        split
        · unfold SetMaxCount
          rw [(h2 _ _).1]
        · rfl
      · rw [(h3 _ _).2.2.2.2, (h2 _ _).2.2.2.2]
        split
        · unfold SetMaxCount
          rw [(h2 _ _).2.2.2.2]
        · rfl

theorem batchLoop_frame (cfg : AsgRolloutConfig) (run : Workflows) (asgName : String)
    (batchSize steps : Int)
    (hrun : ∀ w a ns lb, (run w a ns lb).world.tags = w.tags ∧
      (run w a ns lb).world.failing = w.failing) :
    ∀ (remaining : Nat) (i : Int) (lastBatch : Bool) (w : World) (batches : List (List String)),
      (batchLoop cfg run asgName batchSize steps remaining i lastBatch w batches).world.tags =
          w.tags ∧
        (batchLoop cfg run asgName batchSize steps remaining i lastBatch w batches).world.failing =
          w.failing := by
  intro remaining
  induction remaining with
  | zero => intro i lastBatch w batches; exact ⟨rfl, rfl⟩
  | succ remaining ih =>
    intro i lastBatch w batches
    unfold batchLoop
    simp only
    generalize (if (i == steps - 1) = true then true else lastBatch) = flag
    split
    · exact ⟨rfl, rfl⟩
    · split
      · exact ⟨rfl, rfl⟩
      · split
        · exact ⟨rfl, rfl⟩
        · rename_i started _
          split
          · exact hrun _ _ _ _
          · have h := ih (i + 1) flag (run w asgName started flag).world (batches ++ [started])
            have hr := hrun w asgName started flag
            exact ⟨h.1.trans hr.1, h.2.trans hr.2⟩

/-- A run of `StartRollout` that returns the nil error has run `PreRolloutStart` with the
nil error and has left the tags and the failing calls as `PreRolloutStart` left them. -/
theorem StartRollout_ret_frame (cfg : AsgRolloutConfig) (run : Workflows) (asgName : String)
    (batchSize : Int) (w : World)
    (hrun : ∀ w a ns lb, (run w a ns lb).world.tags = w.tags ∧
      (run w a ns lb).world.failing = w.failing)
    (h : (StartRollout cfg run asgName batchSize w).result = .ret none) :
    ∃ w1, PreRolloutStart cfg asgName w = (w1, .ret none) ∧
      (StartRollout cfg run asgName batchSize w).world.tags = w1.tags ∧
      (StartRollout cfg run asgName batchSize w).world.failing = w1.failing := by
  unfold StartRollout at h ⊢
  split at h
  · simp at h
  · simp at h
  · rename_i old new hcl
    simp only [hcl] at h ⊢
    split at h
    · simp at h
    · simp at h
    · rename_i w1 hpre
      refine ⟨w1, hpre, ?_⟩
      by_cases hb : (batchSize == 0) = true
      · rw [if_pos hb] at h
        simp at h
      · rw [if_neg hb] at h ⊢
        have hf := raiseCapacity_frame asgName batchSize w1
        rcases hraise : raiseCapacity asgName batchSize w1 with ⟨w2, res⟩
        rw [hraise] at h hf
        cases res with
        | panic m => simp at h
        | ret e =>
          cases e with
          | some e => simp at h
          | none =>
            simp only
            have hl := batchLoop_frame cfg run asgName batchSize
              (Int.tdiv (old.length : Int) batchSize) hrun
              (Int.tdiv (old.length : Int) batchSize).toNat 0 false w2 []
            exact ⟨hl.1.trans hf.1, hl.2.trans hf.2⟩

/-- The tags and the failing calls that a successful `PreRolloutStart` leaves. -/
theorem PreRolloutStart_tags (cfg : AsgRolloutConfig) (asgName : String) (w w' : World)
    (hrun : PreRolloutStart cfg asgName w = (w', .ret none)) :
    ∃ g, getAsg w asgName = .ret (some g, none) ∧
      w'.tags =
        (if (GetTagValueOfAsg w asgName "dockyard.io/desired").1 = 0 then
          withCapacityTags asgName g w.tags
        else w.tags) ∧
      w'.failing = w.failing := by
  obtain ⟨old, new, w1, w2, _, h1, h2, hcap⟩ := PreRolloutStart_ret _ _ _ _ hrun
  have s1 := labelInstances_sameCloud cfg "new" new w
  rw [h1] at s1
  have s2 := labelInstances_sameCloud cfg "old" old w1
  rw [h2] at s2
  have s := sameCloud_trans s1 s2
  obtain ⟨g, w3, w4, names, hg, htags, _, hcordon, hprot⟩ :=
    preRolloutCapacity_ret _ _ _ _ hcap
  have s4 := cordonNodes_sameCloud cfg names w3
  rw [hcordon] at s4
  have s5 := updateGroup_tags w4 Api.UpdateAutoScalingGroup asgName protectNew
  unfold EnableNewInstanceProtection at hprot
  rw [hprot] at s5
  rw [GetTagValueOfAsg_congr w w2 asgName _ s.2.1 s.2.2.2.2] at htags
  refine ⟨g, ?_, ?_, ?_⟩
  · rw [← getAsg_congr w w2 asgName s.1 s.2.2.2.2]
    exact hg
  · rw [s5.1, s4.2.1]
    by_cases hz : (GetTagValueOfAsg w asgName "dockyard.io/desired").1 = 0
    · rw [if_pos hz]
      have hz2 : ((GetTagValueOfAsg w asgName "dockyard.io/desired").1 == 0) = true := by
        simpa using hz
      rw [hz2] at htags
      simp only [if_true] at htags
      obtain ⟨_, rfl⟩ := storeCapacityTags_none _ _ _ _ htags
      simp only
      rw [s.2.1]
    · rw [if_neg hz]
      have hz2 : ((GetTagValueOfAsg w asgName "dockyard.io/desired").1 == 0) = false := by
        simpa using hz
      rw [hz2] at htags
      simp only [Bool.false_eq_true, if_false, Prod.mk.injEq, and_true] at htags
      rw [← htags, s.2.1]
  · rw [s5.2.2.2.2, s4.2.2.2.2]
    by_cases hz : ((GetTagValueOfAsg w asgName "dockyard.io/desired").1 == 0) = true
    · rw [hz] at htags
      simp only [if_true] at htags
      obtain ⟨_, rfl⟩ := storeCapacityTags_none _ _ _ _ htags
      exact s.2.2.2.2
    · rw [if_neg hz] at htags
      simp only [Prod.mk.injEq, and_true] at htags
      rw [← htags]
      exact s.2.2.2.2

/-- The loop of `GetTagValueOfAsg` over the tags of a group reads the first tag of the
group with that key. -/
theorem tagValueLoop_filter (asgName key : String) :
    ∀ tags : List TagDescription,
      tagValueLoop key (tags.filter (fun t => t.ResourceId == asgName)) =
        (firstTag asgName key tags).map (fun t => (Atoi t.Value).1) := by
  intro tags
  induction tags with
  | nil => rfl
  | cons t rest ih =>
    unfold firstTag at ih ⊢
    cases hr : (t.ResourceId == asgName)
    · rw [List.filter_cons, hr, List.find?_cons, hr]
      simpa using ih
    · rw [List.filter_cons, hr]
      simp only [if_true]
      unfold tagValueLoop
      rw [List.find?_cons, hr]
      cases hk : (t.Key == key)
      · simpa using ih
      · simp

theorem GetTagValueOfAsg_firstTag (w : World) (asgName key : String) (t : TagDescription)
    (hcall : Api.DescribeTags ∉ w.failing) (h : firstTag asgName key w.tags = some t) :
    GetTagValueOfAsg w asgName key = ((Atoi t.Value).1, none) := by
  have hc : w.failing.contains Api.DescribeTags = false := by simpa using hcall
  unfold GetTagValueOfAsg DescribeTags
  rw [hc]
  simp only [Bool.false_eq_true, if_false]
  rw [tagValueLoop_filter, h]
  rfl

theorem GetTagValueOfAsg_absent (w : World) (asgName key : String)
    (h : firstTag asgName key w.tags = none) : (GetTagValueOfAsg w asgName key).1 = 0 := by
  unfold GetTagValueOfAsg DescribeTags
  split
  · rfl
  · rename_i tags htags
    split at htags
    · simp at htags
    · simp only [Except.ok.injEq] at htags
      rw [← htags, tagValueLoop_filter, h]
      rfl

theorem firstTag_putTag_self (asgName key v : String) (tags : List TagDescription) :
    firstTag asgName key (putTag asgName key v tags) = some ⟨asgName, key, v⟩ := by
  unfold firstTag putTag
  exact find_upsertFirst_self _ _ (by simp) tags

theorem firstTag_putTag_other (asgName key other v : String) (tags : List TagDescription)
    (h : other ≠ key) :
    firstTag asgName key (putTag asgName other v tags) = firstTag asgName key tags := by
  unfold firstTag putTag
  refine find_upsertFirst_other _ _ _ ?_ ?_ tags
  · simpa using h
  · intro z hz
    simp only [Bool.and_eq_true, beq_iff_eq] at hz
    simp only [Bool.and_eq_false_imp, beq_iff_eq, beq_eq_false_iff_ne, ne_eq]
    intro _
    rw [hz.2]
    exact h

theorem storesCapacity_withCapacityTags (asgName : String) (g : Group)
    (tags : List TagDescription) : storesCapacity asgName g (withCapacityTags asgName g tags) := by
  unfold storesCapacity withCapacityTags
  refine ⟨?_, ?_, ?_⟩
  · rw [firstTag_putTag_other _ _ _ _ _ (by decide), firstTag_putTag_other _ _ _ _ _ (by decide),
      firstTag_putTag_self]
  · rw [firstTag_putTag_other _ _ _ _ _ (by decide), firstTag_putTag_self]
  · rw [firstTag_putTag_self]

/-- With the capacity of `g` stored in the tags, the three reads return it. -/
theorem storesCapacity_reads (w : World) (asgName : String) (g : Group)
    (hcall : Api.DescribeTags ∉ w.failing) (hs : storesCapacity asgName g w.tags)
    (hmin : inInt64 g.MinSize) (hmax : inInt64 g.MaxSize) (hdes : inInt64 g.DesiredCapacity) :
    GetTagValueOfAsg w asgName "dockyard.io/min" = (g.MinSize, none) ∧
    GetTagValueOfAsg w asgName "dockyard.io/max" = (g.MaxSize, none) ∧
    GetTagValueOfAsg w asgName "dockyard.io/desired" = (g.DesiredCapacity, none) := by
  refine ⟨?_, ?_, ?_⟩
  · rw [GetTagValueOfAsg_firstTag w asgName _ _ hcall hs.1]
    simp only [Atoi_Itoa _ hmin.1 hmin.2]
  · rw [GetTagValueOfAsg_firstTag w asgName _ _ hcall hs.2.1]
    simp only [Atoi_Itoa _ hmax.1 hmax.2]
  · rw [GetTagValueOfAsg_firstTag w asgName _ _ hcall hs.2.2]
    simp only [Atoi_Itoa _ hdes.1 hdes.2]

/-- The first run on a group without capacity tags stores the capacity of the group. -/
theorem StartRollout_first_run (cfg : AsgRolloutConfig) (run : Workflows) (asgName : String)
    (batchSize : Int) (w0 : World) (g0 : Group)
    (hrun : ∀ w a ns lb, (run w a ns lb).world.tags = w.tags ∧
      (run w a ns lb).world.failing = w.failing)
    (hcalls : w0.failing = [])
    (hgroup : w0.groups.find? (fun x => x.AutoScalingGroupName == asgName) = some g0)
    (hnotags : ∀ t ∈ w0.tags, isCapacityTag asgName t = false)
    (h : (StartRollout cfg run asgName batchSize w0).result = .ret none) :
    storesCapacity asgName g0 (StartRollout cfg run asgName batchSize w0).world.tags ∧
      (StartRollout cfg run asgName batchSize w0).world.failing = [] := by
  obtain ⟨w1, hpre, ht, hf⟩ := StartRollout_ret_frame cfg run asgName batchSize w0 hrun h
  obtain ⟨g, hg, htags, hfail⟩ := PreRolloutStart_tags cfg asgName w0 w1 hpre
  have hgg : g = g0 := by
    have := (getAsg_find w0 asgName g hg).2
    rw [hgroup] at this
    exact (Option.some.inj this).symm
  subst hgg
  have habsent : firstTag asgName "dockyard.io/desired" w0.tags = none := by
    unfold firstTag
    rw [List.find?_eq_none]
    intro t ht hp
    have hc := hnotags t ht
    unfold isCapacityTag at hc
    simp only [Bool.and_eq_true, beq_iff_eq] at hp
    simp [hp.1, hp.2] at hc
  rw [if_pos (GetTagValueOfAsg_absent w0 asgName _ habsent)] at htags
  rw [ht, hf, htags, hfail]
  exact ⟨storesCapacity_withCapacityTags asgName g w0.tags, hcalls⟩

/-- A later run on a group whose stored desired capacity is not 0 leaves the stored
capacity as it is. -/
theorem StartRollout_keeps_capacity (cfg : AsgRolloutConfig) (run : Workflows)
    (asgName : String) (batchSize : Int) (w : World) (g0 : Group)
    (hrun : ∀ w a ns lb, (run w a ns lb).world.tags = w.tags ∧
      (run w a ns lb).world.failing = w.failing)
    (hcalls : w.failing = []) (hs : storesCapacity asgName g0 w.tags)
    (hmin : inInt64 g0.MinSize) (hmax : inInt64 g0.MaxSize)
    (hdes : inInt64 g0.DesiredCapacity) (hd : g0.DesiredCapacity ≠ 0)
    (h : (StartRollout cfg run asgName batchSize w).result = .ret none) :
    storesCapacity asgName g0 (StartRollout cfg run asgName batchSize w).world.tags ∧
      (StartRollout cfg run asgName batchSize w).world.failing = [] := by
  obtain ⟨w1, hpre, ht, hf⟩ := StartRollout_ret_frame cfg run asgName batchSize w hrun h
  obtain ⟨g, _, htags, hfail⟩ := PreRolloutStart_tags cfg asgName w w1 hpre
  have hcall : Api.DescribeTags ∉ w.failing := by rw [hcalls]; simp
  have hread := (storesCapacity_reads w asgName g0 hcall hs hmin hmax hdes).2.2
  rw [hread] at htags
  rw [if_neg hd] at htags
  rw [ht, hf, htags, hfail]
  exact ⟨hs, hcalls⟩

/-- Any number of later runs leaves the stored capacity as it is. -/
theorem rolloutRuns_keeps_capacity (cfg : AsgRolloutConfig) (run : Workflows)
    (asgName : String) (batchSize : Int) (g0 : Group)
    (hrun : ∀ w a ns lb, (run w a ns lb).world.tags = w.tags ∧
      (run w a ns lb).world.failing = w.failing)
    (hmin : inInt64 g0.MinSize) (hmax : inInt64 g0.MaxSize)
    (hdes : inInt64 g0.DesiredCapacity) (hd : g0.DesiredCapacity ≠ 0) :
    ∀ (k : Nat) (w wn : World), w.failing = [] → storesCapacity asgName g0 w.tags →
      rolloutRuns cfg run asgName batchSize k w = some wn →
      storesCapacity asgName g0 wn.tags ∧ wn.failing = [] := by
  intro k
  induction k with
  | zero =>
    intro w wn hcalls hs h
    simp only [rolloutRuns, Option.some.injEq] at h
    subst h
    exact ⟨hs, hcalls⟩
  | succ k ih =>
    intro w wn hcalls hs h
    unfold rolloutRuns at h
    simp only at h
    by_cases hres : (StartRollout cfg run asgName batchSize w).result = .ret none
    · rw [if_pos hres] at h
      obtain ⟨hs1, hc1⟩ := StartRollout_keeps_capacity cfg run asgName batchSize w g0 hrun
        hcalls hs hmin hmax hdes hd hres
      exact ih _ wn hc1 hs1 h
    · rw [if_neg hres] at h
      simp at h

/-- The clean-up on a group whose tags store the capacity of `g0` sets the minimum and the
maximum of the group to those of `g0`. -/
theorem PostRolloutStart_of_stored (cfg : AsgRolloutConfig) (asgName : String)
    (rolloutSuccess : Bool) (w w' : World) (g0 : Group)
    (hcalls : w.failing = []) (hs : storesCapacity asgName g0 w.tags)
    (hmin : inInt64 g0.MinSize) (hmax : inInt64 g0.MaxSize)
    (hdes : inInt64 g0.DesiredCapacity)
    (hpost : PostRolloutStart cfg asgName rolloutSuccess w = (w', .ret none)) :
    GetMinCount w' asgName = .ret (g0.MinSize, none) ∧
      GetMaxCount w' asgName = .ret (g0.MaxSize, none) := by
  obtain ⟨w2, hsame, hcap⟩ := PostRolloutStart_ret cfg asgName rolloutSuccess w w' hpost
  obtain ⟨minNodes, maxNodes, desiredNodes, rmin, rmax, _, _, hfail, _, g', hg', emin, emax⟩ :=
    restoreCapacity_ret asgName rolloutSuccess w2 w' hcap
  have hcall : Api.DescribeTags ∉ w.failing := by rw [hcalls]; simp
  have hreads := storesCapacity_reads w asgName g0 hcall hs hmin hmax hdes
  rw [GetTagValueOfAsg_congr w w2 asgName _ hsame.2.1 hsame.2.2.2.2, hreads.1] at rmin
  rw [GetTagValueOfAsg_congr w w2 asgName _ hsame.2.1 hsame.2.2.2.2, hreads.2.1] at rmax
  simp only [Prod.mk.injEq, and_true] at rmin rmax
  have hdesc : Api.DescribeAutoScalingGroups ∉ w'.failing := by
    rw [hfail, hsame.2.2.2.2, hcalls]; simp
  have hasg := getAsg_of_find w' asgName g' hdesc hg'
  unfold GetMinCount GetMaxCount
  rw [hasg]
  simp only [emin, emax, ← rmin, ← rmax]
  exact ⟨trivial, trivial⟩

/-- C12, counterexample.  After the preparation of a rollout on scenario 1 the group
carries the three capacity tags with the values 4, 6 and 4.  `PostRolloutStart` with
`rolloutSuccess = false` returns the nil error and leaves none of them. -/
theorem PostRolloutStart_failure_deletes_tags :
    (PreRolloutStart defaultConfig "A" scenarioOneWorld).1.tags =
      [⟨"A", "dockyard.io/min", "4"⟩, ⟨"A", "dockyard.io/max", "6"⟩,
        ⟨"A", "dockyard.io/desired", "4"⟩] ∧
    (PostRolloutStart defaultConfig "A" false
      (PreRolloutStart defaultConfig "A" scenarioOneWorld).1).2 = .ret none ∧
    (PostRolloutStart defaultConfig "A" false
      (PreRolloutStart defaultConfig "A" scenarioOneWorld).1).1.tags = [] := by
  decide

/-- The end of `PostRolloutStart` with `rolloutSuccess = false` is its end with `true`
followed by the call that disables the protection of new instances, when that end returns
nil, and is the same end otherwise. -/
theorem postRolloutFinish_runs (asgName : String) (w : World) :
    (∃ ws, postRolloutFinish asgName true w = (ws, .ret none) ∧
      postRolloutFinish asgName false w =
        ((DisableNewInstanceProtection ws asgName).1, .ret none)) ∨
    (postRolloutFinish asgName false w = postRolloutFinish asgName true w ∧
      (postRolloutFinish asgName true w).2 ≠ .ret none) := by
  unfold postRolloutFinish
  rcases GetInstancesOfAsg w asgName with ⟨instances, e⟩ | m
  · left
    exact ⟨unprotectInstances asgName instances w, rfl, rfl⟩
  · right
    exact ⟨rfl, by simp⟩

/-- The capacity part of `PostRolloutStart` with `rolloutSuccess = false` and with `true`,
related as in `postRolloutFinish_runs`. -/
theorem restoreCapacity_runs (asgName : String) (w : World) :
    (∃ ws, restoreCapacity asgName true w = (ws, .ret none) ∧
      restoreCapacity asgName false w =
        ((DisableNewInstanceProtection ws asgName).1, .ret none)) ∨
    (restoreCapacity asgName false w = restoreCapacity asgName true w ∧
      (restoreCapacity asgName true w).2 ≠ .ret none) := by
  unfold restoreCapacity
  rcases GetTagValueOfAsg w asgName "dockyard.io/min" with ⟨minNodes, _ | e⟩
  swap
  · right; exact ⟨rfl, by simp⟩
  dsimp only
  rcases GetTagValueOfAsg w asgName "dockyard.io/max" with ⟨maxNodes, _ | e⟩
  swap
  · right; exact ⟨rfl, by simp⟩
  dsimp only
  rcases GetTagValueOfAsg w asgName "dockyard.io/desired" with ⟨desiredNodes, _ | e⟩
  swap
  · right; exact ⟨rfl, by simp⟩
  dsimp only
  rcases DeleteTagOfAsg w asgName "dockyard.io/min" (Itoa minNodes) with ⟨w1, _ | e⟩
  swap
  · right; exact ⟨rfl, by simp⟩
  dsimp only
  rcases DeleteTagOfAsg w1 asgName "dockyard.io/max" (Itoa maxNodes) with ⟨w2, _ | e⟩
  swap
  · right; exact ⟨rfl, by simp⟩
  dsimp only
  rcases DeleteTagOfAsg w2 asgName "dockyard.io/desired" (Itoa desiredNodes) with ⟨w3, _ | e⟩
  swap
  · right; exact ⟨rfl, by simp⟩
  dsimp only
  rcases SetMinCount w3 asgName minNodes with ⟨w4, _ | e⟩
  swap
  · right; exact ⟨rfl, by simp⟩
  dsimp only
  rcases SetMaxCount w4 asgName maxNodes with ⟨w5, _ | e⟩
  swap
  · right; exact ⟨rfl, by simp⟩
  dsimp only
  exact postRolloutFinish_runs asgName w5

/-- The run of `PostRolloutStart` with `rolloutSuccess = false` is its run with `true`
followed by the call that disables the protection of new instances, when that run returns
nil, and is the same run otherwise. -/
theorem PostRolloutStart_runs (cfg : AsgRolloutConfig) (asgName : String) (w : World) :
    (∃ ws, PostRolloutStart cfg asgName true w = (ws, .ret none) ∧
      PostRolloutStart cfg asgName false w =
        ((DisableNewInstanceProtection ws asgName).1, .ret none)) ∨
    (PostRolloutStart cfg asgName false w = PostRolloutStart cfg asgName true w ∧
      (PostRolloutStart cfg asgName true w).2 ≠ .ret none) := by
  unfold PostRolloutStart
  rcases GetNodeByLabel w (getNodeStateLabel "new") cfg.IgnoreNotFound with ⟨nodes, _ | e⟩
  swap
  · right; exact ⟨rfl, by simp⟩
  simp only
  rcases GetNodeByLabel (removeLabels cfg nodes w) (getNodeStateLabel "old")
    cfg.IgnoreNotFound with ⟨nodes2, _ | e⟩
  swap
  · right; exact ⟨rfl, by simp⟩
  simp only
  rcases GetInstancesOfAsg (removeLabels cfg nodes2 (removeLabels cfg nodes w)) asgName with
    ⟨inst, _ | e⟩ | m
  · simp only
    rcases postNodeNames (removeLabels cfg nodes2 (removeLabels cfg nodes w)) inst [] with
      names | m
    · exact restoreCapacity_runs asgName _
    · right; exact ⟨rfl, by simp⟩
  · right; exact ⟨rfl, by simp⟩
  · right; exact ⟨rfl, by simp⟩

/-- A run of `PostRolloutStart` that returns nil, whatever `rolloutSuccess` is, comes with
a run with `true` that returns nil, and the run with `false` is that run followed by the
call that disables the protection of new instances. -/
theorem PostRolloutStart_pair (cfg : AsgRolloutConfig) (asgName : String)
    (rolloutSuccess : Bool) (w w' : World)
    (h : PostRolloutStart cfg asgName rolloutSuccess w = (w', .ret none)) :
    ∃ ws, PostRolloutStart cfg asgName true w = (ws, .ret none) ∧
      PostRolloutStart cfg asgName false w =
        ((DisableNewInstanceProtection ws asgName).1, .ret none) := by
  rcases PostRolloutStart_runs cfg asgName w with hpair | ⟨hsame, hne⟩
  · exact hpair
  · exfalso
    cases rolloutSuccess with
    | true => rw [h] at hne; exact hne rfl
    | false => rw [← hsame, h] at hne; exact hne rfl

/-- C12, amended.  When `PostRolloutStart` returns the nil error, with
`rolloutSuccess = false` as with `true`, the tags it leaves are the tags it found without
the three capacity tags of the group: none of `dockyard.io/min`, `dockyard.io/max` and
`dockyard.io/desired` is present any more, and every other tag is kept.  The minimum and
the maximum of the group are the values it read from the tags.  The run with
`rolloutSuccess = false` is the run with `true` followed by one more call,
`DisableNewInstanceProtection`, whose error is not returned: that call leaves the tags,
the nodes, the instances and the fault set as they are, and the groups either as they are
(when the call fails) or with the protection of new instances switched off on the group
`asgName` and nothing else changed; when the call is not failing the protection of the
group is off after the run. -/
theorem PostRolloutStart_deletes_tags (cfg : AsgRolloutConfig) (asgName : String)
    (rolloutSuccess : Bool) (w w' : World)
    (h : PostRolloutStart cfg asgName rolloutSuccess w = (w', .ret none)) :
    w'.tags = w.tags.filter (fun t => !isCapacityTag asgName t) ∧
    (∀ t ∈ w'.tags, isCapacityTag asgName t = false) ∧
    (∃ g', w'.groups.find? (fun x => x.AutoScalingGroupName == asgName) = some g' ∧
      g'.MinSize = (GetTagValueOfAsg w asgName "dockyard.io/min").1 ∧
      g'.MaxSize = (GetTagValueOfAsg w asgName "dockyard.io/max").1) ∧
    ∃ ws wf, PostRolloutStart cfg asgName true w = (ws, .ret none) ∧
      PostRolloutStart cfg asgName false w = (wf, .ret none) ∧
      wf = (DisableNewInstanceProtection ws asgName).1 ∧
      wf.tags = ws.tags ∧ wf.nodes = ws.nodes ∧ wf.reservations = ws.reservations ∧
      wf.failing = ws.failing ∧
      (wf.groups = ws.groups ∨
        wf.groups = overGroup asgName
          (fun g => { g with NewInstancesProtectedFromScaleIn := false }) ws.groups) ∧
      (Api.UpdateAutoScalingGroup ∉ ws.failing →
        ∃ gs, ws.groups.find? (fun x => x.AutoScalingGroupName == asgName) = some gs ∧
          wf.groups.find? (fun x => x.AutoScalingGroupName == asgName) =
            some { gs with NewInstancesProtectedFromScaleIn := false }) := by
  have tagsOf : ∀ (b : Bool) (u : World), PostRolloutStart cfg asgName b w = (u, .ret none) →
      u.tags = w.tags.filter (fun t => !isCapacityTag asgName t) ∧
      ∃ g', u.groups.find? (fun x => x.AutoScalingGroupName == asgName) = some g' ∧
        g'.MinSize = (GetTagValueOfAsg w asgName "dockyard.io/min").1 ∧
        g'.MaxSize = (GetTagValueOfAsg w asgName "dockyard.io/max").1 := by
    intro b u hu
    obtain ⟨w2, hsame, hcap⟩ := PostRolloutStart_ret cfg asgName b w u hu
    obtain ⟨minNodes, maxNodes, desiredNodes, rmin, rmax, _, htags, _, _, g', hg', emin,
      emax⟩ := restoreCapacity_ret asgName b w2 u hcap
    rw [GetTagValueOfAsg_congr w w2 asgName _ hsame.2.1 hsame.2.2.2.2] at rmin rmax
    rw [hsame.2.1] at htags
    refine ⟨htags, g', hg', ?_, ?_⟩
    · rw [rmin]; exact emin
    · rw [rmax]; exact emax
  obtain ⟨htags, hgroup⟩ := tagsOf rolloutSuccess w' h
  obtain ⟨ws, htrue, hfalse⟩ := PostRolloutStart_pair cfg asgName rolloutSuccess w w' h
  refine ⟨htags, ?_, hgroup, ws, _, htrue, hfalse, rfl, ?_⟩
  · intro t ht
    rw [htags] at ht
    simpa using (List.mem_filter.mp ht).2
  · have hframe := updateGroup_tags ws Api.UpdateAutoScalingGroup asgName
      (fun g => { g with NewInstancesProtectedFromScaleIn := false })
    refine ⟨hframe.1, hframe.2.1, hframe.2.2.1, hframe.2.2.2.2, ?_, ?_⟩
    · unfold DisableNewInstanceProtection updateGroup
      split
      · left; rfl
      · split
        · right; rfl
        · left; rfl
    · intro hcall
      obtain ⟨_, gs, hgs, _, _⟩ := tagsOf true ws htrue
      exact ⟨gs, hgs, (updateGroup_of_find ws Api.UpdateAutoScalingGroup asgName
        (fun g => { g with NewInstancesProtectedFromScaleIn := false }) gs hcall
        (fun _ => rfl) hgs).2.2⟩

set_option maxRecDepth 10000 in
/-- The amended claim C12 on scenario 1 after the preparation of a rollout, with
`rolloutSuccess = false`: the three tags are gone, and the run differs from the run with
`true` in the protection of new instances, which it leaves switched off. -/
theorem PostRolloutStart_deletes_tags_witness :
    PostRolloutStart defaultConfig "A" false (PreRolloutStart defaultConfig "A" scenarioOneWorld).1 =
      ((PostRolloutStart defaultConfig "A" false
        (PreRolloutStart defaultConfig "A" scenarioOneWorld).1).1, .ret none) ∧
    (PostRolloutStart defaultConfig "A" false
      (PreRolloutStart defaultConfig "A" scenarioOneWorld).1).1.tags =
      (PreRolloutStart defaultConfig "A" scenarioOneWorld).1.tags.filter
        (fun t => !isCapacityTag "A" t) ∧
    (PostRolloutStart defaultConfig "A" true
      (PreRolloutStart defaultConfig "A" scenarioOneWorld).1).1.groups.map
        (fun g => g.NewInstancesProtectedFromScaleIn) = [true] ∧
    (PostRolloutStart defaultConfig "A" false
      (PreRolloutStart defaultConfig "A" scenarioOneWorld).1).1.groups.map
        (fun g => g.NewInstancesProtectedFromScaleIn) = [false] :=
  ⟨Prod.ext rfl (by decide),
    (PostRolloutStart_deletes_tags defaultConfig "A" false
      (PreRolloutStart defaultConfig "A" scenarioOneWorld).1
      (PostRolloutStart defaultConfig "A" false
        (PreRolloutStart defaultConfig "A" scenarioOneWorld).1).1
      (Prod.ext rfl (by decide))).1, by decide, by decide⟩

/-- C11, counterexample.  The group of `zeroDesiredWorld` has min 0, desired 0, max 3 and
no capacity tag.  After two runs of `StartRollout` with batch size 1, each returning the
nil error, and `PostRolloutStart`, every call succeeding, its minimum is 1, not 0: the
first run stores a desired capacity of 0, and the second run takes that value for the
absence of the tags and stores the capacity the first run had raised. -/
theorem PostRolloutStart_after_two_runs_from_zero :
    GetMinCount zeroDesiredWorld "A" = .ret (0, none) ∧
    zeroDesiredWorld.tags = [] ∧ zeroDesiredWorld.failing = [] ∧
    (rolloutRuns defaultConfig terminatingWorkflows "A" 1 2 zeroDesiredWorld).map
      (fun wn => ((PostRolloutStart defaultConfig "A" true wn).2,
        GetMinCount (PostRolloutStart defaultConfig "A" true wn).1 "A",
        GetMaxCount (PostRolloutStart defaultConfig "A" true wn).1 "A")) =
      some (.ret none, .ret (1, none), .ret (3, none)) := by
  decide

/-- C11, amended.  For every initial capacity of the group, within `int64`, with no
capacity tag present, and every batch size: after `n ≥ 1` runs of `StartRollout` that each
return the nil error, followed by a `PostRolloutStart` that returns the nil error, with
all calls succeeding and the workflows of the batches leaving the tags alone, the minimum
of the group is `min0` and its maximum is `max0`, provided the initial desired capacity
is not 0 or there was a single run. -/
theorem PostRolloutStart_restores_capacity (cfg : AsgRolloutConfig) (run : Workflows)
    (asgName : String) (batchSize : Int) (n : Nat) (rolloutSuccess : Bool)
    (w0 wn w' : World) (g0 : Group)
    (hn : 1 ≤ n)
    (hcalls : w0.failing = [])
    (hgroup : w0.groups.find? (fun x => x.AutoScalingGroupName == asgName) = some g0)
    (hnotags : ∀ t ∈ w0.tags, isCapacityTag asgName t = false)
    (hmin : inInt64 g0.MinSize) (hmax : inInt64 g0.MaxSize)
    (hdes : inInt64 g0.DesiredCapacity)
    (hdesired : g0.DesiredCapacity ≠ 0 ∨ n = 1)
    (hrun : ∀ w a ns lb, (run w a ns lb).world.tags = w.tags ∧
      (run w a ns lb).world.failing = w.failing)
    (hruns : rolloutRuns cfg run asgName batchSize n w0 = some wn)
    (hpost : PostRolloutStart cfg asgName rolloutSuccess wn = (w', .ret none)) :
    GetMinCount w' asgName = .ret (g0.MinSize, none) ∧
      GetMaxCount w' asgName = .ret (g0.MaxSize, none) := by
  obtain ⟨m, rfl⟩ : ∃ m, n = m + 1 := ⟨n - 1, by omega⟩
  unfold rolloutRuns at hruns
  simp only at hruns
  by_cases hres : (StartRollout cfg run asgName batchSize w0).result = .ret none
  · rw [if_pos hres] at hruns
    obtain ⟨hs1, hc1⟩ := StartRollout_first_run cfg run asgName batchSize w0 g0 hrun hcalls
      hgroup hnotags hres
    have hfinal : storesCapacity asgName g0 wn.tags ∧ wn.failing = [] := by
      rcases hdesired with hd | h1
      · exact rolloutRuns_keeps_capacity cfg run asgName batchSize g0 hrun hmin hmax hdes hd
          m _ wn hc1 hs1 hruns
      · have hm : m = 0 := by omega
        subst hm
        simp only [rolloutRuns, Option.some.injEq] at hruns
        subst hruns
        exact ⟨hs1, hc1⟩
    exact PostRolloutStart_of_stored cfg asgName rolloutSuccess wn w' g0 hfinal.2 hfinal.1
      hmin hmax hdes hpost
  · rw [if_neg hres] at hruns
    simp at hruns

set_option maxRecDepth 10000 in
/-- The amended claim C11 on scenario 6: two runs with batch size 2, in which the first
four nodes are replaced, and the clean-up; the group is back at min 5 and max 7. -/
theorem PostRolloutStart_restores_capacity_witness :
    GetMinCount scenarioSixWorld "A" = .ret (5, none) ∧
    GetMaxCount scenarioSixWorld "A" = .ret (7, none) ∧
    ∃ wn w', rolloutRuns defaultConfig terminatingWorkflows "A" 2 2 scenarioSixWorld = some wn ∧
      PostRolloutStart defaultConfig "A" true wn = (w', .ret none) ∧
      GetMinCount w' "A" = .ret (5, none) ∧ GetMaxCount w' "A" = .ret (7, none) :=
  ⟨by decide, by decide,
    (StartRollout defaultConfig terminatingWorkflows "A" 2
      (StartRollout defaultConfig terminatingWorkflows "A" 2 scenarioSixWorld).world).world,
    (PostRolloutStart defaultConfig "A" true
      (StartRollout defaultConfig terminatingWorkflows "A" 2
        (StartRollout defaultConfig terminatingWorkflows "A" 2 scenarioSixWorld).world).world).1,
    by
      unfold rolloutRuns
      simp only
      rw [if_pos (by decide)]
      unfold rolloutRuns
      simp only
      rw [if_pos (by decide)]
      rfl,
    Prod.ext rfl (by decide),
    PostRolloutStart_restores_capacity defaultConfig terminatingWorkflows "A" 2 2 true
      scenarioSixWorld
      (StartRollout defaultConfig terminatingWorkflows "A" 2
        (StartRollout defaultConfig terminatingWorkflows "A" 2 scenarioSixWorld).world).world
      (PostRolloutStart defaultConfig "A" true
        (StartRollout defaultConfig terminatingWorkflows "A" 2
          (StartRollout defaultConfig terminatingWorkflows "A" 2 scenarioSixWorld).world).world).1
      ⟨"A", none, some ⟨some "lt-1", some "$Latest"⟩, none,
        [instanceAt "i-1" "1", instanceAt "i-2" "1", instanceAt "i-3" "1", instanceAt "i-4" "1",
          instanceAt "i-5" "1"], 5, 7, 5, false⟩
      (by decide) rfl rfl (by decide) (by unfold inInt64; decide) (by unfold inInt64; decide)
      (by unfold inInt64; decide) (Or.inl (by decide)) (fun _ _ _ _ => ⟨rfl, rfl⟩)
      (by
        unfold rolloutRuns
        simp only
        rw [if_pos (by decide)]
        unfold rolloutRuns
        simp only
        rw [if_pos (by decide)]
        rfl)
      (Prod.ext rfl (by decide))⟩

/-! ## The status query `RolloutCompleted` -/

/-- C21. Whenever the label query succeeds, `RolloutCompleted` returns the nil error, and
it returns `true` if and only if no node of the cluster carries the label
`dockyard.io/node-state=old`.  After the run on scenario 6 (five old nodes) with batch
size 2, which leaves node-5 labelled old, it returns `false`. -/
theorem RolloutCompleted_iff (cfg : AsgRolloutConfig) (w : World) (asgName : String)
    (hquery : (GetNodeCountByLabel w (getNodeStateLabel "old") cfg.IgnoreNotFound).2 = none) :
    (RolloutCompleted cfg w asgName).2 = none ∧
    ((RolloutCompleted cfg w asgName).1 = true ↔
      ∀ n ∈ w.nodes, carriesState "old" n = false) ∧
    ((StartRollout defaultConfig succeedingWorkflows "A" 2 scenarioSixWorld).result =
        .ret none ∧
      (StartRollout defaultConfig succeedingWorkflows "A" 2 scenarioSixWorld).world.nodes.filter
        (carriesState "old") = [⟨"node-5", some [("kubernetes.io/hostname", "node-5"),
          ("dockyard.io/node-state", "old")], true, [⟨"Ready", "True"⟩]⟩] ∧
      RolloutCompleted defaultConfig
        (StartRollout defaultConfig succeedingWorkflows "A" 2 scenarioSixWorld).world "A" =
        (false, none)) := by
  have hl : w.failing.contains Api.NodesList = false := by
    cases h : w.failing.contains Api.NodesList with
    | false => rfl
    | true =>
      rw [GetNodeCountByLabel_eq, h] at hquery
      simp at hquery
  have e : GetNodeCountByLabel w (getNodeStateLabel "old") cfg.IgnoreNotFound =
      (((w.nodes.filter (carriesState "old")).length : Int), none) := by
    rw [GetNodeCountByLabel_eq, hl]
    simp only [Bool.false_eq_true, if_false]
    have : matchesSelector (getNodeStateLabel "old") = carriesState "old" :=
      funext (matchesSelector_state "old" (by decide))
    rw [this]
  unfold RolloutCompleted
  rw [e]
  simp only
  refine ⟨?_, ?_, by decide, by decide, by decide⟩
  · split <;> rfl
  · by_cases h0 : (w.nodes.filter (carriesState "old")).length = 0
    · have c : ¬ (((w.nodes.filter (carriesState "old")).length : Int) > 0) := by
        rw [h0]; decide
      rw [if_neg c]
      simp only [true_iff]
      intro n hn
      have a0 := List.length_eq_zero.mp h0
      rw [List.filter_eq_nil_iff] at a0
      simpa using a0 n hn
    · have c : ((w.nodes.filter (carriesState "old")).length : Int) > 0 := by
        have : 0 < (w.nodes.filter (carriesState "old")).length := Nat.pos_of_ne_zero h0
        exact_mod_cast this
      rw [if_pos c]
      simp only [Bool.false_eq_true, false_iff, not_forall]
      obtain ⟨n, hn⟩ := List.exists_mem_of_length_pos (Nat.pos_of_ne_zero h0)
      rw [List.mem_filter] at hn
      exact ⟨n, hn.1, by simp [hn.2]⟩

/-- The claim C21 on scenario 1: before the preparation no node carries the state old and
the rollout counts as completed, after it the four nodes carry it. -/
theorem RolloutCompleted_iff_witness :
    RolloutCompleted defaultConfig scenarioOneWorld "A" = (true, none) ∧
    ((RolloutCompleted defaultConfig scenarioOneWorld "A").1 = true ↔
      ∀ n ∈ scenarioOneWorld.nodes, carriesState "old" n = false) ∧
    RolloutCompleted defaultConfig (PreRolloutStart defaultConfig "A" scenarioOneWorld).1 "A" =
      (false, none) :=
  ⟨by decide, (RolloutCompleted_iff defaultConfig scenarioOneWorld "A" (by decide)).2.1,
    by decide⟩

/-! ## Classification is a partition -/

/-- Splitting a list by a test gives two sublists that together are the list. -/
theorem split_partition {α β : Type} (p : α → Bool) (f : α → β) (l : List α) :
    (((l.filter (fun x => !p x)).map f) ++ ((l.filter p).map f)).Perm (l.map f) ∧
    ((l.filter (fun x => !p x)).map f).Sublist (l.map f) ∧
    ((l.filter p).map f).Sublist (l.map f) ∧
    ((l.filter (fun x => !p x)).map f).length + ((l.filter p).map f).length = l.length := by
  have hperm : ((l.filter (fun x => !p x)) ++ (l.filter p)).Perm l :=
    (List.perm_append_comm).trans (List.filter_append_perm p l)
  refine ⟨?_, (List.filter_sublist l).map f, (List.filter_sublist l).map f, ?_⟩
  · rw [← List.map_append]
    exact hperm.map f
  · have := hperm.length_eq
    simpa using this

/-- C30. On every snapshot of a group on which classification returns the nil error, the
two result lists partition the instances of the group: together they are a rearrangement
of the instance ids of the group, each of them lists its ids in the order of the group,
their lengths add up to the number of instances, and when the ids of the group are
distinct every id is in exactly one of the two lists. -/
theorem getOldnNewInstancesOfAsg_partition (api : LaunchApi) (group : Group) (c : Classified)
    (hrun : getOldnNewInstancesOfAsg api group = .ret c) (herr : c.err = none) :
    (c.oldInstances ++ c.newInstances).Perm (group.Instances.map (fun i => i.InstanceId)) ∧
    c.oldInstances.Sublist (group.Instances.map (fun i => i.InstanceId)) ∧
    c.newInstances.Sublist (group.Instances.map (fun i => i.InstanceId)) ∧
    c.oldInstances.length + c.newInstances.length = group.Instances.length ∧
    ((group.Instances.map (fun i => i.InstanceId)).Nodup →
      ∀ id ∈ group.Instances.map (fun i => i.InstanceId),
        (id ∈ c.oldInstances ∧ id ∉ c.newInstances) ∨
        (id ∉ c.oldInstances ∧ id ∈ c.newInstances)) := by
  have key : ∃ p : Instance → Bool,
      c.oldInstances = (group.Instances.filter (fun x => !p x)).map (fun i => i.InstanceId) ∧
      c.newInstances = (group.Instances.filter p).map (fun i => i.InstanceId) := by
    unfold getOldnNewInstancesOfAsg at hrun
    split at hrun
    · simp at hrun
    · simp only [Go.ret.injEq] at hrun
      subst hrun
      simp at herr
    · rename_i l _
      split at hrun
      · split at hrun
        · simp at hrun
        · rename_i old new hcl
          simp only [Go.ret.injEq] at hrun
          subst hrun
          have h := classifyByTemplate_ret _ _ _ _ _ _ hcl
          simp only [List.nil_append, Prod.mk.injEq] at h
          exact ⟨carriesLatest l.latestLaunchTemplateId l.latestVersionNumber, h.1, h.2⟩
      · rename_i hlc
        rw [classifyByConfig_eq] at hrun
        simp only [List.nil_append, Go.ret.injEq] at hrun
        subst hrun
        exact ⟨fun i => i.LaunchConfigurationName == some l.launchConfigName, rfl, rfl⟩
  obtain ⟨p, hold, hnew⟩ := key
  obtain ⟨h1, h2, h3, h4⟩ := split_partition p (fun i : Instance => i.InstanceId) group.Instances
  rw [hold, hnew]
  refine ⟨h1, h2, h3, h4, ?_⟩
  intro hnodup id hid
  have hnd := h1.nodup_iff.mpr hnodup
  have hmem := h1.mem_iff.mpr hid
  rw [List.nodup_append] at hnd
  rcases List.mem_append.mp hmem with ho | hn
  · exact Or.inl ⟨ho, fun hn => hnd.2.2 ho hn⟩
  · exact Or.inr ⟨fun ho => hnd.2.2 ho hn, hn⟩

/-- The claim C30 on the group of scenario 5. -/
theorem getOldnNewInstancesOfAsg_partition_witness :
    getOldnNewInstancesOfAsg scenarioApi scenarioGroup =
      .ret ⟨["i-1", "i-4"], ["i-2", "i-3"], some "ami-1", none⟩ ∧
    (["i-1", "i-4"] ++ ["i-2", "i-3"]).Perm (scenarioGroup.Instances.map (fun i => i.InstanceId)) ∧
    ["i-1", "i-4"].length + ["i-2", "i-3"].length = scenarioGroup.Instances.length :=
  ⟨by decide,
    (getOldnNewInstancesOfAsg_partition scenarioApi scenarioGroup
      ⟨["i-1", "i-4"], ["i-2", "i-3"], some "ami-1", none⟩ (by decide) rfl).1,
    (getOldnNewInstancesOfAsg_partition scenarioApi scenarioGroup
      ⟨["i-1", "i-4"], ["i-2", "i-3"], some "ami-1", none⟩ (by decide) rfl).2.2.2.1⟩

/-! ## The panics of `StartRollout` -/

theorem getAsg_panic (w : World) (asgName m : String) (h : getAsg w asgName = .panic m) :
    panicOfStep m := by
  unfold getAsg at h
  split at h
  · simp at h
  · simp only [Go.panic.injEq] at h
    exact Or.inr (Or.inl h.symm)
  · simp at h

theorem GetMaxCount_panic (w : World) (asgName m : String)
    (h : GetMaxCount w asgName = .panic m) : panicOfStep m := by
  unfold GetMaxCount at h
  split at h
  · rename_i m' hg
    simp only [Go.panic.injEq] at h
    subst h
    exact getAsg_panic _ _ _ hg
  · simp at h
  · simp only [Go.panic.injEq] at h
    exact Or.inl h.symm
  · simp at h

theorem GetMinCount_panic (w : World) (asgName m : String)
    (h : GetMinCount w asgName = .panic m) : panicOfStep m := by
  unfold GetMinCount at h
  split at h
  · rename_i m' hg
    simp only [Go.panic.injEq] at h
    subst h
    exact getAsg_panic _ _ _ hg
  · simp at h
  · simp only [Go.panic.injEq] at h
    exact Or.inl h.symm
  · simp at h

theorem GetDesiredCount_panic (w : World) (asgName m : String)
    (h : GetDesiredCount w asgName = .panic m) : panicOfStep m := by
  unfold GetDesiredCount at h
  split at h
  · rename_i m' hg
    simp only [Go.panic.injEq] at h
    subst h
    exact getAsg_panic _ _ _ hg
  · simp at h
  · simp only [Go.panic.injEq] at h
    exact Or.inl h.symm
  · simp at h

theorem GetInstancesOfAsg_panic (w : World) (asgName m : String)
    (h : GetInstancesOfAsg w asgName = .panic m) : panicOfStep m := by
  unfold GetInstancesOfAsg at h
  split at h
  · rename_i m' hg
    simp only [Go.panic.injEq] at h
    subst h
    exact getAsg_panic _ _ _ hg
  · simp at h
  · simp only [Go.panic.injEq] at h
    exact Or.inl h.symm
  · simp at h

theorem latestVersionLoop_panic :
    ∀ (versions : List LaunchTemplateVersion) (n : Int) (tid m : String),
      latestVersionLoop versions n tid = .panic m → m = nilDeref := by
  intro versions
  induction versions with
  | nil => intro n tid m h; simp [latestVersionLoop] at h
  | cons v rest ih =>
    intro n tid m h
    unfold latestVersionLoop at h
    split at h
    · simp only [Go.panic.injEq] at h
      exact h.symm
    · split at h
      · split at h
        · simp only [Go.panic.injEq] at h
          exact h.symm
        · exact ih _ _ _ h
      · exact ih _ _ _ h

theorem templateBranch_panic (api : LaunchApi) (t : Option String) (m : String)
    (h : templateBranch api t = .panic m) : m = nilDeref := by
  unfold templateBranch at h
  split at h
  · simp at h
  · split at h
    · rename_i m' hl
      simp only [Go.panic.injEq] at h
      subst h
      exact latestVersionLoop_panic _ _ _ _ hl
    · split at h
      · simp at h
      · split at h
        · simp only [Go.panic.injEq] at h
          exact h.symm
        · simp at h

theorem resolveLatest_panic (api : LaunchApi) (group : Group) (m : String)
    (h : resolveLatest api group = .panic m) : m = nilDeref := by
  unfold resolveLatest at h
  split at h
  · split at h
    · simp at h
    · split at h <;> simp at h
  · split at h
    · exact templateBranch_panic _ _ _ h
    · split at h
      · split at h
        · simp only [Go.panic.injEq] at h
          exact h.symm
        · split at h
          · simp only [Go.panic.injEq] at h
            exact h.symm
          · exact templateBranch_panic _ _ _ h
      · simp at h

theorem classifyByTemplate_panic (tid : String) (ver : Int) :
    ∀ (insts : List Instance) (old new : List String) (m : String),
      classifyByTemplate tid ver insts old new = .panic m → m = nilDeref := by
  intro insts
  induction insts with
  | nil => intro old new m h; simp [classifyByTemplate] at h
  | cons i rest ih =>
    intro old new m h
    unfold classifyByTemplate at h
    split at h
    · exact ih _ _ _ h
    · split at h
      · simp only [Go.panic.injEq] at h
        exact h.symm
      · split at h
        · split at h
          · simp only [Go.panic.injEq] at h
            exact h.symm
          · split at h
            · exact ih _ _ _ h
            · exact ih _ _ _ h
        · exact ih _ _ _ h

theorem getOldnNewInstancesOfAsg_panic (api : LaunchApi) (group : Group) (m : String)
    (h : getOldnNewInstancesOfAsg api group = .panic m) : m = nilDeref := by
  unfold getOldnNewInstancesOfAsg at h
  split at h
  · rename_i m' hr
    simp only [Go.panic.injEq] at h
    subst h
    exact resolveLatest_panic _ _ _ hr
  · simp at h
  · split at h
    · split at h
      · rename_i m' hc
        simp only [Go.panic.injEq] at h
        subst h
        exact classifyByTemplate_panic _ _ _ _ _ _ hc
      · simp at h
    · simp at h

theorem GetOldnNewInstancesOfAsg_panic (w : World) (asgName m : String)
    (h : GetOldnNewInstancesOfAsg w asgName = .panic m) : panicOfStep m := by
  unfold GetOldnNewInstancesOfAsg at h
  split at h
  · simp at h
  · simp at h
  · split at h
    · rename_i m' hc
      simp only [Go.panic.injEq] at h
      subst h
      exact Or.inl (getOldnNewInstancesOfAsg_panic _ _ _ hc)
    · simp at h

theorem AddLabelToNode_panic (w : World) (nodeName labelKey labelVal m : String)
    (ignore : Bool) (h : (AddLabelToNode w nodeName labelKey labelVal ignore).2 = .panic m) :
    panicOfStep m := by
  unfold AddLabelToNode at h
  simp only at h
  split at h
  · simp at h
  · split at h
    · split at h
      · simp only [Go.panic.injEq] at h
        exact Or.inr (Or.inr h.symm)
      · simp at h
    · simp at h

theorem labelInstances_panic (cfg : AsgRolloutConfig) (state : String) :
    ∀ (insts : List String) (w : World) (m : String),
      (labelInstances cfg state insts w).2 = .panic m → panicOfStep m := by
  intro insts
  induction insts with
  | nil => intro w m h; simp [labelInstances] at h
  | cons i rest ih =>
    intro w m h
    unfold labelInstances at h
    split at h
    · simp at h
    · simp only [Go.panic.injEq] at h
      exact Or.inl h.symm
    · split at h
      · exact ih _ _ h
      · rename_i k8sNode _ _
        have hp := AddLabelToNode_panic w k8sNode NodeStateLabelKey state
        split at h
        · rename_i w1 m' heq
          simp only [Go.panic.injEq] at h
          subst h
          exact hp _ cfg.IgnoreNotFound (by rw [heq])
        · simp at h
        · exact ih _ _ h

theorem collectNodeNames_panic (w : World) :
    ∀ (insts : List String) (acc : List String) (m : String),
      collectNodeNames w insts acc = .panic m → panicOfStep m := by
  intro insts
  induction insts with
  | nil => intro acc m h; simp [collectNodeNames] at h
  | cons i rest ih =>
    intro acc m h
    unfold collectNodeNames at h
    split at h
    · simp only [Go.panic.injEq] at h
      exact Or.inl h.symm
    · simp only [Go.panic.injEq] at h
      exact Or.inl h.symm
    · exact ih _ _ h

theorem preRolloutCapacity_panic (cfg : AsgRolloutConfig) (asgName : String) (w : World)
    (m : String) (h : (preRolloutCapacity cfg asgName w).2 = .panic m) : panicOfStep m := by
  unfold preRolloutCapacity at h
  split at h
  · rename_i m' hg
    simp only [Go.panic.injEq] at h
    subst h
    exact GetMaxCount_panic _ _ _ hg
  · simp at h
  · split at h
    · rename_i m' hg
      simp only [Go.panic.injEq] at h
      subst h
      exact GetMinCount_panic _ _ _ hg
    · simp at h
    · split at h
      · rename_i m' hg
        simp only [Go.panic.injEq] at h
        subst h
        exact GetDesiredCount_panic _ _ _ hg
      · simp at h
      · split at h
        · simp at h
        · split at h
          · rename_i m' hg
            simp only [Go.panic.injEq] at h
            subst h
            exact GetInstancesOfAsg_panic _ _ _ hg
          · simp at h
          · split at h
            · rename_i m' hg
              simp only [Go.panic.injEq] at h
              subst h
              exact collectNodeNames_panic _ _ _ _ hg
            · split at h
              · simp at h
              · split at h <;> simp at h

theorem PreRolloutStart_panic (cfg : AsgRolloutConfig) (asgName : String) (w : World)
    (m : String) (h : (PreRolloutStart cfg asgName w).2 = .panic m) : panicOfStep m := by
  unfold PreRolloutStart at h
  split at h
  · rename_i m' hg
    simp only [Go.panic.injEq] at h
    subst h
    exact GetOldnNewInstancesOfAsg_panic _ _ _ hg
  · simp at h
  · rename_i old new _
    have h1 := labelInstances_panic cfg "new" new w
    split at h
    · rename_i w1 m' heq
      simp only [Go.panic.injEq] at h
      subst h
      exact h1 _ (by rw [heq])
    · simp at h
    · rename_i w1 _
      have h2 := labelInstances_panic cfg "old" old w1
      split at h
      · rename_i w2 m' heq
        simp only [Go.panic.injEq] at h
        subst h
        exact h2 _ (by rw [heq])
      · simp at h
      · exact preRolloutCapacity_panic _ _ _ _ h

theorem raiseCapacity_panic (asgName : String) (batchSize : Int) (w : World) (m : String)
    (h : (raiseCapacity asgName batchSize w).2 = .panic m) : panicOfStep m := by
  unfold raiseCapacity at h
  split at h
  · rename_i m' hg
    simp only [Go.panic.injEq] at h
    subst h
    exact GetMaxCount_panic _ _ _ hg
  · simp at h
  · split at h
    · rename_i m' hg
      simp only [Go.panic.injEq] at h
      subst h
      exact GetDesiredCount_panic _ _ _ hg
    · simp at h
    · simp at h

/-- With a batch size of at least one the index read of the batch loop never panics: the
only panic of the loop is the nil error dereferenced after a failed batch. -/
theorem batchLoop_panic (cfg : AsgRolloutConfig) (run : Workflows) (asgName : String)
    (batchSize steps : Int) (hbatch : 1 ≤ batchSize) :
    ∀ (remaining : Nat) (i : Int) (lastBatch : Bool) (w : World) (batches : List (List String))
      (m : String),
      (batchLoop cfg run asgName batchSize steps remaining i lastBatch w batches).result =
        .panic m → m = nilDeref := by
  intro remaining
  induction remaining with
  | zero => intro i lastBatch w batches m h; simp [batchLoop] at h
  | succ remaining ih =>
    intro i lastBatch w batches m h
    unfold batchLoop at h
    simp only at h
    generalize (if (i == steps - 1) = true then true else lastBatch) = flag at h
    have hlen := NodesToDrain_length cfg w asgName batchSize hbatch
    split at h
    · simp at h
    · rename_i nodes hnodes
      rw [hnodes] at hlen
      simp only at hlen
      split at h
      · simp at h
      · rename_i hne
        have hfull : nodes.length = batchSize.toNat := by
          rcases hlen.2 with h0 | h1
          · rw [h0] at hne; simp at hne
          · exact h1
        have hs := spawnLoop_full nodes batchSize hfull hbatch batchSize.toNat 0 [] (by omega)
        rw [hs] at h
        simp only [List.drop_zero, List.nil_append] at h
        split at h
        · simp only [Go.panic.injEq] at h
          exact h.symm
        · exact ih _ _ _ _ _ h

/-- With a batch size of at least one, every panic of `StartRollout` is a panic of one of
the steps around the batch loop. -/
theorem StartRollout_panic (cfg : AsgRolloutConfig) (run : Workflows) (asgName : String)
    (batchSize : Int) (w : World) (hbatch : 1 ≤ batchSize) (m : String)
    (h : (StartRollout cfg run asgName batchSize w).result = .panic m) : panicOfStep m := by
  have hne0 : (batchSize == 0) = false := by
    have : batchSize ≠ 0 := by omega
    simpa using this
  unfold StartRollout at h
  split at h
  · rename_i m' hg
    simp only [Go.panic.injEq] at h
    subst h
    exact GetOldnNewInstancesOfAsg_panic _ _ _ hg
  · simp at h
  · rename_i old new _
    simp only at h
    have hpre := PreRolloutStart_panic cfg asgName w
    split at h
    · rename_i w1 m' heq
      simp only [Go.panic.injEq] at h
      subst h
      exact hpre _ (by rw [heq])
    · simp at h
    · rename_i w1 _
      rw [hne0] at h
      simp only [Bool.false_eq_true, if_false] at h
      have hraise := raiseCapacity_panic asgName batchSize w1
      split at h
      · rename_i w2 m' heq
        simp only [Go.panic.injEq] at h
        subst h
        exact hraise _ (by rw [heq])
      · simp at h
      · exact Or.inl (batchLoop_panic cfg run asgName batchSize _ hbatch _ _ _ _ _ _ h)

/-- C29. For every batch size of at least one, every state of the cloud and the cluster
and every outcome of the batches, `StartRollout` does not divide by zero and does not
index the list of `NodesToDrain` out of range.  `NodesToDrain` returns the empty list,
which ends the loop, or exactly `batchSize` names, and the loop over
`nodes[0] .. nodes[batchSize-1]` then reads exactly that list. -/
theorem StartRollout_reads_in_range (cfg : AsgRolloutConfig) (run : Workflows)
    (asgName : String) (batchSize : Int) (w : World) (hbatch : 1 ≤ batchSize) :
    (StartRollout cfg run asgName batchSize w).result ≠ .panic "integer divide by zero" ∧
    (StartRollout cfg run asgName batchSize w).result ≠ .panic "index out of range" ∧
    (∀ u : World, (NodesToDrain cfg u asgName batchSize).1 = [] ∨
      ((NodesToDrain cfg u asgName batchSize).1.length = batchSize.toNat ∧
        spawnLoop (NodesToDrain cfg u asgName batchSize).1 batchSize batchSize.toNat 0 [] =
          ((NodesToDrain cfg u asgName batchSize).1, false))) := by
  refine ⟨?_, ?_, ?_⟩
  · intro h
    have := StartRollout_panic cfg run asgName batchSize w hbatch _ h
    revert this
    unfold panicOfStep
    decide
  · intro h
    have := StartRollout_panic cfg run asgName batchSize w hbatch _ h
    revert this
    unfold panicOfStep
    decide
  · intro u
    rcases (NodesToDrain_length cfg u asgName batchSize hbatch).2 with h0 | h1
    · exact Or.inl h0
    · refine Or.inr ⟨h1, ?_⟩
      have hs := spawnLoop_full _ batchSize h1 hbatch batchSize.toNat 0 [] (by omega)
      rw [hs]
      simp

/-- The claim C29 on scenario 6 with batch size 2, and with a batch size of 0, which the
claim excludes and on which the division panics. -/
theorem StartRollout_reads_in_range_witness :
    (1 : Int) ≤ 2 ∧
    (StartRollout defaultConfig succeedingWorkflows "A" 2 scenarioSixWorld).result ≠
      .panic "index out of range" ∧
    (StartRollout defaultConfig succeedingWorkflows "A" 2 scenarioSixWorld).result =
      .ret none ∧
    (StartRollout defaultConfig succeedingWorkflows "A" 0 scenarioSixWorld).result =
      .panic "integer divide by zero" :=
  ⟨by decide,
    (StartRollout_reads_in_range defaultConfig succeedingWorkflows "A" 2 scenarioSixWorld
      (by decide)).2.1,
    by decide, by decide⟩

/-! ## The poller for a new node -/

/-- A label test that answers `false` with the nil error has found the node, and the node
does not hold that value under the key. -/
theorem NodeHasLabel_false (w : World) (name key val : String) (ignore : Bool)
    (h : NodeHasLabel w name key val ignore = (false, none)) :
    ∃ node, nodesGet w name = (node, none) ∧ mapGet node.Labels key ≠ some val := by
  unfold NodeHasLabel at h
  rcases hget : nodesGet w name with ⟨node, err⟩
  rw [hget] at h
  simp only at h
  split at h
  · simp only [Prod.mk.injEq, true_and] at h
    subst h
    rename_i hf
    cases ignore <;> simp [filterError] at hf
  · split at h
    · rename_i value hv
      split at h
      · simp at h
      · rename_i hne
        simp only [Prod.mk.injEq, true_and] at h
        subst h
        refine ⟨node, rfl, ?_⟩
        rw [hv]
        intro e
        simp only [Option.some.injEq] at e
        exact hne (by simp [e])
    · rename_i hv
      simp only [Prod.mk.injEq, true_and] at h
      subst h
      refine ⟨node, rfl, ?_⟩
      rw [hv]
      simp

/-- A node name that the loop over the instances delivers belongs to one of the instances:
at four successive instants the instance passed its health check, the name was its
private DNS name, and the two label tests found the node and answered `false`. -/
theorem pollInstances_delivers (cfg : AsgRolloutConfig) (statusAt : Nat → StatusApi)
    (worldAt : Nat → World) (name : String) (t' : Nat) :
    ∀ (insts : List String) (t : Nat),
      pollInstances cfg statusAt worldAt t insts = .ret (t', some (.node name)) →
      ∃ i ∈ insts, ∃ s, t ≤ s ∧ s + 4 = t' ∧
        IsInstanceHealthy (statusAt s) i = .ret (true, none) ∧
        GetNodeNameFromInstanceId (worldAt (s + 1)) i = (some name, none) ∧
        NodeHasLabel (worldAt (s + 2)) name NodeStateLabelKey "old" cfg.IgnoreNotFound =
          (false, none) ∧
        NodeHasLabel (worldAt (s + 3)) name NodeStateLabelKey "new" cfg.IgnoreNotFound =
          (false, none) := by
  intro insts
  induction insts with
  | nil => intro t h; simp [pollInstances] at h
  | cons i rest ih =>
    intro t h
    have step : ∀ u, t ≤ u →
        pollInstances cfg statusAt worldAt u rest = .ret (t', some (.node name)) →
        ∃ j ∈ i :: rest, ∃ s, t ≤ s ∧ s + 4 = t' ∧
          IsInstanceHealthy (statusAt s) j = .ret (true, none) ∧
          GetNodeNameFromInstanceId (worldAt (s + 1)) j = (some name, none) ∧
          NodeHasLabel (worldAt (s + 2)) name NodeStateLabelKey "old" cfg.IgnoreNotFound =
            (false, none) ∧
          NodeHasLabel (worldAt (s + 3)) name NodeStateLabelKey "new" cfg.IgnoreNotFound =
            (false, none) := by
      intro u hu hr
      obtain ⟨j, hj, s, hs, hrest⟩ := ih u hr
      exact ⟨j, List.mem_cons_of_mem _ hj, s, by omega, hrest⟩
    unfold pollInstances at h
    split at h
    · simp at h
    · simp at h
    · exact step _ (by omega) h
    · rename_i hhealthy
      split at h
      · simp at h
      · simp at h
      · rename_i k8sNode hname
        rcases hold : NodeHasLabel (worldAt (t + 2)) k8sNode NodeStateLabelKey "old"
          cfg.IgnoreNotFound with ⟨hasLabel, err⟩
        rw [hold] at h
        simp only at h
        split at h
        · exact step _ (by omega) h
        · split at h
          · simp at h
          · rcases hnew : NodeHasLabel (worldAt (t + 3)) k8sNode NodeStateLabelKey "new"
              cfg.IgnoreNotFound with ⟨hasLabel2, err2⟩
            rw [hnew] at h
            cases err2 with
            | some e => simp at h
            | none =>
              simp only at h
              split at h
              · rename_i hboth
                simp only [Go.ret.injEq, Prod.mk.injEq, Option.some.injEq,
                  PollerReport.node.injEq] at h
                obtain ⟨ht, hn⟩ := h
                subst hn
                simp only [Bool.and_eq_true, Bool.not_eq_true'] at hboth
                rw [hboth.1] at hold
                rw [hboth.2] at hnew
                exact ⟨i, List.mem_cons_self _ _, t, le_refl _, ht, hhealthy, hname, hold,
                  hnew⟩
              · exact step _ (by omega) h

/-- An instance that passes its health check and whose first label lookup is answered
NotFound is skipped: the loop goes on with the next instance and sends nothing for it. -/
theorem pollInstances_skips (cfg : AsgRolloutConfig) (statusAt : Nat → StatusApi)
    (worldAt : Nat → World) (t : Nat) (i k8sNode : String) (rest : List String)
    (hhealthy : IsInstanceHealthy (statusAt t) i = .ret (true, none))
    (hname : GetNodeNameFromInstanceId (worldAt (t + 1)) i = (some k8sNode, none))
    (hnf : IsNotFound (NodeHasLabel (worldAt (t + 2)) k8sNode NodeStateLabelKey "old"
      cfg.IgnoreNotFound).2 = true) :
    pollInstances cfg statusAt worldAt t (i :: rest) =
      pollInstances cfg statusAt worldAt (t + 3) rest := by
  rw [pollInstances, hhealthy]
  simp only [hname]
  rcases hold : NodeHasLabel (worldAt (t + 2)) k8sNode NodeStateLabelKey "old"
    cfg.IgnoreNotFound with ⟨hasLabel, err⟩
  rw [hold] at hnf
  simp only at hnf
  simp only [hnf, if_true]

/-- An instance that passes its health check, whose first label lookup finds the node and
whose second label lookup is answered with an error, NotFound or other, ends the loop:
the error is what the loop sends. -/
theorem pollInstances_reports (cfg : AsgRolloutConfig) (statusAt : Nat → StatusApi)
    (worldAt : Nat → World) (t : Nat) (i k8sNode : String) (rest : List String)
    (hasLabel hasLabel2 : Bool) (e : KubeError)
    (hhealthy : IsInstanceHealthy (statusAt t) i = .ret (true, none))
    (hname : GetNodeNameFromInstanceId (worldAt (t + 1)) i = (some k8sNode, none))
    (hold : NodeHasLabel (worldAt (t + 2)) k8sNode NodeStateLabelKey "old"
      cfg.IgnoreNotFound = (hasLabel, none))
    (hnew : NodeHasLabel (worldAt (t + 3)) k8sNode NodeStateLabelKey "new"
      cfg.IgnoreNotFound = (hasLabel2, some e)) :
    pollInstances cfg statusAt worldAt t (i :: rest) = .ret (t + 4, some (.failure e.msg)) := by
  rw [pollInstances, hhealthy]
  simp only [hname, hold, hnew, IsNotFound]
  rfl

/-- The first send of `getNewNode` is the send of a round, started at some instant. -/
theorem getNewNode_first (cfg : AsgRolloutConfig) (statusAt : Nat → StatusApi)
    (worldAt : Nat → World) (asgName : String) (t' : Nat) (r : PollerReport) :
    ∀ (rounds t0 : Nat),
      getNewNode cfg statusAt worldAt asgName rounds t0 = .ret (some (t', r)) →
      ∃ t, pollOnce cfg statusAt worldAt asgName t = .ret (t', some r) := by
  intro rounds
  induction rounds with
  | zero => intro t0 h; simp [getNewNode] at h
  | succ rounds ih =>
    intro t0 h
    unfold getNewNode at h
    split at h
    · simp at h
    · rename_i t1 r' hr
      simp only [Go.ret.injEq, Option.some.injEq, Prod.mk.injEq] at h
      obtain ⟨rfl, rfl⟩ := h
      exact ⟨t0, hr⟩
    · exact ih _ h

/-- A node name that `getNewNode` delivers is the private DNS name of an instance that the
listing of a round returned for the group, for which `IsInstanceHealthy` then returned
`true`, and whose node the two label lookups then found (neither was answered NotFound),
holding neither `old` (at the first) nor `new` (at the second) under
`dockyard.io/node-state`.  The calls are those of the instants `t`, `s`, `s + 1`, `s + 2`
and `s + 3`, in this order. -/
theorem getNewNode_delivers (cfg : AsgRolloutConfig) (statusAt : Nat → StatusApi)
    (worldAt : Nat → World) (asgName : String) (rounds t' : Nat) (name : String)
    (h : getNewNode cfg statusAt worldAt asgName rounds 0 = .ret (some (t', .node name))) :
    ∃ t s insts i, t < s ∧ s + 4 = t' ∧
      GetInstancesOfAsg (worldAt t) asgName = .ret (insts, none) ∧ i ∈ insts ∧
      IsInstanceHealthy (statusAt s) i = .ret (true, none) ∧
      GetNodeNameFromInstanceId (worldAt (s + 1)) i = (some name, none) ∧
      (∃ node, nodesGet (worldAt (s + 2)) name = (node, none) ∧
        mapGet node.Labels NodeStateLabelKey ≠ some "old") ∧
      ∃ node, nodesGet (worldAt (s + 3)) name = (node, none) ∧
        mapGet node.Labels NodeStateLabelKey ≠ some "new" := by
  obtain ⟨t, hp⟩ := getNewNode_first cfg statusAt worldAt asgName t' _ rounds 0 h
  unfold pollOnce at hp
  split at hp
  · simp at hp
  · simp at hp
  · rename_i insts hinsts
    obtain ⟨i, hi, s, hs, hlast, hhealthy, hname, hold, hnew⟩ :=
      pollInstances_delivers cfg statusAt worldAt name t' insts (t + 1) hp
    exact ⟨t, s, insts, i, by omega, hlast, hinsts, hi, hhealthy, hname,
      NodeHasLabel_false _ _ _ _ _ hold, NodeHasLabel_false _ _ _ _ _ hnew⟩

/-- The delivery on a group whose fifth instance joins the cluster before the second
round: the four labelled nodes are passed over, the instance without a node is skipped in
the first round, and node-5 is delivered in the second. -/
theorem getNewNode_delivers_witness :
    getNewNode defaultConfig (fun _ => allOk) (joiningAt 20) "A" 5 0 =
      .ret (some (41, .node "node-5")) ∧
    pollOnce defaultConfig (fun _ => allOk) (joiningAt 20) "A" 0 = .ret (20, none) ∧
    ∃ t s insts i, t < s ∧ s + 4 = 41 ∧
      GetInstancesOfAsg (joiningAt 20 t) "A" = .ret (insts, none) ∧ i ∈ insts ∧
      IsInstanceHealthy allOk i = .ret (true, none) ∧
      GetNodeNameFromInstanceId (joiningAt 20 (s + 1)) i = (some "node-5", none) ∧
      (∃ node, nodesGet (joiningAt 20 (s + 2)) "node-5" = (node, none) ∧
        mapGet node.Labels NodeStateLabelKey ≠ some "old") ∧
      ∃ node, nodesGet (joiningAt 20 (s + 3)) "node-5" = (node, none) ∧
        mapGet node.Labels NodeStateLabelKey ≠ some "new" :=
  ⟨by decide, by decide,
    getNewNode_delivers defaultConfig (fun _ => allOk) (joiningAt 20) "A" 5 41 "node-5"
      (by decide)⟩

/-- C25. On a group of five healthy instances whose first four nodes are labelled `old`
and whose fifth node node-5 carries no label, `getNewNode` delivers node-5 when the
cluster does not change, and sends nothing for the fifth instance while its node has not
joined, where the first label lookup is answered NotFound.  When node-5 leaves the cluster
between the two label lookups of its instance, the second lookup is answered NotFound and
`getNewNode` sends that error: the instance is not skipped, it is reported as an error. -/
theorem getNewNode_reports_vanished_node :
    getNewNode defaultConfig (fun _ => allOk) (fun _ => joinedWorld) "A" 1 0 =
      .ret (some (21, .node "node-5")) ∧
    NodeHasLabel joiningWorld "node-5" NodeStateLabelKey "old" defaultConfig.IgnoreNotFound =
      (false, some ⟨"nodes node-5 not found", true⟩) ∧
    getNewNode defaultConfig (fun _ => allOk) (fun _ => joiningWorld) "A" 3 0 = .ret none ∧
    GetInstancesOfAsg (leavingAt 20 0) "A" = .ret (["i-1", "i-2", "i-3", "i-4", "i-5"], none) ∧
    IsInstanceHealthy allOk "i-5" = .ret (true, none) ∧
    GetNodeNameFromInstanceId (leavingAt 20 18) "i-5" = (some "node-5", none) ∧
    NodeHasLabel (leavingAt 20 19) "node-5" NodeStateLabelKey "old"
      defaultConfig.IgnoreNotFound = (false, none) ∧
    NodeHasLabel (leavingAt 20 20) "node-5" NodeStateLabelKey "new"
      defaultConfig.IgnoreNotFound = (false, some ⟨"nodes node-5 not found", true⟩) ∧
    getNewNode defaultConfig (fun _ => allOk) (leavingAt 20) "A" 1 0 =
      .ret (some (21, .failure "nodes node-5 not found")) := by
  decide

/-! ## Draining a node -/

/-- The values of a single sender arrive in the order they were sent, whatever the
schedule. -/
theorem arrivals_single {α : Type} : ∀ (schedule : List Nat) (q : List α),
    arrivals schedule [q] = q := by
  intro schedule
  induction schedule with
  | nil => intro q; simp [arrivals]
  | cons i rest ih =>
    intro q
    unfold arrivals
    cases i with
    | zero =>
      cases q with
      | nil => simpa using ih []
      | cons x q' => simpa using ih q'
    | succ j => simpa using ih q

/-- The selection loop panics when a pod has no owner reference, and otherwise selects the
pods of the claim, in list order. -/
theorem selectPods_eq (ignoreDS : Bool) : ∀ (pods : List Pod) (podList : List podSpec),
    selectPods ignoreDS pods podList =
      if pods.all (fun p => !p.OwnerReferences.isEmpty) then
        .ret (podList ++ selectedPods ignoreDS pods)
      else .panic "index out of range [0] with length 0" := by
  intro pods
  induction pods with
  | nil => intro podList; simp [selectPods, selectedPods]
  | cons pod rest ih =>
    intro podList
    unfold selectPods
    cases hown : pod.OwnerReferences with
    | nil => simp [hown]
    | cons controller others =>
      simp only [List.all_cons, hown, List.isEmpty_cons, Bool.not_false, Bool.true_and]
      have hown' : ownedByDaemonSet pod = (controller.Kind == "DaemonSet") := by
        simp only [ownedByDaemonSet, hown]
      cases hds : (ignoreDS && controller.Kind == "DaemonSet")
      · simp only [Bool.false_eq_true, if_false]
        rw [ih]
        have : selectedPods ignoreDS (pod :: rest) =
            ⟨pod.Name, pod.Namespace⟩ :: selectedPods ignoreDS rest := by
          unfold selectedPods
          rw [List.filter_cons, hown', hds]
          simp
        rw [this]
        simp
      · simp only [if_true]
        rw [ih]
        have : selectedPods ignoreDS (pod :: rest) = selectedPods ignoreDS rest := by
          unfold selectedPods
          rw [List.filter_cons, hown', hds]
          simp
        rw [this]

/-- C24. A pod without owner references is not selected: the selection loop of `DrainNode`
reads `controller[0]` of every pod and panics on such a pod, with `ignoreDS` true or
false, and `DrainNode` with it.  On a list in which every pod has an owner reference the
loop selects, in list order, all pods when `ignoreDS` is false and the pods whose first
owner reference is not of kind DaemonSet when it is true. -/
theorem DrainNode_bare_pod_panics :
    (∀ ignoreDS : Bool, selectPods ignoreDS [webPod "web-1", barePod "tool", proxyPod "proxy-1"] []
      = .panic "index out of range [0] with length 0") ∧
    (∀ (ignoreDS force : Bool) (schedule : List Nat),
      (DrainNode (calmPods [webPod "web-1", barePod "tool", proxyPod "proxy-1"]) schedule
        "node-1" ignoreDS force true true).errors =
        .panic "index out of range [0] with length 0") ∧
    ownedByDaemonSet (barePod "tool") = false ∧
    selectedPods true [webPod "web-1", barePod "tool", proxyPod "proxy-1"] =
      [⟨"web-1", "default"⟩, ⟨"tool", "default"⟩] ∧
    (∀ (ignoreDS : Bool) (pods : List Pod), selectPods ignoreDS pods [] =
      if pods.all (fun p => !p.OwnerReferences.isEmpty) then .ret (selectedPods ignoreDS pods)
      else .panic "index out of range [0] with length 0") ∧
    selectPods true [webPod "web-1", proxyPod "proxy-1", webPod "web-2"] [] =
      .ret [⟨"web-1", "default"⟩, ⟨"web-2", "default"⟩] ∧
    selectPods false [webPod "web-1", proxyPod "proxy-1", webPod "web-2"] [] =
      .ret [⟨"web-1", "default"⟩, ⟨"proxy-1", "kube-system"⟩, ⟨"web-2", "default"⟩] := by
  refine ⟨?_, ?_, by decide, by decide, ?_, by decide, by decide⟩
  · intro ignoreDS
    cases ignoreDS <;> decide
  · intro ignoreDS force schedule
    have h : selectPods ignoreDS [webPod "web-1", barePod "tool", proxyPod "proxy-1"] [] =
        .panic "index out of range [0] with length 0" := by
      cases ignoreDS <;> decide
    unfold DrainNode
    simp only [calmPods, filterError]
    rw [h]
    cases force <;> simp
  · intro ignoreDS pods
    rw [selectPods_eq]
    simp

/-- C22. On a node with the single pod web-1 whose eviction is accepted and which is still
there when the wait for its deletion gives up, `EvictPod` sends the nil error and, after
the wait, the error of the wait; `DrainNode` receives one value, the first, and returns
the empty error list, whatever the schedule.  The eviction was issued. -/
theorem DrainNode_drops_wait_error :
    EvictPod (lingeringPods [webPod "web-1"]) ⟨"web-1", "default"⟩ (webPod "web-1") false true =
      ⟨[none, some ⟨"timed out waiting for the condition", false⟩],
        [.Evict "default" "web-1"]⟩ ∧
    (∀ schedule : List Nat,
      DrainNode (lingeringPods [webPod "web-1"]) schedule "node-1" true false true true =
        ⟨.ret [], [.Evict "default" "web-1"]⟩) ∧
    DrainNode (lingeringPods [webPod "web-1", webPod "web-2"]) [0, 1, 0, 1] "node-1" true false
      true true = ⟨.ret [], [.Evict "default" "web-1", .Evict "default" "web-2"]⟩ ∧
    DrainNode (lingeringPods [webPod "web-1", webPod "web-2"]) [0, 0, 1, 1] "node-1" true false
      true true =
      ⟨.ret [⟨"timed out waiting for the condition", false⟩],
        [.Evict "default" "web-1", .Evict "default" "web-2"]⟩ := by
  refine ⟨by decide, ?_, by decide, by decide⟩
  intro schedule
  have hsel : selectPods true [webPod "web-1"] [] = .ret [⟨"web-1", "default"⟩] := by decide
  have hstart : startEvictions (lingeringPods [webPod "web-1"]) false true
      [⟨"web-1", "default"⟩] [] =
      ([⟨[none, some ⟨"timed out waiting for the condition", false⟩],
        [.Evict "default" "web-1"]⟩], none) := by decide
  have hlist : (lingeringPods [webPod "web-1"]).PodsList "node-1" = ([webPod "web-1"], none) :=
    rfl
  unfold DrainNode
  rw [hlist]
  simp only [filterError, Option.isSome_none, Bool.false_eq_true, if_false, hsel, hstart,
    List.map_cons, List.map_nil, arrivals_single]
  decide

/-- C23. When the cluster rejects the eviction of a pod with an error that the filter
keeps, `EvictPod` with `force = false` sends that error and issues no delete, and
`EvictPod` with `force = true` issues a delete of the pod and sends the result of the
delete, not the error of the eviction.  In both cases one value is sent. -/
theorem EvictPod_rejected (api : PodApi) (pod : podSpec) (po : Pod) (ignore : Bool)
    (e : KubeError) (hevict : api.Evict pod.podNs pod.podName = some e)
    (hkept : filterError (some e) ignore ≠ none) :
    EvictPod api pod po false ignore = ⟨[some e], [.Evict pod.podNs pod.podName]⟩ ∧
    (∀ c ∈ (EvictPod api pod po false ignore).calls, c ≠ .Delete pod.podNs pod.podName) ∧
    EvictPod api pod po true ignore =
      ⟨[api.PodsDelete pod.podNs pod.podName],
        [.Evict pod.podNs pod.podName, .Delete pod.podNs pod.podName]⟩ := by
  have hsome : (filterError (some e) ignore).isSome = true := by
    cases h : filterError (some e) ignore with
    | none => exact absurd h hkept
    | some _ => rfl
  have h1 : EvictPod api pod po false ignore = ⟨[some e], [.Evict pod.podNs pod.podName]⟩ := by
    unfold EvictPod
    simp only [hevict, hsome, if_true, Bool.false_eq_true, if_false]
  have h2 : EvictPod api pod po true ignore =
      ⟨[api.PodsDelete pod.podNs pod.podName],
        [.Evict pod.podNs pod.podName, .Delete pod.podNs pod.podName]⟩ := by
    unfold EvictPod DeletePod
    simp only [hevict, hsome, if_true]
  refine ⟨h1, ?_, h2⟩
  intro c hc
  rw [h1] at hc
  simp only [List.mem_singleton] at hc
  rw [hc]
  simp

/-- The claim C23 on a pod guarded by a disruption budget. -/
theorem EvictPod_rejected_witness :
    (guardedPods [webPod "web-1"]).Evict "default" "web-1" =
      some ⟨"Cannot evict pod as it would violate the disruption budget", false⟩ ∧
    EvictPod (guardedPods [webPod "web-1"]) ⟨"web-1", "default"⟩ (webPod "web-1") false true =
      ⟨[some ⟨"Cannot evict pod as it would violate the disruption budget", false⟩],
        [.Evict "default" "web-1"]⟩ ∧
    EvictPod (guardedPods [webPod "web-1"]) ⟨"web-1", "default"⟩ (webPod "web-1") true true =
      ⟨[none], [.Evict "default" "web-1", .Delete "default" "web-1"]⟩ :=
  ⟨rfl,
    (EvictPod_rejected (guardedPods [webPod "web-1"]) ⟨"web-1", "default"⟩ (webPod "web-1")
      true ⟨"Cannot evict pod as it would violate the disruption budget", false⟩ rfl
      (by decide)).1,
    by decide⟩

/-! ## The order of the steps of `rolloutNode` -/

theorem inOrder_ready (nodeName newNode : String) (healthy : Bool) (err : Option KubeError)
    (rest : List Call) :
    inOrder nodeName newNode 0 (.IsNodeHealthy newNode healthy err :: rest) =
      inOrder nodeName newNode (if (healthy && err.isNone) = true then 1 else 0) rest := by
  simp [inOrder, Call.step, Call.onNode, Call.succeeded]

theorem inOrder_new (nodeName newNode : String) (err : Option KubeError) (rest : List Call) :
    inOrder nodeName newNode 1 (.AddLabelToNode newNode "new" err :: rest) =
      inOrder nodeName newNode (if err.isNone = true then 2 else 1) rest := by
  simp [inOrder, Call.step, Call.onNode, Call.succeeded]

theorem inOrder_drain (nodeName newNode : String) (errs : List KubeError) (rest : List Call) :
    inOrder nodeName newNode 2 (.DrainNode nodeName errs :: rest) =
      inOrder nodeName newNode (if errs.isEmpty = true then 3 else 2) rest := by
  simp [inOrder, Call.step, Call.onNode, Call.succeeded]

theorem inOrder_drained (nodeName newNode : String) (err : Option KubeError)
    (rest : List Call) :
    inOrder nodeName newNode 3 (.AddLabelToNode nodeName "drained" err :: rest) =
      inOrder nodeName newNode (if err.isNone = true then 4 else 3) rest := by
  have h1 : ("drained" == "new") = false := by decide
  simp [inOrder, Call.step, Call.onNode, Call.succeeded, h1]

theorem inOrder_delete (nodeName newNode : String) (err : Option KubeError)
    (rest : List Call) :
    inOrder nodeName newNode 4 (.DeleteNode nodeName err :: rest) =
      inOrder nodeName newNode (if err.isNone = true then 5 else 4) rest := by
  simp [inOrder, Call.step, Call.onNode, Call.succeeded]

theorem inOrder_unprotect (nodeName newNode : String) (done : Nat) (err : Option String)
    (rest : List Call) :
    inOrder nodeName newNode done (.DisableNewInstanceProtection err :: rest) =
      inOrder nodeName newNode done rest := by
  simp [inOrder, Call.step]

theorem inOrder_terminate (nodeName newNode : String) (err : Option String)
    (rest : List Call) :
    inOrder nodeName newNode 5 (.TerminateInstance nodeName err :: rest) =
      inOrder nodeName newNode (if err.isNone = true then 6 else 5) rest := by
  simp [inOrder, Call.step, Call.onNode, Call.succeeded]

theorem inOrder_nil (nodeName newNode : String) (done : Nat) :
    inOrder nodeName newNode done [] = true := by
  simp [inOrder]

theorem terminateNode_order (asgName nodeName newNode : String) (lastBatch : Bool) (w : World) :
    inOrder nodeName newNode 5 (terminateNode asgName nodeName lastBatch w).calls = true := by
  have hfinish : ∀ u : World, inOrder nodeName newNode 5
      (match TerminateInstance u nodeName asgName with
        | (u1, .panic m) => (⟨u1, [], [], .panicked m⟩ : NodeRun)
        | (u1, .ret err) => ⟨u1, [.TerminateInstance nodeName err], [err], .returned⟩).calls
      = true := by
    intro u
    rcases TerminateInstance u nodeName asgName with ⟨u1, res⟩
    cases res with
    | panic m => exact inOrder_nil _ _ _
    | ret err =>
      simp only
      rw [inOrder_terminate, inOrder_nil]
  unfold terminateNode
  simp only
  cases lastBatch with
  | false => simpa using hfinish w
  | true =>
    simp only [if_true]
    rcases DisableNewInstanceProtection w asgName with ⟨w1, e⟩
    cases e with
    | none =>
      simp only [NodeRun.after, List.singleton_append]
      rw [inOrder_unprotect]
      exact hfinish w1
    | some e =>
      simp only [NodeRun.after, List.singleton_append]
      rw [inOrder_unprotect]
      exact hfinish w1

theorem removeNode_order (cfg : AsgRolloutConfig) (asgName nodeName newNode : String)
    (lastBatch : Bool) (w : World) :
    inOrder nodeName newNode 3 (removeNode cfg asgName nodeName lastBatch w).calls = true := by
  unfold removeNode
  rcases AddLabelToNode w nodeName NodeStateLabelKey "drained" cfg.IgnoreNotFound with ⟨w1, res⟩
  cases res with
  | panic m => exact inOrder_nil _ _ _
  | ret e =>
    cases e with
    | some e =>
      simp only
      rw [inOrder_drained, inOrder_nil]
    | none =>
      simp only
      rcases DeleteNode w1 nodeName cfg.IgnoreNotFound with ⟨w2, de⟩
      cases de with
      | some e =>
        simp only
        rw [inOrder_drained]
        simp only [Option.isNone_none, if_true]
        rw [inOrder_delete, inOrder_nil]
      | none =>
        simp only [NodeRun.after, List.cons_append, List.nil_append]
        rw [inOrder_drained]
        simp only [Option.isNone_none, if_true]
        rw [inOrder_delete]
        simp only [Option.isNone_none, if_true]
        exact terminateNode_order asgName nodeName newNode lastBatch w2

theorem replaceNode_order (cfg : AsgRolloutConfig) (env : Surroundings)
    (asgName nodeName newNode : String) (lastBatch : Bool) (w : World) :
    inOrder nodeName newNode 1
      (replaceNode cfg env asgName nodeName lastBatch newNode w).calls = true := by
  unfold replaceNode
  rcases AddLabelToNode w newNode NodeStateLabelKey "new" cfg.IgnoreNotFound with ⟨w1, res⟩
  cases res with
  | panic m => exact inOrder_nil _ _ _
  | ret e =>
    cases e with
    | some e =>
      simp only
      rw [inOrder_new, inOrder_nil]
    | none =>
      simp only
      cases (DrainNode env.pods env.schedule nodeName true cfg.ForceDeletePods true
        cfg.IgnoreNotFound).errors with
      | panic m =>
        simp only
        rw [inOrder_new, inOrder_nil]
      | ret errs =>
        simp only
        cases errs with
        | nil =>
          simp only [List.length_nil, bne_self_eq_false, Bool.false_eq_true, if_false,
            NodeRun.after, List.cons_append, List.nil_append]
          rw [inOrder_new]
          simp only [Option.isNone_none, if_true]
          rw [inOrder_drain]
          simp only [List.isEmpty_nil, if_true]
          exact removeNode_order cfg asgName nodeName newNode lastBatch w1
        | cons x xs =>
          have hlen : ((x :: xs).length != 0) = true := by simp
          simp only [hlen, if_true]
          rw [inOrder_new]
          simp only [Option.isNone_none, if_true]
          rw [inOrder_drain, inOrder_nil]

/-- The readiness poll makes readiness checks of the new node only, and the last of them
is the one that succeeded, if any did. -/
theorem awaitReady_order (cfg : AsgRolloutConfig) (settle : World → World)
    (nodeName newNode : String) :
    ∀ (rounds : Nat) (w : World) (tail : List Call),
      inOrder nodeName newNode 0 ((awaitReady cfg settle newNode rounds w).2.1 ++ tail) =
        if (awaitReady cfg settle newNode rounds w).2.2 = some none then
          inOrder nodeName newNode 1 tail
        else if (awaitReady cfg settle newNode rounds w).2.2 = none then
          inOrder nodeName newNode 0 tail
        else inOrder nodeName newNode 0 tail := by
  intro rounds
  induction rounds with
  | zero => intro w tail; simp [awaitReady]
  | succ rounds ih =>
    intro w tail
    unfold awaitReady
    rcases IsNodeHealthy w newNode cfg.IgnoreNotFound with ⟨h, err⟩
    cases err with
    | some e =>
      simp only [List.singleton_append]
      rw [inOrder_ready]
      simp
    | none =>
      cases h with
      | true =>
        simp only [List.singleton_append]
        rw [inOrder_ready]
        simp
      | false =>
        simp only
        have := ih (settle w) tail
        rcases hrec : awaitReady cfg settle newNode rounds (settle w) with ⟨w1, calls, res⟩
        rw [hrec] at this
        simp only at this ⊢
        rw [List.cons_append, inOrder_ready]
        simp only [Bool.false_and, Bool.false_eq_true, if_false]
        exact this

theorem afterWait_order (cfg : AsgRolloutConfig) (env : Surroundings)
    (asgName nodeName newNode : String) (lastBatch : Bool) (w : World) :
    inOrder nodeName newNode 0
      (afterWait cfg env asgName nodeName lastBatch newNode w).calls = true := by
  unfold afterWait
  have h := awaitReady_order cfg env.settle nodeName newNode env.patience w
  rcases hrec : awaitReady cfg env.settle newNode env.patience w with ⟨w1, calls, res⟩
  rw [hrec] at h
  simp only at h
  cases res with
  | none =>
    simp only
    have := h []
    simpa using this
  | some r =>
    cases r with
    | some e =>
      simp only
      have := h []
      simpa using this
    | none =>
      simp only [NodeRun.after]
      rw [h]
      simp only [if_true]
      exact replaceNode_order cfg env asgName nodeName newNode lastBatch w1

/-- In a log that is in order, a call that attempts a step comes after successful calls
of all the steps before it. -/
theorem inOrder_before (nodeName newNode : String) :
    ∀ (l1 : List Call) (done : Nat) (c : Call) (l2 : List Call) (k : Nat),
      inOrder nodeName newNode done (l1 ++ c :: l2) = true → c.step = some k →
      ∀ j, done < j → j < k →
        ∃ c' ∈ l1, c'.step = some j ∧ c'.succeeded = true ∧
          c'.onNode nodeName newNode = true := by
  intro l1
  induction l1 with
  | nil =>
    intro done c l2 k h hk
    intro j hj1 hj2
    simp only [List.nil_append, inOrder, hk, Bool.and_eq_true, beq_iff_eq] at h
    omega
  | cons c0 rest ih =>
    intro done c l2 k h hk
    intro j hj1 hj2
    rw [List.cons_append, inOrder] at h
    cases hs : c0.step with
    | none =>
      rw [hs] at h
      simp only at h
      obtain ⟨c', hc', hrest⟩ := ih done c l2 k h hk j hj1 hj2
      exact ⟨c', List.mem_cons_of_mem _ hc', hrest⟩
    | some k0 =>
      rw [hs] at h
      simp only [Bool.and_eq_true, beq_iff_eq] at h
      obtain ⟨⟨hk0, hnode⟩, hrest⟩ := h
      cases hsucc : c0.succeeded with
      | false =>
        rw [hsucc] at hrest
        simp only [Bool.false_eq_true, if_false] at hrest
        obtain ⟨c', hc', hr⟩ := ih done c l2 k hrest hk j hj1 hj2
        exact ⟨c', List.mem_cons_of_mem _ hc', hr⟩
      | true =>
        rw [hsucc] at hrest
        simp only [if_true] at hrest
        by_cases hj : j = k0
        · subst hj
          exact ⟨c0, List.mem_cons_self _ _, hs, hsucc, hnode⟩
        · obtain ⟨c', hc', hr⟩ := ih k0 c l2 k hrest hk j (by omega) hj2
          exact ⟨c', List.mem_cons_of_mem _ hc', hr⟩

theorem rolloutNode_order (cfg : AsgRolloutConfig) (env : Surroundings)
    (asgName nodeName : String) (lastBatch : Bool) (w : World) :
    ∃ newNode, inOrder nodeName newNode 0
      (rolloutNode cfg env asgName nodeName lastBatch w).calls = true := by
  unfold rolloutNode
  cases rolloutNodeWait cfg env.ctx env.now env.getNewNode env.pollerFirst with
  | blocked => exact ⟨"", inOrder_nil _ _ _⟩
  | returned e => exact ⟨"", inOrder_nil _ _ _⟩
  | proceeds newNode sent =>
    refine ⟨newNode, ?_⟩
    simp only [NodeRun.after, List.nil_append]
    exact afterWait_order cfg env asgName nodeName newNode lastBatch w

/-- C26. In every run of `rolloutNode` for an old node `n`, whatever the surroundings, the
calls are in the order of the claim: a step is attempted only when all the steps before
it have succeeded, in the order readiness check of the replacement returning true,
replacement labelled new, `DrainNode(n)` returning the empty list, `n` labelled drained,
node object of `n` deleted, instance of `n` terminated.  So every call that attempts a
step comes after a successful call of each earlier step.  A run in which everything
succeeds makes exactly these six calls. -/
theorem rolloutNode_in_order (cfg : AsgRolloutConfig) (env : Surroundings)
    (asgName nodeName : String) (lastBatch : Bool) (w : World) :
    (∃ newNode, inOrder nodeName newNode 0
        (rolloutNode cfg env asgName nodeName lastBatch w).calls = true ∧
      ∀ (l1 : List Call) (c : Call) (l2 : List Call) (k j : Nat),
        (rolloutNode cfg env asgName nodeName lastBatch w).calls = l1 ++ c :: l2 →
        c.step = some k → 1 ≤ j → j < k →
        ∃ c' ∈ l1, c'.step = some j ∧ c'.succeeded = true ∧
          c'.onNode nodeName newNode = true) ∧
    (rolloutNode defaultConfig calmSurroundings "A" "node-1" false joinedWorld).calls =
      [.IsNodeHealthy "node-5" true none, .AddLabelToNode "node-5" "new" none,
        .DrainNode "node-1" [], .AddLabelToNode "node-1" "drained" none,
        .DeleteNode "node-1" none, .TerminateInstance "node-1" none] := by
  refine ⟨?_, by decide⟩
  obtain ⟨newNode, h⟩ := rolloutNode_order cfg env asgName nodeName lastBatch w
  refine ⟨newNode, h, ?_⟩
  intro l1 c l2 k j hcalls hk hj1 hj2
  rw [hcalls] at h
  exact inOrder_before nodeName newNode l1 0 c l2 k h hk j (by omega) hj2

/-- The readiness check of the empty node name fails with an error that is not NotFound. -/
theorem IsNodeHealthy_empty (w : World) (ignore : Bool) :
    ∃ e, IsNodeHealthy w "" ignore = (false, some e) ∧ e.isNotFound = false := by
  unfold IsNodeHealthy nodesGet
  by_cases hg : w.failing.contains Api.NodesGet = true
  · refine ⟨⟨"nodes get failed", false⟩, ?_, rfl⟩
    rw [if_pos hg]
    cases ignore <;> simp [filterError]
  · refine ⟨⟨"resource name may not be empty", false⟩, ?_, rfl⟩
    rw [if_neg hg]
    cases ignore <;> simp [filterError]

/-- After the context is done during the wait, `rolloutNode` goes on: it makes one
readiness check, of the empty node name, and sends its error as a second value. -/
theorem rolloutNode_after_done (cfg : AsgRolloutConfig) (asgName nodeName : String)
    (lastBatch : Bool) (w : World) (err : CtxErr) :
    ∃ e, (rolloutNode cfg (doneSurroundings err) asgName nodeName lastBatch w).calls =
        [.IsNodeHealthy "" false (some e)] ∧
      (rolloutNode cfg (doneSurroundings err) asgName nodeName lastBatch w).sent =
        [some (match err with
          | .DeadlineExceeded => "unable to get new node, Timeout Exceeded"
          | .Canceled => "unable to get new node"), some e.msg] ∧
      (rolloutNode cfg (doneSurroundings err) asgName nodeName lastBatch w).ending =
        .returned := by
  obtain ⟨e, he, _⟩ := IsNodeHealthy_empty w cfg.IgnoreNotFound
  refine ⟨e, ?_⟩
  have hwait : rolloutNodeWait cfg (doneSurroundings err).ctx (doneSurroundings err).now
      (doneSurroundings err).getNewNode (doneSurroundings err).pollerFirst =
      .proceeds "" [match err with
        | .DeadlineExceeded => "unable to get new node, Timeout Exceeded"
        | .Canceled => "unable to get new node"] := by
    cases err <;> rfl
  have hready : awaitReady cfg (doneSurroundings err).settle ""
      (doneSurroundings err).patience w = (w, [.IsNodeHealthy "" false (some e)], some (some e)) := by
    have hp : (doneSurroundings err).patience = 2 + 1 := rfl
    rw [hp, awaitReady, he]
  unfold rolloutNode
  rw [hwait]
  simp only
  unfold afterWait
  rw [hready]
  simp [NodeRun.after]

/-- C27. When the parent context is done while `rolloutNode` waits for a new node, the
workflow does not exit after it has sent the error of the context: for every state and
configuration it makes a readiness check, of the empty node name, and sends the error of
that check as a second value on the error channel.  It labels, drains, deletes and
terminates nothing. -/
theorem rolloutNode_goes_on_after_done :
    (∀ (cfg : AsgRolloutConfig) (asgName nodeName : String) (lastBatch : Bool) (w : World)
      (err : CtxErr),
      (rolloutNode cfg (doneSurroundings err) asgName nodeName lastBatch w).sent.length = 2 ∧
      (rolloutNode cfg (doneSurroundings err) asgName nodeName lastBatch w).calls.length = 1) ∧
    (rolloutNode defaultConfig (doneSurroundings .Canceled) "A" "node-1" false joinedWorld).sent =
      [some "unable to get new node", some "resource name may not be empty"] ∧
    (rolloutNode defaultConfig (doneSurroundings .DeadlineExceeded) "A" "node-1" false
      joinedWorld).sent =
      [some "unable to get new node, Timeout Exceeded", some "resource name may not be empty"] ∧
    (rolloutNode defaultConfig (doneSurroundings .Canceled) "A" "node-1" false joinedWorld).calls =
      [.IsNodeHealthy "" false (some ⟨"resource name may not be empty", false⟩)] ∧
    (rolloutNode defaultConfig (doneSurroundings .Canceled) "A" "node-1" false
      joinedWorld).ending = .returned := by
  refine ⟨?_, by decide, by decide, by decide, by decide⟩
  intro cfg asgName nodeName lastBatch w err
  obtain ⟨e, h1, h2, _⟩ := rolloutNode_after_done cfg asgName nodeName lastBatch w err
  rw [h1, h2]
  exact ⟨rfl, rfl⟩

/-- C28. The number of values a run of `rolloutNode` sends on the error channel of the
batch is not always one.  When everything succeeds it sends the nil error, once.  When
the deletion of the node object fails it sends nothing and blocks for ever, the error
going to the channel of the poller.  When the context is done during the wait it sends
two errors.  When, on the last batch, the scale-in protection cannot be switched off it
sends that error and then the result of the termination. -/
theorem rolloutNode_sends_not_once :
    ((rolloutNode defaultConfig calmSurroundings "A" "node-1" false joinedWorld).sent = [none] ∧
      (rolloutNode defaultConfig calmSurroundings "A" "node-1" false joinedWorld).ending =
        .returned) ∧
    ((rolloutNode defaultConfig calmSurroundings "A" "node-1" false
        (joinedWorldFailing [Api.NodesDelete])).sent = [] ∧
      (rolloutNode defaultConfig calmSurroundings "A" "node-1" false
        (joinedWorldFailing [Api.NodesDelete])).calls =
        [.IsNodeHealthy "node-5" true none, .AddLabelToNode "node-5" "new" none,
          .DrainNode "node-1" [], .AddLabelToNode "node-1" "drained" none,
          .DeleteNode "node-1" (some ⟨"nodes delete failed", false⟩)] ∧
      (rolloutNode defaultConfig calmSurroundings "A" "node-1" false
        (joinedWorldFailing [Api.NodesDelete])).ending = .blocked) ∧
    (rolloutNode defaultConfig (doneSurroundings .Canceled) "A" "node-1" false joinedWorld).sent =
      [some "unable to get new node", some "resource name may not be empty"] ∧
    (rolloutNode defaultConfig calmSurroundings "A" "node-1" true
      (joinedWorldFailing [Api.UpdateAutoScalingGroup])).sent =
      [some "Unable to unset new Instance Protection update of the auto scaling group failed",
        none] ∧
    (rolloutNode defaultConfig calmSurroundings "A" "node-1" true
      (joinedWorldFailing [Api.UpdateAutoScalingGroup])).ending = .returned := by
  decide
end Dockyard
